import Mathlib

/-!
# DataDome Go module: a shallow embedding of the request-protection middleware

The development follows the Go package (client.go, utils.go, models.go).
Go strings are byte sequences, so a Go `string` is a `List UInt8` here; `len`
is the number of bytes and slicing is `List.take` / `List.drop`.  Go `int`
values are `Int` (every integer the code computes with is far below 2^63).

Standard-library behaviour the package relies on (UTF-8 decoding, `strings`,
`strconv`, `net/http` header maps, `regexp`) is modelled in the first part of
the file, under the name the Go library gives it.
-/

namespace Datadome

/-! ## Go strings -/

/-- A Go string: an immutable sequence of bytes. -/
abbrev GoString := List UInt8

/-- The bytes of a string literal (its UTF-8 encoding, as in Go source text). -/
def str (s : String) : GoString := s.toUTF8.data.toList

/-- Go builtin len on a string: the number of bytes, as an int. -/
def len (s : GoString) : Int := (s.length : Int)

/-! ## unicode/utf8 -/

/-- The rune utf8.RuneError (U+FFFD). -/
def RuneError : Nat := 0xFFFD

/-- A continuation byte, 0x80 to 0xBF. -/
def isCont (b : UInt8) : Bool := decide (0x80 ≤ b.toNat) && decide (b.toNat ≤ 0xBF)

/-- Lowest accepted second byte after the lead byte x of a 3 or 4 byte sequence. -/
def secondLo (x : Nat) : Nat := if x = 0xE0 then 0xA0 else if x = 0xF0 then 0x90 else 0x80

/-- Highest accepted second byte after the lead byte x of a 3 or 4 byte sequence. -/
def secondHi (x : Nat) : Nat := if x = 0xED then 0x9F else if x = 0xF4 then 0x8F else 0xBF

/-- Go utf8.DecodeRuneInString: the first rune of the string and its width in
bytes.  An invalid or truncated encoding gives (RuneError, 1); the empty
string gives (RuneError, 0). -/
def DecodeRuneInString : GoString → Nat × Nat
  | [] => (RuneError, 0)
  | b0 :: rest =>
    let x := b0.toNat
    if x < 0x80 then (x, 1)
    else if 0xC2 ≤ x ∧ x ≤ 0xDF then
      match rest with
      | b1 :: _ =>
        if isCont b1 then ((x % 32) * 64 + b1.toNat % 64, 2) else (RuneError, 1)
      | [] => (RuneError, 1)
    else if 0xE0 ≤ x ∧ x ≤ 0xEF then
      match rest with
      | b1 :: b2 :: _ =>
        if secondLo x ≤ b1.toNat ∧ b1.toNat ≤ secondHi x ∧ isCont b2 = true then
          ((x % 16) * 4096 + (b1.toNat % 64) * 64 + b2.toNat % 64, 3)
        else (RuneError, 1)
      | _ => (RuneError, 1)
    else if 0xF0 ≤ x ∧ x ≤ 0xF4 then
      match rest with
      | b1 :: b2 :: b3 :: _ =>
        if secondLo x ≤ b1.toNat ∧ b1.toNat ≤ secondHi x ∧ isCont b2 = true ∧ isCont b3 = true then
          ((x % 8) * 262144 + (b1.toNat % 64) * 4096 + (b2.toNat % 64) * 64 + b3.toNat % 64, 4)
        else (RuneError, 1)
      | _ => (RuneError, 1)
    else (RuneError, 1)

/-- The runes of a string, each with the bytes it was decoded from, in the
order a Go `for _, r := range s` loop visits them.  The first argument counts
bytes of the current rune still to be skipped. -/
def runeChunksAux : Nat → GoString → List (Nat × GoString)
  | _, [] => []
  | k + 1, _ :: t => runeChunksAux k t
  | 0, b :: t =>
    let d := DecodeRuneInString (b :: t)
    (d.1, (b :: t).take d.2) :: runeChunksAux (d.2 - 1) t

/-- Runes of a string with their source bytes. -/
def runeChunks (s : GoString) : List (Nat × GoString) := runeChunksAux 0 s

/-- The runes of a string, as `[]rune(s)` gives them. -/
def runes (s : GoString) : List Nat := (runeChunks s).map Prod.fst

/-! ## unicode, strings -/

/-- Go unicode.IsSpace: the Unicode White_Space property. -/
def IsSpace (r : Nat) : Bool :=
  r == 0x09 || r == 0x0A || r == 0x0B || r == 0x0C || r == 0x0D || r == 0x20 ||
  r == 0x85 || r == 0xA0 || r == 0x1680 || (decide (0x2000 ≤ r) && decide (r ≤ 0x200A)) ||
  r == 0x2028 || r == 0x2029 || r == 0x202F || r == 0x205F || r == 0x3000

/-- The loop of strings.FieldsFunc over decoded runes: cur is the field being
accumulated (none between fields). -/
def fieldsAux : Option GoString → List (Nat × GoString) → List GoString
  | none, [] => []
  | some cur, [] => [cur]
  | none, (r, bs) :: t => if IsSpace r then fieldsAux none t else fieldsAux (some bs) t
  | some cur, (r, bs) :: t =>
    if IsSpace r then cur :: fieldsAux none t else fieldsAux (some (cur ++ bs)) t

/-- Go strings.Fields: the maximal runs of non-space runes, in order. -/
def Fields (s : GoString) : List GoString := fieldsAux none (runeChunks s)

/-- The lower-case form of an ASCII letter byte; any other byte is unchanged. -/
def toLowerASCII (b : UInt8) : UInt8 :=
  if 0x41 ≤ b.toNat ∧ b.toNat ≤ 0x5A then UInt8.ofNat (b.toNat + 32) else b

/-- ASCII upper-case letter. -/
def isUpperASCII (r : Nat) : Bool := decide (0x41 ≤ r) && decide (r ≤ 0x5A)

/-- ASCII lower-case letter. -/
def isLowerASCII (r : Nat) : Bool := decide (0x61 ≤ r) && decide (r ≤ 0x7A)

/-- Whether rune r lies in the unicode.SimpleFold orbit of the ASCII rune c.
The orbit of an ASCII letter is its two cases, plus U+212A (Kelvin sign) for
k and U+017F (long s) for s; any other ASCII rune folds only to itself. -/
def foldsToASCII (c r : Nat) : Bool :=
  r == c ||
  (isUpperASCII c && r == c + 32) ||
  (isLowerASCII c && r + 32 == c) ||
  ((c == 0x4B || c == 0x6B) && r == 0x212A) ||
  ((c == 0x53 || c == 0x73) && r == 0x17F)

/-- Pairwise comparison of the runes of s with the ASCII runes of t under
simple case folding. -/
def equalFoldRunes : List Nat → List Nat → Bool
  | [], [] => true
  | sr :: s, tr :: t => foldsToASCII tr sr && equalFoldRunes s t
  | _, _ => false

/-- Go strings.EqualFold(s, t) for a second argument t made of ASCII bytes
(the package only calls it with the constants set-cookie, http and https):
the strings, read as runes, are equal under Unicode simple case folding. -/
def EqualFold (s t : GoString) : Bool := equalFoldRunes (runes s) (t.map UInt8.toNat)

/-- Go strings.Index for the first occurrence of sep in s, none when absent
(Go returns -1). -/
def Index (s sep : GoString) : Option Nat :=
  match s with
  | [] => if sep = [] then some 0 else none
  | b :: t => if sep.isPrefixOf (b :: t) = true then some 0 else (Index t sep).map (· + 1)

/-! ## strconv -/

/-- The ASCII digit byte of a digit value. -/
def digitByte (d : Nat) : UInt8 := UInt8.ofNat (0x30 + d)

/-- Decimal digits of a natural number, most significant first; fuel bounds
the number of digits. -/
def natDigits : Nat → Nat → GoString → GoString
  | 0, _, acc => acc
  | fuel + 1, n, acc =>
    if n / 10 = 0 then digitByte (n % 10) :: acc
    else natDigits fuel (n / 10) (digitByte (n % 10) :: acc)

/-- Go strconv.Itoa: the decimal representation of an int. -/
def Itoa (n : Int) : GoString :=
  if n < 0 then 0x2D :: natDigits (n.natAbs + 1) n.natAbs []
  else natDigits (n.natAbs + 1) n.natAbs []

/-! ## net/textproto, net/http headers -/

/-- Go textproto validHeaderFieldByte: the RFC 7230 token characters. -/
def validHeaderFieldByte (c : UInt8) : Bool :=
  let x := c.toNat
  (decide (0x30 ≤ x) && decide (x ≤ 0x39)) || (decide (0x41 ≤ x) && decide (x ≤ 0x5A)) ||
  (decide (0x61 ≤ x) && decide (x ≤ 0x7A)) ||
  x == 0x21 || x == 0x23 || x == 0x24 || x == 0x25 || x == 0x26 || x == 0x27 ||
  x == 0x2A || x == 0x2B || x == 0x2D || x == 0x2E || x == 0x5E || x == 0x5F ||
  x == 0x60 || x == 0x7C || x == 0x7E

/-- The canonicalising loop of textproto.canonicalMIMEHeaderKey: upper-case
the first letter and each letter after a hyphen, lower-case the others. -/
def canonicalLoop : Bool → GoString → GoString
  | _, [] => []
  | upper, c :: t =>
    let c1 : UInt8 :=
      if upper = true ∧ 0x61 ≤ c.toNat ∧ c.toNat ≤ 0x7A then UInt8.ofNat (c.toNat - 32)
      else if upper = false ∧ 0x41 ≤ c.toNat ∧ c.toNat ≤ 0x5A then UInt8.ofNat (c.toNat + 32)
      else c
    c1 :: canonicalLoop (c1 == 0x2D) t

/-- Go textproto.CanonicalMIMEHeaderKey: a key holding a byte that is not a
token character is returned unchanged; any other key is canonicalised. -/
def CanonicalMIMEHeaderKey (s : GoString) : GoString :=
  if s.all validHeaderFieldByte then canonicalLoop true s else s

/-- Go http.Header, a map from key to the list of its values.  The map is an
association list; the first entry of a key is the one in force. -/
abbrev Header := List (GoString × List GoString)

/-- Plain map lookup h[key]; a missing key gives the empty slice. -/
def Header.values (h : Header) (key : GoString) : List GoString :=
  match h with
  | [] => []
  | (k, vs) :: t => if k = key then vs else Header.values t key

/-- Plain map store h[key] = vs. -/
def Header.put (h : Header) (key : GoString) (vs : List GoString) : Header :=
  match h with
  | [] => [(key, vs)]
  | (k, ws) :: t => if k = key then (k, vs) :: t else (k, ws) :: Header.put t key vs

/-- Go Header.Get: the first value of the canonicalised key, or the empty string. -/
def Header.Get (h : Header) (key : GoString) : GoString :=
  match Header.values h (CanonicalMIMEHeaderKey key) with
  | [] => []
  | v :: _ => v

/-- Go Header.Set: replaces the values of the canonicalised key by the single value. -/
def Header.Set (h : Header) (key value : GoString) : Header :=
  Header.put h (CanonicalMIMEHeaderKey key) [value]

/-- Go Header.Add: appends the value to the values of the canonicalised key. -/
def Header.Add (h : Header) (key value : GoString) : Header :=
  Header.put h (CanonicalMIMEHeaderKey key)
    (Header.values h (CanonicalMIMEHeaderKey key) ++ [value])

/-! ## utils.go: the field catalog and truncation -/

/-- ApiFields describes the fields expected for the payload; a Go string type. -/
abbrev ApiFields := GoString

def Accept : ApiFields := str "Accept"
def AcceptCharset : ApiFields := str "AcceptCharset"
def AcceptEncoding : ApiFields := str "AcceptEncoding"
def AcceptLanguage : ApiFields := str "AcceptLanguage"
def CacheControl : ApiFields := str "CacheControl"
def ClientID : ApiFields := str "ClientID"
def Connection : ApiFields := str "Connection"
def ContentType : ApiFields := str "ContentType"
def From : ApiFields := str "From"
def GraphQLOperationCount : ApiFields := str "GraphQLOperationCount"
def GraphQLOperationName : ApiFields := str "GraphQLOperationName"
def GraphQLOperationType : ApiFields := str "GraphQLOperationType"
def HeadersList : ApiFields := str "HeadersList"
def Host : ApiFields := str "Host"
def Origin : ApiFields := str "Origin"
def Pragma : ApiFields := str "Pragma"
def Referer : ApiFields := str "Referer"
def Request : ApiFields := str "Request"
def SecCHDeviceMemory : ApiFields := str "SecCHDeviceMemory"
def SecCHUA : ApiFields := str "SecCHUA"
def SecCHUAArch : ApiFields := str "SecCHUAArch"
def SecCHUAFullVersionList : ApiFields := str "SecCHUAFullVersionList"
def SecCHUAMobile : ApiFields := str "SecCHUAMobile"
def SecCHUAModel : ApiFields := str "SecCHUAModel"
def SecCHUAPlatform : ApiFields := str "SecCHUAPlatform"
def SecFetchUser : ApiFields := str "SecFetchUser"
def SecFetchDest : ApiFields := str "SecFetchDest"
def SecFetchMode : ApiFields := str "SecFetchMode"
def SecFetchSite : ApiFields := str "SecFetchSite"
def ServerHostname : ApiFields := str "ServerHostname"
def ServerName : ApiFields := str "ServerName"
def TrueClientIP : ApiFields := str "TrueClientIP"
def UserAgent : ApiFields := str "UserAgent"
def Via : ApiFields := str "Via"
def XForwardedForIP : ApiFields := str "XForwardedForIP"
def XRealIP : ApiFields := str "XRealIP"
def XRequestedWith : ApiFields := str "XRequestedWith"

/-- Source getTruncationSize: the maximal size allowed for a given field; the
switch falls through to 0 for a key that no case lists. -/
def getTruncationSize (key : ApiFields) : Int :=
  if key ∈ [SecCHDeviceMemory, SecCHUAMobile, SecFetchUser] then 8
  else if key ∈ [SecCHUAArch] then 16
  else if key ∈ [SecCHUAPlatform, SecFetchDest, SecFetchMode] then 32
  else if key ∈ [ContentType, SecFetchSite] then 64
  else if key ∈ [CacheControl, ClientID, XRequestedWith, AcceptCharset, AcceptEncoding,
      Pragma, Connection, From, SecCHUA, SecCHUAModel, TrueClientIP, XRealIP,
      GraphQLOperationName] then 128
  else if key ∈ [AcceptLanguage, SecCHUAFullVersionList, Via] then 256
  else if key ∈ [HeadersList, Origin, ServerHostname, ServerName, Accept, Host] then 512
  else if key ∈ [XForwardedForIP] then -512
  else if key ∈ [UserAgent] then 768
  else if key ∈ [Referer] then 1024
  else if key ∈ [Request] then 2048
  else 0

/-- Source truncateValue: the truncated value of the given key; a value that
does not need to be truncated remains unchanged. -/
def truncateValue (key : ApiFields) (value : GoString) : GoString :=
  if value = [] then []
  else
    let limit := getTruncationSize key
    if limit < 0 ∧ len value > -1 * limit then
      let limit := limit * -1
      value.drop (len value - limit).toNat
    else if limit > 0 ∧ len value > limit then
      value.take limit.toNat
    else value

/-! ## net/url, net/http: requests, responses, response writers -/

/-- Go strings.LastIndexByte, none when the byte does not occur. -/
def LastIndexByte : GoString → UInt8 → Option Nat
  | [], _ => none
  | b :: t, c =>
    match LastIndexByte t c with
    | some i => some (i + 1)
    | none => if b = c then some 0 else none

/-- Go net/url validOptionalPort: empty, or a colon followed by digits only. -/
def validOptionalPort (port : GoString) : Bool :=
  match port with
  | [] => true
  | c :: t => c == 0x3A && t.all (fun b => decide (0x30 ≤ b.toNat) && decide (b.toNat ≤ 0x39))

/-- The fields of a parsed url.URL that the package reads or writes. -/
structure URL where
  Scheme : GoString := []
  Host : GoString := []
  Path : GoString := []
  RawQuery : GoString := []
  Fragment : GoString := []
  deriving DecidableEq, Repr

/-- Go URL.Port: the port part of Host without the leading colon, empty when
Host holds no valid port. -/
def URL.Port (u : URL) : GoString :=
  match LastIndexByte u.Host 0x3A with
  | some colon => if validOptionalPort (u.Host.drop colon) then u.Host.drop (colon + 1) else []
  | none => []

/-! ## io: readers -/

/-- The error a Read returns: nil, io.EOF, or another error. -/
inductive ReadErr where
  | nil
  | EOF
  | other (err : GoString)
  deriving DecidableEq, Repr

/-- What a reader has in store: bytes that arrive together, or an error that
a Read call will report. -/
inductive ReadStep where
  | data (bs : GoString)
  | fail (err : GoString)
  deriving DecidableEq, Repr

/-- An io.Reader such as the body of a request, by what it has in store.  A
Read call delivers bytes of the first step, as many as the buffer takes; the
end is reported by io.EOF, on a call of its own or, when eofWithData is set,
together with the last bytes. -/
structure Body where
  pending : List ReadStep := []
  eofWithData : Bool := false
  deriving DecidableEq, Repr

/-- Method Read of the reader for a buffer of n bytes: the bytes read, the
error, and the reader afterwards. -/
def Body.Read (b : Body) (n : Nat) : GoString × ReadErr × Body :=
  match b.pending with
  | [] => ([], ReadErr.EOF, b)
  | ReadStep.fail err :: t => ([], ReadErr.other err, { b with pending := t })
  | ReadStep.data bs :: t =>
    if bs.drop n ≠ [] then (bs.take n, ReadErr.nil, { b with pending := ReadStep.data (bs.drop n) :: t })
    else if t = [] ∧ b.eofWithData = true then (bs, ReadErr.EOF, { b with pending := [] })
    else (bs, ReadErr.nil, { b with pending := t })

/-- The bytes a reader has in store, in order. -/
def Body.bytes (b : Body) : GoString :=
  (b.pending.map (fun s => match s with
    | ReadStep.data bs => bs
    | ReadStep.fail _ => [])).flatten

/-- Whether every Read of the reader succeeds: no error is in store. -/
def Body.succeeds (b : Body) : Bool :=
  b.pending.all (fun s => match s with
    | ReadStep.data _ => true
    | ReadStep.fail _ => false)

/-- A bound on the number of Read calls that do not end the reading: each
such call removes a byte or a step. -/
def Body.size (b : Body) : Nat :=
  (b.pending.map (fun s => match s with
    | ReadStep.data bs => bs.length + 1
    | ReadStep.fail _ => 1)).sum

/-- An incoming http.Request: the fields the package reads or writes.  TLS is
true when the request's TLS connection state is non-nil.  (The unqualified
name Request is the ApiFields constant of the package.) -/
structure http.Request where
  Method : GoString := []
  URL : URL := {}
  Header : Header := []
  Host : GoString := []
  RemoteAddr : GoString := []
  ContentLength : Int := 0
  TLS : Bool := false
  Body : Body := {}
  deriving DecidableEq, Repr

/-- The response of the Protection API, with the body as io.ReadAll returned it. -/
structure Response where
  StatusCode : Int
  Header : Header := []
  Body : GoString := []
  deriving DecidableEq, Repr

/-- A call received by a response writer.  WriteHeader records the header map
as it stood when the status line was written. -/
inductive WriterCall where
  | WriteHeader (statusCode : Int) (header : Header)
  | Write (data : GoString)
  deriving DecidableEq, Repr

/-- An http.ResponseWriter, as a recorder: the header map handed out by
Header(), the WriteHeader and Write calls received so far (oldest first), and
the error that a Write call on this writer reports (none when writes succeed). -/
structure ResponseWriter where
  header : Header := []
  calls : List WriterCall := []
  writeErr : Option GoString := none
  deriving DecidableEq, Repr

/-- Method WriteHeader of the response writer. -/
def ResponseWriter.WriteHeader (w : ResponseWriter) (statusCode : Int) : ResponseWriter :=
  { w with calls := w.calls ++ [WriterCall.WriteHeader statusCode w.header] }

/-- Method Write of the response writer: the writer afterwards and the error returned. -/
def ResponseWriter.Write (w : ResponseWriter) (data : GoString) : ResponseWriter × Option GoString :=
  ({ w with calls := w.calls ++ [WriterCall.Write data] }, w.writeErr)

/-- The status codes written to the writer, oldest first. -/
def ResponseWriter.statuses (w : ResponseWriter) : List Int :=
  w.calls.filterMap (fun c => match c with
    | WriterCall.WriteHeader s _ => some s
    | WriterCall.Write _ => none)

/-- The body bytes written to the writer, in order. -/
def ResponseWriter.body (w : ResponseWriter) : GoString :=
  w.calls.flatMap (fun c => match c with
    | WriterCall.WriteHeader _ _ => []
    | WriterCall.Write d => d)

/-- The request sent to the Protection API. -/
structure OutboundRequest where
  Method : GoString
  URL : GoString
  Header : Header
  Body : GoString
  deriving DecidableEq, Repr

/-- Outcome of httpClient.Do followed by io.ReadAll on the response body. -/
inductive DoResult where
  | transportError (cause : GoString)
  | readError (statusCode : Int) (header : Header) (cause : GoString)
  | ok (response : Response)
  deriving DecidableEq, Repr

/-! ## regexp -/

/-- A compiled regexp.Regexp, given by its MatchString method. -/
structure Regexp where
  MatchString : GoString → Bool

/-- Regular expressions over runes, for the patterns the package and its
tests define: literals (plain or under the case-insensitive flag),
concatenation, alternation, the end-of-text anchor, an optional part (a?) and
the greedy any-character star (.* without the s flag). -/
inductive RE where
  | empty
  | lit (c : Nat)
  | foldLit (c : Nat)
  | cat (a b : RE)
  | alt (a b : RE)
  | endText
  | opt (a : RE)
  | anyStar
  deriving DecidableEq, Repr

/-- The inputs left by .* in greedy order: every rune up to the first line
feed may be taken, the longest run first. -/
def anyStarRun : List Nat → List (List Nat)
  | [] => [[]]
  | r :: t => if r = 0x0A then [r :: t] else anyStarRun t ++ [r :: t]

/-- All the ways the expression matches at the start of the input: the list of
remaining inputs, in the priority order of a backtracking matcher. -/
def RE.run : RE → List Nat → List (List Nat)
  | RE.empty, s => [s]
  | RE.lit c, s =>
    match s with
    | r :: t => if r = c then [t] else []
    | [] => []
  | RE.foldLit c, s =>
    match s with
    | r :: t => if foldsToASCII c r = true then [t] else []
    | [] => []
  | RE.cat a b, s => (RE.run a s).flatMap (RE.run b)
  | RE.alt a b, s => RE.run a s ++ RE.run b s
  | RE.endText, s => if s = [] then [[]] else []
  | RE.opt a, s => RE.run a s ++ [s]
  | RE.anyStar, s => anyStarRun s

/-- Unanchored search, as Regexp.MatchString does: the expression matches at
some position of the rune sequence of the string. -/
def RE.MatchString (re : RE) (s : GoString) : Bool :=
  (runes s).tails.any (fun t => !(RE.run re t).isEmpty)

/-- The compiled form of an expression. -/
def RE.toRegexp (re : RE) : Regexp := { MatchString := RE.MatchString re }

/-- A word, rune by rune; fold selects case-insensitive literals. -/
def RE.word (fold : Bool) (w : List Nat) : RE :=
  w.foldr (fun c acc => RE.cat (if fold = true then RE.foldLit c else RE.lit c) acc) RE.empty

/-- The alternation a|b1|b2|... -/
def RE.anyOf : RE → List RE → RE
  | a, [] => a
  | a, b :: t => RE.alt a (RE.anyOf b t)

/-! ## models.go -/

def DefaultEnableGraphQLSupportValue : Bool := false
def DefaultEnableReferrerRestorationValue : Bool := false
def DefaultEndpointValue : GoString := str "api.datadome.co"
def DefaultMaximumBodySizeValue : Int := 25 * 1024
def DefaultModuleNameValue : GoString := str "Golang"
def DefaultModuleVersionValue : GoString := str "2.2.0"
def DefaultTimeoutValue : Int := 150
def DefaultUrlPatternInclusionValue : GoString := str ""
def DefaultUrlPatternExclusionValue : GoString :=
  str "(?i)\\.(avi|avif|bmp|css|eot|flac|flv|gif|gz|ico|jpeg|jpg|js|json|less|map|mka|mkv|mov|mp3|mp4|mpeg|mpg|ogg|ogm|opus|otf|png|svg|svgz|swf|ttf|wav|webm|webp|woff|woff2|xml|zip)$"
def DefaultUseXForwardedHostValue : Bool := false

/-- The alternatives of DefaultUrlPatternExclusionValue, in pattern order. -/
def defaultExclusionExtensions : List GoString :=
  [str "avi", str "avif", str "bmp", str "css", str "eot", str "flac", str "flv", str "gif",
   str "gz", str "ico", str "jpeg", str "jpg", str "js", str "json", str "less", str "map",
   str "mka", str "mkv", str "mov", str "mp3", str "mp4", str "mpeg", str "mpg", str "ogg",
   str "ogm", str "opus", str "otf", str "png", str "svg", str "svgz", str "swf", str "ttf",
   str "wav", str "webm", str "webp", str "woff", str "woff2", str "xml", str "zip"]

/-- The expression that DefaultUrlPatternExclusionValue denotes: under (?i), a
dot, one of the extensions, then the end of the text. -/
def defaultExclusionRE : RE :=
  RE.cat (RE.foldLit 0x2E)
    (RE.cat
      (RE.anyOf (RE.word true ((str "avi").map UInt8.toNat))
        ((defaultExclusionExtensions.drop 1).map (fun e => RE.word true (e.map UInt8.toNat))))
      RE.endText)

/-- Source Logger: the interface for logging.  Its methods only print, so a
logger is represented by which implementation it is: the defaultLogger of the
package, or an implementation of the caller. -/
inductive Logger where
  | defaultLogger
  | custom (id : Nat)
  deriving DecidableEq, Repr

/-- Source NewDefaultLogger: a new default Logger instance. -/
def NewDefaultLogger : Logger := Logger.defaultLogger

/-- Client is used to interact with the Protection API.  Logging does not
influence any value computed here, so the Logger is only stored; the
httpClient is represented by the Do function of Lib. -/
structure Client where
  EnableGraphQLSupport : Bool
  EnableReferrerRestoration : Bool
  Endpoint : GoString
  Logger : Logger := NewDefaultLogger
  MaximumBodySize : Int
  ModuleName : GoString
  ModuleVersion : GoString
  ServerSideKey : GoString
  Timeout : Int
  UrlPatternInclusion : GoString
  UrlPatternExclusion : GoString
  UseXForwardedHost : Bool := false
  endpoint : GoString := []
  urlPatternExclusion : Option Regexp := none
  urlPatternInclusion : Option Regexp := none

/-- OperationType describes the expected operations values for a GraphQL query. -/
abbrev OperationType := GoString

def Mutation : OperationType := str "mutation"
def Query : OperationType := str "query"
def Subscription : OperationType := str "subscription"

/-- GraphQLData describes the informations extracted from the GraphQL query. -/
structure GraphQLData where
  Type_ : OperationType
  Name : GoString
  Count : Int
  deriving DecidableEq, Repr

/-- ProtectionAPIRequestPayload is used to construct the payload sent to the
Protection API.  GraphQLOperationName is a pointer in the source: none is nil. -/
structure ProtectionAPIRequestPayload where
  Key : GoString := []
  RequestModuleName : GoString := []
  ModuleVersion : GoString := []
  ServerName : GoString := []
  APIConnectionState : GoString := []
  IP : GoString := []
  Port : GoString := []
  TimeRequest : GoString := []
  Protocol : GoString := []
  Method : GoString := []
  ServerHostName : GoString := []
  Request : GoString := []
  HeadersList : GoString := []
  Host : GoString := []
  UserAgent : GoString := []
  Referer : GoString := []
  Accept : GoString := []
  AcceptEncoding : GoString := []
  AcceptLanguage : GoString := []
  AcceptCharset : GoString := []
  Origin : GoString := []
  XForwardedForIP : GoString := []
  XRequestedWith : GoString := []
  Connection : GoString := []
  Pragma : GoString := []
  CacheControl : GoString := []
  CookiesLen : GoString := []
  CookiesList : GoString := []
  AuthorizationLen : GoString := []
  PostParamLen : GoString := []
  XRealIP : GoString := []
  ClientID : GoString := []
  SecChDeviceMemory : GoString := []
  SecChUA : GoString := []
  SecChUAArch : GoString := []
  SecChUAFullVersionList : GoString := []
  SecChUAMobile : GoString := []
  SecChUAModel : GoString := []
  SecChUAPlatform : GoString := []
  SecFetchDest : GoString := []
  SecFetchMode : GoString := []
  SecFetchSite : GoString := []
  SecFetchUser : GoString := []
  Via : GoString := []
  From : GoString := []
  ContentType : GoString := []
  TrueClientIP : GoString := []
  GraphQLOperationCount : GoString := []
  GraphQLOperationName : Option GoString := none
  GraphQLOperationType : OperationType := []
  deriving DecidableEq, Repr

/-! ## The environment of the package -/

/-- The errors the package creates or passes on, one constructor per place in
the source (the message text is given with each). -/
inductive Error where
  /-- Message: fail to parse request's IP: %w -/
  | parseIP (cause : GoString)
  /-- Message: fail to set query values: %w -/
  | setQueryValues (cause : GoString)
  /-- Message: error when instancing new DataDome request %w -/
  | newRequest (cause : GoString)
  /-- Message: error when performing DataDome request: %w -/
  | transport (cause : GoString)
  /-- Message: error when reading DataDome response %w -/
  | readBody (cause : GoString)
  /-- Message: fails to get status code and response headers from Protection API response. Bypass DataDome. -/
  | inconsistent
  /-- The error returned by Write on the response writer, passed on as it is. -/
  | write (cause : GoString)
  /-- Message: %s response from Protection API - Unexpected error. -/
  | unexpectedStatus (ddStatus : GoString)
  deriving DecidableEq, Repr

/-- Behaviour of the standard library and of the outside world that the
package calls: every theorem holds for each value of this structure. -/
structure Lib where
  /-- Go net.SplitHostPort. -/
  SplitHostPort : GoString → Except GoString (GoString × GoString)
  /-- Go Request.Cookie: the value of the named cookie, none when it returns an error. -/
  Cookie : Header → GoString → Option GoString
  /-- Go time.Now().UnixNano(). -/
  UnixNano : Int
  /-- Go regexp.Compile. -/
  Compile : GoString → Except GoString Regexp
  /-- The error of http.NewRequestWithContext for the given URL, none on success. -/
  NewRequestErr : GoString → Option GoString
  /-- Method Do of the httpClient of the Client, then io.ReadAll of the response body. -/
  Do : OutboundRequest → DoResult

/-- The two optional stages of buildRequest, Referer restoration and the
GraphQL probe; buildRequest is defined for any implementation of them.  Each
takes the request and gives it back as it leaves it. -/
structure Probes where
  /-- Source isMatchingReferrer; the error case is none. -/
  isMatchingReferrer : http.Request → Option Bool
  /-- Source restoreReferrer; the error is logged by the caller and dropped. -/
  restoreReferrer : http.Request → http.Request
  /-- Source getGraphQLData; none when it returns an error (and a nil result). -/
  getGraphQLData : http.Request → Int → Option GraphQLData × http.Request

/-- An http.Handler supplied by the caller.  Its ServeHTTP is caller code: the
model records each invocation and does not run it. -/
structure Handler where
  id : Nat
  deriving DecidableEq, Repr

/-- What a run of the middleware does that is visible outside of its result:
building a payload, calling the Protection API, invoking the next handler
(with the response writer passed, none for a nil interface value, and the
request as it stood). -/
inductive Event where
  | buildRequest
  | outbound (req : OutboundRequest)
  | next (h : Handler) (response : Option ResponseWriter) (r : http.Request)
  deriving DecidableEq, Repr

/-! ## utils.go: request inspectors -/

/-- Source getMicroTime: the current unix timestamp in microseconds. -/
def getMicroTime (lib : Lib) : GoString := Itoa (Int.tdiv lib.UnixNano 1000)

/-- Source getIP: the IP of the emitter from the RemoteAddr field. -/
def getIP (lib : Lib) (r : http.Request) : Except GoString GoString :=
  match lib.SplitHostPort r.RemoteAddr with
  | Except.ok (ip, _) => Except.ok ip
  | Except.error err => Except.error err

/-- Source getHeaderList: the header keys separated by commas (the map is
visited in the order of the association list). -/
def getHeaderList (r : http.Request) : GoString :=
  (str ",").intercalate (r.Header.map Prod.fst)

/-- Source getURL: the path and the query parameters (if present). -/
def getURL (r : http.Request) : GoString :=
  if r.URL.RawQuery ≠ [] then r.URL.Path ++ str "?" ++ r.URL.RawQuery else r.URL.Path

/-- Source cut, the copy of strings.Cut. -/
def cut (s sep : GoString) : GoString × GoString × Bool :=
  match Index s sep with
  | some i => (s.take i, s.drop (i + sep.length), true)
  | none => (s, [], false)

/-- Source getURI: the URI without the query parameters nor the fragment. -/
def getURI (r : http.Request) : GoString :=
  let pathWithoutQueryParams := (cut r.URL.Path (str "?")).1
  let finalPath := (cut pathWithoutQueryParams (str "#")).1
  let finalUri := r.URL.Host ++ finalPath
  finalUri

/-- Source isGraphQLRequest. -/
def isGraphQLRequest (r : http.Request) : Bool :=
  decide (Header.Get r.Header (str "Content-Type") = str "application/json") &&
  decide (r.Method = str "POST") && decide (r.ContentLength > 0) &&
  (Index r.URL.Path (str "graphql")).isSome

/-- Source getHost. -/
def getHost (r : http.Request) : GoString :=
  let xfh := Header.Get r.Header (str "X-Forwarded-Host")
  if xfh ≠ [] then xfh else r.Host

/-- Source getProtocol. -/
def getProtocol (r : http.Request) : GoString :=
  let proto := str "http"
  let xForwardedProto := Header.Get r.Header (str "X-Forwarded-Proto")
  if EqualFold xForwardedProto (str "http") = true ∨ EqualFold xForwardedProto (str "https") = true then
    xForwardedProto
  else if r.TLS = true then str "https"
  else proto

/-- Source getClientId. -/
def getClientId (lib : Lib) (r : http.Request) : GoString :=
  let clientIDHeaders := Header.Get r.Header (str "x-datadome-clientid")
  if len clientIDHeaders > 0 then clientIDHeaders
  else
    match lib.Cookie r.Header (str "datadome") with
    | some value => value
    | none => []

/-! ## client.go: the payload -/

/-- Source buildRequest, the Referer restoration stage: the request as the
stage leaves it (a failing check or restoration only logs a warning). -/
def restoreReferrerStage (probes : Probes) (c : Client) (r : http.Request) : http.Request :=
  if c.EnableReferrerRestoration = true then
    match probes.isMatchingReferrer r with
    | none => r
    | some isMatching => if isMatching = true then probes.restoreReferrer r else r
  else r

/-- Source buildRequest, the literal ddRequestParams.  r0 is the request on
entry, from which the lengths, the protocol and the port are computed before
the Referer restoration; r is the request after that stage. -/
def payloadOf (lib : Lib) (c : Client) (r0 r : http.Request) (ip : GoString) :
    ProtectionAPIRequestPayload :=
  let contentLength :=
    if Header.Get r0.Header (str "content-length") ≠ [] then Header.Get r0.Header (str "content-length")
    else str "0"
  let authorizationLen :=
    if Header.Get r0.Header (str "authorization") ≠ [] then
      Itoa (len (Header.Get r0.Header (str "authorization")))
    else str "0"
  let proto := getProtocol r0
  let port :=
    if r0.URL.Port ≠ [] then r0.URL.Port
    else if proto = str "https" then str "443" else str "80"
  let cookiesLen :=
    if Header.Get r0.Header (str "Cookie") ≠ [] then Itoa (len (Header.Get r0.Header (str "cookie")))
    else str "0"
  { Key := c.ServerSideKey
    IP := ip
    Accept := truncateValue Accept (Header.Get r.Header (str "accept"))
    AcceptCharset := truncateValue AcceptCharset (Header.Get r.Header (str "accept-charset"))
    AcceptEncoding := truncateValue AcceptEncoding (Header.Get r.Header (str "accept-encoding"))
    AcceptLanguage := truncateValue AcceptLanguage (Header.Get r.Header (str "accept-language"))
    APIConnectionState := str "new"
    AuthorizationLen := authorizationLen
    CacheControl := truncateValue CacheControl (Header.Get r.Header (str "cache-control"))
    ClientID := truncateValue ClientID (getClientId lib r)
    Connection := truncateValue Connection (Header.Get r.Header (str "connection"))
    ContentType := truncateValue ContentType (Header.Get r.Header (str "content-type"))
    CookiesLen := cookiesLen
    From := truncateValue From (Header.Get r.Header (str "from"))
    HeadersList := truncateValue HeadersList (getHeaderList r)
    Host := truncateValue Host r.Host
    Method := r.Method
    ModuleVersion := c.ModuleVersion
    Origin := truncateValue Origin (Header.Get r.Header (str "origin"))
    Port := port
    PostParamLen := contentLength
    Pragma := truncateValue Pragma (Header.Get r.Header (str "pragma"))
    Protocol := proto
    Referer := truncateValue Referer (Header.Get r.Header (str "referer"))
    Request := truncateValue Request (getURL r)
    RequestModuleName := c.ModuleName
    SecChDeviceMemory := truncateValue SecCHDeviceMemory (Header.Get r.Header (str "sec-ch-device-memory"))
    SecChUA := truncateValue SecCHUA (Header.Get r.Header (str "sec-ch-ua"))
    SecChUAArch := truncateValue SecCHUAArch (Header.Get r.Header (str "sec-ch-ua-arch"))
    SecChUAFullVersionList :=
      truncateValue SecCHUAFullVersionList (Header.Get r.Header (str "sec-ch-ua-full-version-list"))
    SecChUAMobile := truncateValue SecCHUAMobile (Header.Get r.Header (str "sec-ch-ua-mobile"))
    SecChUAModel := truncateValue SecCHUAModel (Header.Get r.Header (str "sec-ch-ua-model"))
    SecChUAPlatform := truncateValue SecCHUAPlatform (Header.Get r.Header (str "sec-ch-ua-platform"))
    SecFetchDest := truncateValue SecFetchDest (Header.Get r.Header (str "sec-fetch-dest"))
    SecFetchMode := truncateValue SecFetchMode (Header.Get r.Header (str "sec-fetch-mode"))
    SecFetchSite := truncateValue SecFetchSite (Header.Get r.Header (str "sec-fetch-site"))
    SecFetchUser := truncateValue SecFetchUser (Header.Get r.Header (str "sec-fetch-user"))
    ServerHostName := truncateValue ServerHostname r.Host
    ServerName := truncateValue ServerName r.Host
    TimeRequest := getMicroTime lib
    TrueClientIP := truncateValue TrueClientIP (Header.Get r.Header (str "true-client-ip"))
    UserAgent := truncateValue UserAgent (Header.Get r.Header (str "user-agent"))
    Via := truncateValue Via (Header.Get r.Header (str "via"))
    XForwardedForIP := truncateValue XForwardedForIP (Header.Get r.Header (str "x-forwarded-for"))
    XRealIP := truncateValue XRealIP (Header.Get r.Header (str "x-real-ip"))
    XRequestedWith := truncateValue XRequestedWith (Header.Get r.Header (str "x-requested-with")) }

/-- Source buildRequest, the GraphQL stage: the payload with the GraphQL
fields added when the probe counts at least one operation, and the request as
the probe leaves it. -/
def graphQLStage (probes : Probes) (c : Client) (ddRequestParams : ProtectionAPIRequestPayload)
    (r : http.Request) : ProtectionAPIRequestPayload × http.Request :=
  if c.EnableGraphQLSupport = true ∧ isGraphQLRequest r = true then
    match probes.getGraphQLData r c.MaximumBodySize with
    | (some gqlData, r) =>
      if gqlData.Count ≠ 0 then
        let operationName := truncateValue GraphQLOperationName gqlData.Name
        ({ ddRequestParams with
            GraphQLOperationName := some operationName
            GraphQLOperationType := gqlData.Type_
            GraphQLOperationCount := Itoa gqlData.Count }, r)
      else (ddRequestParams, r)
    | (none, r) => (ddRequestParams, r)
  else (ddRequestParams, r)

/-- Source buildRequest up to the point where the payload is serialised: the
payload structure and the request as the function leaves it.  The body of the
source function is the sequence of the three stages above. -/
def buildPayload (lib : Lib) (probes : Probes) (c : Client) (r : http.Request) :
    Except Error (ProtectionAPIRequestPayload × http.Request) :=
  match getIP lib r with
  | Except.error err => Except.error (Error.parseIP err)
  | Except.ok ip =>
    let r1 := restoreReferrerStage probes c r
    Except.ok (graphQLStage probes c (payloadOf lib c r r1 ip) r1)

/-- The value the payload holds for a catalog key, by the name of the struct
field (ServerHostname is the field ServerHostName, SecCH... the fields
SecCh...); none for GraphQLOperationName when the pointer is nil, and for a
key that names no truncated field. -/
def catalogValue (p : ProtectionAPIRequestPayload) (key : ApiFields) : Option GoString :=
  if key = Accept then some p.Accept
  else if key = AcceptCharset then some p.AcceptCharset
  else if key = AcceptEncoding then some p.AcceptEncoding
  else if key = AcceptLanguage then some p.AcceptLanguage
  else if key = CacheControl then some p.CacheControl
  else if key = ClientID then some p.ClientID
  else if key = Connection then some p.Connection
  else if key = ContentType then some p.ContentType
  else if key = From then some p.From
  else if key = GraphQLOperationName then p.GraphQLOperationName
  else if key = HeadersList then some p.HeadersList
  else if key = Host then some p.Host
  else if key = Origin then some p.Origin
  else if key = Pragma then some p.Pragma
  else if key = Referer then some p.Referer
  else if key = Request then some p.Request
  else if key = SecCHDeviceMemory then some p.SecChDeviceMemory
  else if key = SecCHUA then some p.SecChUA
  else if key = SecCHUAArch then some p.SecChUAArch
  else if key = SecCHUAFullVersionList then some p.SecChUAFullVersionList
  else if key = SecCHUAMobile then some p.SecChUAMobile
  else if key = SecCHUAModel then some p.SecChUAModel
  else if key = SecCHUAPlatform then some p.SecChUAPlatform
  else if key = SecFetchUser then some p.SecFetchUser
  else if key = SecFetchDest then some p.SecFetchDest
  else if key = SecFetchMode then some p.SecFetchMode
  else if key = SecFetchSite then some p.SecFetchSite
  else if key = ServerHostname then some p.ServerHostName
  else if key = ServerName then some p.ServerName
  else if key = TrueClientIP then some p.TrueClientIP
  else if key = UserAgent then some p.UserAgent
  else if key = Via then some p.Via
  else if key = XForwardedForIP then some p.XForwardedForIP
  else if key = XRealIP then some p.XRealIP
  else if key = XRequestedWith then some p.XRequestedWith
  else none

/-! ## Serialising the payload (go-querystring, net/url) -/

/-- Go net/url shouldEscape in mode encodeQueryComponent: letters, digits and
the four marks - _ . ~ are kept, every other byte is escaped. -/
def shouldEscape (c : UInt8) : Bool :=
  let x := c.toNat
  !((decide (0x61 ≤ x) && decide (x ≤ 0x7A)) || (decide (0x41 ≤ x) && decide (x ≤ 0x5A)) ||
    (decide (0x30 ≤ x) && decide (x ≤ 0x39)) ||
    x == 0x2D || x == 0x5F || x == 0x2E || x == 0x7E)

/-- The upper-case hexadecimal digit of a value below 16. -/
def upperhex (n : Nat) : UInt8 := if n < 10 then UInt8.ofNat (0x30 + n) else UInt8.ofNat (0x41 + (n - 10))

/-- Go url.QueryEscape. -/
def QueryEscape (s : GoString) : GoString :=
  s.flatMap (fun c =>
    if c = 0x20 then [0x2B]
    else if shouldEscape c = true then [0x25, upperhex (c.toNat / 16), upperhex (c.toNat % 16)]
    else [c])

/-- Go url.Values.Encode, for values that hold one string per key: the pairs
sorted by key, each written key=value with both sides escaped, joined by ampersands. -/
def Encode (v : List (GoString × GoString)) : GoString :=
  (str "&").intercalate
    ((List.insertionSort (fun a b => a.1 ≤ b.1) v).map
      (fun kv => QueryEscape kv.1 ++ str "=" ++ QueryEscape kv.2))

/-- The value of a struct field as go-querystring reads it by reflection: a
string, or a pointer to a string (none for a nil pointer). -/
inductive FieldValue where
  | string (v : GoString)
  | pointer (v : Option GoString)
  deriving DecidableEq, Repr

/-- One struct field for go-querystring: the name of its url tag, its value
and whether the tag carries omitempty. -/
structure TaggedField where
  name : GoString
  value : FieldValue
  omitempty : Bool

/-- The go-querystring function isEmptyValue: an empty string, a nil pointer. -/
def isEmptyValue : FieldValue → Bool
  | FieldValue.string v => v.isEmpty
  | FieldValue.pointer v => v.isNone

/-- The go-querystring function valueString: pointers are dereferenced, a nil
pointer gives the empty string. -/
def valueString : FieldValue → GoString
  | FieldValue.string v => v
  | FieldValue.pointer none => []
  | FieldValue.pointer (some v) => v

/-- The fields of the payload with their url tags, in declaration order. -/
def taggedFields (p : ProtectionAPIRequestPayload) : List TaggedField :=
  [ ⟨str "Key", FieldValue.string p.Key, false⟩,
    ⟨str "RequestModuleName", FieldValue.string p.RequestModuleName, false⟩,
    ⟨str "ModuleVersion", FieldValue.string p.ModuleVersion, true⟩,
    ⟨str "ServerName", FieldValue.string p.ServerName, true⟩,
    ⟨str "APIConnectionState", FieldValue.string p.APIConnectionState, true⟩,
    ⟨str "IP", FieldValue.string p.IP, false⟩,
    ⟨str "Port", FieldValue.string p.Port, true⟩,
    ⟨str "TimeRequest", FieldValue.string p.TimeRequest, true⟩,
    ⟨str "Protocol", FieldValue.string p.Protocol, true⟩,
    ⟨str "Method", FieldValue.string p.Method, true⟩,
    ⟨str "ServerHostname", FieldValue.string p.ServerHostName, true⟩,
    ⟨str "Request", FieldValue.string p.Request, false⟩,
    ⟨str "HeadersList", FieldValue.string p.HeadersList, true⟩,
    ⟨str "Host", FieldValue.string p.Host, true⟩,
    ⟨str "UserAgent", FieldValue.string p.UserAgent, true⟩,
    ⟨str "Referer", FieldValue.string p.Referer, true⟩,
    ⟨str "Accept", FieldValue.string p.Accept, true⟩,
    ⟨str "AcceptEncoding", FieldValue.string p.AcceptEncoding, true⟩,
    ⟨str "AcceptLanguage", FieldValue.string p.AcceptLanguage, true⟩,
    ⟨str "AcceptCharset", FieldValue.string p.AcceptCharset, true⟩,
    ⟨str "Origin", FieldValue.string p.Origin, true⟩,
    ⟨str "XForwardedForIP", FieldValue.string p.XForwardedForIP, true⟩,
    ⟨str "X-Requested-With", FieldValue.string p.XRequestedWith, true⟩,
    ⟨str "Connection", FieldValue.string p.Connection, true⟩,
    ⟨str "Pragma", FieldValue.string p.Pragma, true⟩,
    ⟨str "CacheControl", FieldValue.string p.CacheControl, true⟩,
    ⟨str "CookiesLen", FieldValue.string p.CookiesLen, true⟩,
    ⟨str "CookiesList", FieldValue.string p.CookiesList, true⟩,
    ⟨str "AuthorizationLen", FieldValue.string p.AuthorizationLen, true⟩,
    ⟨str "PostParamLen", FieldValue.string p.PostParamLen, true⟩,
    ⟨str "X-Real-IP", FieldValue.string p.XRealIP, true⟩,
    ⟨str "ClientID", FieldValue.string p.ClientID, true⟩,
    ⟨str "SecCHDeviceMemory", FieldValue.string p.SecChDeviceMemory, true⟩,
    ⟨str "SecCHUA", FieldValue.string p.SecChUA, true⟩,
    ⟨str "SecCHUAArch", FieldValue.string p.SecChUAArch, true⟩,
    ⟨str "SecCHUAFullVersionList", FieldValue.string p.SecChUAFullVersionList, true⟩,
    ⟨str "SecCHUAMobile", FieldValue.string p.SecChUAMobile, true⟩,
    ⟨str "SecCHUAModel", FieldValue.string p.SecChUAModel, true⟩,
    ⟨str "SecCHUAPlatform", FieldValue.string p.SecChUAPlatform, true⟩,
    ⟨str "SecFetchDest", FieldValue.string p.SecFetchDest, true⟩,
    ⟨str "SecFetchMode", FieldValue.string p.SecFetchMode, true⟩,
    ⟨str "SecFetchSite", FieldValue.string p.SecFetchSite, true⟩,
    ⟨str "SecFetchUser", FieldValue.string p.SecFetchUser, true⟩,
    ⟨str "Via", FieldValue.string p.Via, true⟩,
    ⟨str "From", FieldValue.string p.From, true⟩,
    ⟨str "ContentType", FieldValue.string p.ContentType, true⟩,
    ⟨str "TrueClientIP", FieldValue.string p.TrueClientIP, true⟩,
    ⟨str "GraphQLOperationCount", FieldValue.string p.GraphQLOperationCount, true⟩,
    ⟨str "GraphQLOperationName", FieldValue.pointer p.GraphQLOperationName, true⟩,
    ⟨str "GraphQLOperationType", FieldValue.string p.GraphQLOperationType, true⟩ ]

/-- The go-querystring function query.Values on the payload: a field tagged
omitempty is skipped when its value is empty (an empty string, a nil pointer);
every other field is added under its tag name. -/
def Values (p : ProtectionAPIRequestPayload) : List (GoString × GoString) :=
  (taggedFields p).filterMap (fun f =>
    if f.omitempty = true ∧ isEmptyValue f.value = true then none
    else some (f.name, valueString f.value))

/-- Source buildRequest: the payload, URL-encoded, and the request as the
function leaves it.  (query.Values cannot fail on a struct, so the second
error of the source never arises.) -/
def buildRequest (lib : Lib) (probes : Probes) (c : Client) (r : http.Request) :
    Except Error GoString × http.Request :=
  match buildPayload lib probes c r with
  | Except.error err => (Except.error err, r)
  | Except.ok (ddRequestParams, r1) => (Except.ok (Encode (Values ddRequestParams)), r1)

/-! ## client.go: the Protection API call -/

/-- Source addDataDomeRequestHeaders: adds the headers listed in the
x-datadome-request-headers header of the response to the original request. -/
def addDataDomeRequestHeaders (ddResp : Response) (origReq : http.Request) : http.Request :=
  let datadomeHeadersStr := Header.Get ddResp.Header (str "x-datadome-request-headers")
  if datadomeHeadersStr ≠ [] then
    (Fields datadomeHeadersStr).foldl
      (fun origReq datadomeHeaderName =>
        let datadomeHeaderValue := Header.Get ddResp.Header datadomeHeaderName
        if datadomeHeaderValue ≠ [] then
          { origReq with Header := Header.Add origReq.Header datadomeHeaderName datadomeHeaderValue }
        else origReq)
      origReq
  else origReq

/-- Source addDataDomeHeaders: adds the headers listed in the
x-datadome-headers header of the response to the original response. -/
def addDataDomeHeaders (ddResp : Response) (origResp : ResponseWriter) : ResponseWriter :=
  let datadomeHeadersStr := Header.Get ddResp.Header (str "x-datadome-headers")
  if datadomeHeadersStr ≠ [] then
    (Fields datadomeHeadersStr).foldl
      (fun origResp datadomeHeaderName =>
        let datadomeHeaderValue := Header.Get ddResp.Header datadomeHeaderName
        if datadomeHeaderValue ≠ [] then
          if EqualFold datadomeHeaderName (str "set-cookie") = true then
            { origResp with header := Header.Add origResp.header datadomeHeaderName datadomeHeaderValue }
          else
            { origResp with header := Header.Set origResp.header datadomeHeaderName datadomeHeaderValue }
        else origResp)
      origResp
  else origResp

/-- What datadomeCall returns (err, rw, isBlocked; rw is none for a nil
interface value) together with the request and the caller's response writer
as the call leaves them, and the requests sent to the Protection API. -/
structure CallResult where
  err : Option Error
  rw : Option ResponseWriter
  isBlocked : Bool
  origReq : http.Request
  origResp : ResponseWriter
  events : List Event
  deriving DecidableEq, Repr

/-- The request datadomeCall sends. -/
def outboundRequest (c : Client) (jsonStr : GoString) (origReq : http.Request) : OutboundRequest :=
  let h := Header.Set [] (str "content-type") (str "application/x-www-form-urlencoded")
  let h := Header.Set h (str "user-agent") (str "DataDome")
  let h :=
    if Header.Get origReq.Header (str "x-datadome-clientid") ≠ [] then
      Header.Set h (str "x-datadome-x-set-cookie") (str "true")
    else h
  { Method := str "POST", URL := c.endpoint, Header := h, Body := jsonStr }

/-- Source datadomeCall: performs a request to the Protection API. -/
def datadomeCall (lib : Lib) (c : Client) (jsonStr : GoString) (origReq : http.Request)
    (origResp : ResponseWriter) : CallResult :=
  match lib.NewRequestErr c.endpoint with
  | some err =>
    { err := some (Error.newRequest err), rw := none, isBlocked := false,
      origReq := origReq, origResp := origResp, events := [] }
  | none =>
    let req := outboundRequest c jsonStr origReq
    match lib.Do req with
    | DoResult.transportError err =>
      { err := some (Error.transport err), rw := none, isBlocked := false,
        origReq := origReq, origResp := origResp, events := [Event.outbound req] }
    | DoResult.readError _ _ err =>
      { err := some (Error.readBody err), rw := none, isBlocked := false,
        origReq := origReq, origResp := origResp, events := [Event.outbound req] }
    | DoResult.ok response =>
      let responseBody := response.Body
      let ddStatus := Header.Get response.Header (str "x-datadomeresponse")
      let ddRespStatus := Itoa response.StatusCode
      if ddStatus = [] ∨ ddRespStatus ≠ ddStatus then
        { err := some Error.inconsistent, rw := none, isBlocked := false,
          origReq := origReq, origResp := origResp, events := [Event.outbound req] }
      else if ddStatus = str "400" then
        { err := none, rw := some origResp, isBlocked := false,
          origReq := origReq, origResp := origResp, events := [Event.outbound req] }
      else if ddStatus = str "301" ∨ ddStatus = str "302" ∨ ddStatus = str "401" ∨
          ddStatus = str "403" then
        let origResp := addDataDomeHeaders response origResp
        let origResp := origResp.WriteHeader response.StatusCode
        match origResp.Write responseBody with
        | (origResp, some err) =>
          { err := some (Error.write err), rw := none, isBlocked := false,
            origReq := origReq, origResp := origResp, events := [Event.outbound req] }
        | (origResp, none) =>
          { err := none, rw := some origResp, isBlocked := true,
            origReq := origReq, origResp := origResp, events := [Event.outbound req] }
      else if ddStatus = str "200" then
        let origReq := addDataDomeRequestHeaders response origReq
        let origResp := addDataDomeHeaders response origResp
        { err := none, rw := some origResp, isBlocked := false,
          origReq := origReq, origResp := origResp, events := [Event.outbound req] }
      else
        { err := some (Error.unexpectedStatus ddStatus), rw := some origResp, isBlocked := false,
          origReq := origReq, origResp := origResp, events := [Event.outbound req] }

/-! ## client.go: the middleware shell -/

/-- What handler returns (isBlocked, err) together with the request and the
caller's response writer as the middleware leaves them and the events of the run. -/
structure HandlerResult where
  isBlocked : Bool
  err : Option Error
  r : http.Request
  w : ResponseWriter
  events : List Event
  deriving DecidableEq, Repr

/-- The closure sendNext of handler: with a next handler, next.ServeHTTP is
called with the given response writer and the request r, and the error is
dropped; without one the result and the error are returned as given. -/
def sendNext (next : Option Handler) (r : http.Request) (res : Bool) (err : Option Error)
    (response : Option ResponseWriter) : Bool × Option Error × List Event :=
  match next with
  | some h => (res, none, [Event.next h response r])
  | none => (res, err, [])

/-- Source handler: validates an incoming request. -/
def handler (lib : Lib) (probes : Probes) (c : Client) (w : ResponseWriter) (r : http.Request)
    (next : Option Handler) : HandlerResult :=
  let uri := getURI r
  if (match c.urlPatternExclusion with
      | some re => re.MatchString uri
      | none => false) = true then
    { isBlocked := false, err := none, r := r, w := w, events := [] }
  else if (match c.urlPatternInclusion with
      | some re => !re.MatchString uri
      | none => false) = true then
    { isBlocked := false, err := none, r := r, w := w, events := [] }
  else
    match buildRequest lib probes c r with
    | (Except.error err, r) =>
      let s := sendNext next r false (some err) (some w)
      { isBlocked := s.1, err := s.2.1, r := r, w := w, events := Event.buildRequest :: s.2.2 }
    | (Except.ok queryStr, r) =>
      let call := datadomeCall lib c queryStr r w
      let s :=
        if call.err ≠ none then sendNext next call.origReq call.isBlocked call.err call.rw
        else sendNext next call.origReq call.isBlocked none call.rw
      { isBlocked := s.1, err := s.2.1, r := call.origReq, w := call.origResp,
        events := Event.buildRequest :: (call.events ++ s.2.2) }

/-- What one request served by the handler of DatadomeHandler does: the value
it panics with (none when it returns), and the state and events as for handler. -/
structure ServeResult where
  panicValue : Option Error
  r : http.Request
  w : ResponseWriter
  events : List Event
  deriving DecidableEq, Repr

/-- Source DatadomeHandler: the http.Handler it returns, applied to a response
writer and a request. -/
def DatadomeHandler (lib : Lib) (probes : Probes) (c : Client) (next : Option Handler)
    (w : ResponseWriter) (r : http.Request) : ServeResult :=
  let res := handler lib probes c w r next
  { panicValue := res.err, r := res.r, w := res.w, events := res.events }

/-- Source DatadomeProtect: validates the incoming request. -/
def DatadomeProtect (lib : Lib) (probes : Probes) (c : Client) (rw : ResponseWriter)
    (r : http.Request) : HandlerResult :=
  handler lib probes c rw r none

/-! ## config.go, client.go: construction -/

/-- Source Option: a functional option. -/
abbrev ClientOption := Client → Client

def WithEndpoint (endpoint : GoString) : ClientOption := fun c => { c with Endpoint := endpoint }
def WithGraphQLSupport (enableGraphQLSupport : Bool) : ClientOption :=
  fun c => { c with EnableGraphQLSupport := enableGraphQLSupport }
def WithLogger (logger : Logger) : ClientOption := fun c => { c with Logger := logger }
def WithMaximumBodySize (maximumBodySize : Int) : ClientOption :=
  fun c => { c with MaximumBodySize := maximumBodySize }
def WithReferrerRestoration (enableReferrerRestoration : Bool) : ClientOption :=
  fun c => { c with EnableReferrerRestoration := enableReferrerRestoration }
def WithTimeout (timeout : Int) : ClientOption := fun c => { c with Timeout := timeout }
def WithUrlPatternExclusion (urlPatternExclusion : GoString) : ClientOption :=
  fun c => { c with UrlPatternExclusion := urlPatternExclusion }
def WithUrlPatternInclusion (urlPatternInclusion : GoString) : ClientOption :=
  fun c => { c with UrlPatternInclusion := urlPatternInclusion }
def WithXForwardedHost (useXForwardedHost : Bool) : ClientOption :=
  fun c => { c with UseXForwardedHost := useXForwardedHost }

/-- Source NewClient: a new Client, or the error message for invalid inputs. -/
def NewClient (lib : Lib) (serverSideKey : GoString) (options : List ClientOption) :
    Except GoString Client :=
  let c : Client :=
    { EnableGraphQLSupport := DefaultEnableGraphQLSupportValue
      EnableReferrerRestoration := DefaultEnableReferrerRestorationValue
      Endpoint := DefaultEndpointValue
      Logger := NewDefaultLogger
      MaximumBodySize := DefaultMaximumBodySizeValue
      ModuleName := DefaultModuleNameValue
      ModuleVersion := DefaultModuleVersionValue
      ServerSideKey := serverSideKey
      Timeout := DefaultTimeoutValue
      UrlPatternInclusion := DefaultUrlPatternInclusionValue
      UrlPatternExclusion := DefaultUrlPatternExclusionValue }
  let c := options.foldl (fun c opt => opt c) c
  if c.ServerSideKey = [] then Except.error (str "ServerSideKey must be defined")
  else if c.Timeout ≤ 0 then Except.error (str "Timeout must be a positive integer")
  else if c.MaximumBodySize ≤ 0 then Except.error (str "MaximumBodySize must be a positive integer")
  else
    let exclusion : Except GoString Client :=
      if c.UrlPatternExclusion ≠ [] then
        match lib.Compile c.UrlPatternExclusion with
        | Except.error err =>
          Except.error (str "UrlPatternExclusion must be a valid RegExp: " ++ err)
        | Except.ok re => Except.ok { c with urlPatternExclusion := some re }
      else Except.ok c
    match exclusion with
    | Except.error err => Except.error err
    | Except.ok c =>
      let inclusion : Except GoString Client :=
        if c.UrlPatternInclusion ≠ [] then
          match lib.Compile c.UrlPatternInclusion with
          | Except.error err =>
            Except.error (str "UrlPatternInclusion must be a valid RegExp: " ++ err)
          | Except.ok re => Except.ok { c with urlPatternInclusion := some re }
        else Except.ok c
      match inclusion with
      | Except.error err => Except.error err
      | Except.ok c =>
        if ¬ (str "http").isPrefixOf c.Endpoint = true ∧ ¬ (str "/").isPrefixOf c.Endpoint = true then
          Except.ok { c with endpoint := str "https://" ++ c.Endpoint ++ str "/validate-request" }
        else Except.ok { c with endpoint := c.Endpoint }

/-- Source NewClient, its first statements: the client with the default
values, after the functional options are applied. -/
def configuredClient (serverSideKey : GoString) (options : List ClientOption) : Client :=
  let c : Client :=
    { EnableGraphQLSupport := DefaultEnableGraphQLSupportValue
      EnableReferrerRestoration := DefaultEnableReferrerRestorationValue
      Endpoint := DefaultEndpointValue
      Logger := NewDefaultLogger
      MaximumBodySize := DefaultMaximumBodySizeValue
      ModuleName := DefaultModuleNameValue
      ModuleVersion := DefaultModuleVersionValue
      ServerSideKey := serverSideKey
      Timeout := DefaultTimeoutValue
      UrlPatternInclusion := DefaultUrlPatternInclusionValue
      UrlPatternExclusion := DefaultUrlPatternExclusionValue }
  options.foldl (fun c opt => opt c) c

/-! ## Sample values

The request of the package tests (setupRequest), a client with the default
settings, and Protection API answers as the tests mock them. -/

/-- A library for the samples: the Protection API gives the same result to
every request, the remote address of the sample request splits, there are no
cookies, and the default exclusion pattern compiles to its expression. -/
def sampleLib (result : DoResult) : Lib :=
  { SplitHostPort := fun addr =>
      if addr = str "127.0.0.1:1234" then Except.ok (str "127.0.0.1", str "1234")
      else Except.error (str "missing port in address")
    Cookie := fun _ _ => none
    UnixNano := 1695386441016659000
    Compile := fun pattern =>
      if pattern = DefaultUrlPatternExclusionValue then Except.ok (RE.toRegexp defaultExclusionRE)
      else Except.error (str "unsupported pattern")
    NewRequestErr := fun _ => none
    Do := fun _ => result }

/-- Probes for the samples: the Referer never matches and no GraphQL query is found. -/
def sampleProbes : Probes :=
  { isMatchingReferrer := fun _ => some false
    restoreReferrer := fun r => r
    getGraphQLData := fun r _ => (none, r) }

/-- The client NewClient builds for the key azerty without options. -/
def sampleClient : Client :=
  { EnableGraphQLSupport := false
    EnableReferrerRestoration := false
    Endpoint := str "api.datadome.co"
    MaximumBodySize := 25 * 1024
    ModuleName := str "Golang"
    ModuleVersion := str "2.2.0"
    ServerSideKey := str "azerty"
    Timeout := 150
    UrlPatternInclusion := str ""
    UrlPatternExclusion := DefaultUrlPatternExclusionValue
    endpoint := str "https://api.datadome.co/validate-request"
    urlPatternExclusion := some (RE.toRegexp defaultExclusionRE)
    urlPatternInclusion := none }

/-- A GET request for /ping. -/
def sampleRequest : http.Request :=
  { Method := str "GET"
    URL := { Path := str "/ping" }
    Header := [(str "User-Agent", [str "mozilla"]), (str "Accept", [str "application/json"])]
    Host := str "www.example.com"
    RemoteAddr := str "127.0.0.1:1234" }

/-- The answer of TestDatadomeProtect_Blocked. -/
def blockResponse : Response :=
  { StatusCode := 403
    Header := [(str "X-Datadome-Headers", [str "X-Datadome"]), (str "X-Datadome", [str "protected"]),
      (str "X-Datadomeresponse", [str "403"])]
    Body := str "blocked" }

/-- The answer of TestDatadomeProtect_NotBlocked, with the request header of
TestAddDataDomeRequestHeaders. -/
def allowResponse : Response :=
  { StatusCode := 200
    Header := [(str "X-Datadome-Headers", [str "X-Datadome"]), (str "X-Datadome", [str "protected"]),
      (str "X-Datadome-Request-Headers", [str "X-Datadome-isbot"]), (str "X-Datadome-Isbot", [str "1"]),
      (str "X-Datadomeresponse", [str "200"])]
    Body := str "ok" }

/-- An answer whose X-DataDomeResponse header (403) differs from its status (500). -/
def inconsistentResponse : Response :=
  { StatusCode := 500
    Header := [(str "X-Datadome-Headers", [str "X-Datadome"]), (str "X-Datadome", [str "protected"]),
      (str "X-Datadomeresponse", [str "403"])]
    Body := str "oops" }

/-- A next handler. -/
def sampleNext : Handler := { id := 1 }

/-- The expression of the inclusion pattern of TestDatadomeProtect_IncludedPath,
(?i).*/included-path/?.* -/
def includedPathRE : RE :=
  RE.cat RE.anyStar
    (RE.cat (RE.word true ((str "/included-path").map UInt8.toNat))
      (RE.cat (RE.opt (RE.foldLit 0x2F)) RE.anyStar))

/-- The sample client with that inclusion pattern configured. -/
def includedPathClient : Client :=
  { sampleClient with
    UrlPatternInclusion := str "(?i).*/included-path/?.*"
    urlPatternInclusion := some (RE.toRegexp includedPathRE) }

/-- A GET request for /not-included-path. -/
def notIncludedRequest : http.Request :=
  { sampleRequest with URL := { Path := str "/not-included-path" } }

/-- A GET request for /picture.jpg. -/
def pictureRequest : http.Request :=
  { sampleRequest with URL := { Path := str "/picture.jpg" } }

/-! ## The documented field catalog -/

/-- Modelled from the spec: the documented table of the field catalog, every
identifier paired with its limit. -/
def documentedCatalog : List (ApiFields × Int) :=
  [(SecCHDeviceMemory, 8), (SecCHUAMobile, 8), (SecFetchUser, 8),
   (SecCHUAArch, 16),
   (SecCHUAPlatform, 32), (SecFetchDest, 32), (SecFetchMode, 32),
   (ContentType, 64), (SecFetchSite, 64),
   (AcceptCharset, 128), (AcceptEncoding, 128), (CacheControl, 128), (ClientID, 128),
   (Connection, 128), (From, 128), (Pragma, 128), (SecCHUA, 128), (SecCHUAModel, 128),
   (TrueClientIP, 128), (XRealIP, 128), (XRequestedWith, 128), (GraphQLOperationName, 128),
   (AcceptLanguage, 256), (SecCHUAFullVersionList, 256), (Via, 256),
   (Accept, 512), (HeadersList, 512), (Host, 512), (Origin, 512), (ServerHostname, 512),
   (ServerName, 512),
   (XForwardedForIP, -512),
   (UserAgent, 768),
   (Referer, 1024),
   (Request, 2048)]

/-- Modelled from the spec: the documented limit of an identifier, which is its
entry in the table and no limit (0) for every other identifier. -/
def documentedTruncationSize (key : ApiFields) : Int :=
  match documentedCatalog.find? (fun e => decide (e.1 = key)) with
  | some e => e.2
  | none => 0

/-- The answer of TestAddDataDomeRequestHeaders: one request header is
listed, a second header of the answer is not. -/
def requestHeadersResponse : Response :=
  { StatusCode := 200
    Header := [(str "X-Datadome-Request-Headers", [str "X-Datadome-isbot"]),
      (str "X-Datadome-Isbot", [str "1"]), (str "X-Datadome-Obiwan", [str "Kenoby"])]
    Body := str "ok" }

/-- An answer whose X-DataDome-Request-Headers directive lists the same name twice. -/
def repeatedRequestHeadersResponse : Response :=
  { StatusCode := 200
    Header := [(str "X-Datadome-Request-Headers", [str "X-Datadome-isbot X-Datadome-isbot"]),
      (str "X-Datadome-Isbot", [str "1"])]
    Body := str "ok" }

/-- The answer of TestAddDataDomeHeaders: a header and a cookie are listed. -/
def cookieResponse : Response :=
  { StatusCode := 200
    Header := [(str "X-Datadome-Headers", [str "X-Datadome Set-Cookie"]),
      (str "X-Datadome", [str "protected"]), (str "Set-Cookie", [str "datadome=other_value"])]
    Body := str "ok" }

/-- An answer whose X-DataDome-Headers directive lists Set-Cookie twice. -/
def repeatedCookieResponse : Response :=
  { StatusCode := 200
    Header := [(str "X-Datadome-Headers", [str "Set-Cookie set-cookie"]),
      (str "Set-Cookie", [str "datadome=other_value"])]
    Body := str "ok" }

/-- The downstream response of TestAddDataDomeHeaders before propagation: it
holds a cookie of the application and a header of its own. -/
def cookieWriter : ResponseWriter :=
  { header := [(str "X-Result", [str "true"]), (str "Set-Cookie", [str "some_cookie=some_value"])] }

/-! ## regexp with submatches

The patterns of the GraphQL probe use capturing groups.  Expressions are
matched over the runes of the input, each rune with the bytes it was decoded
from, in the priority order of a backtracking matcher (the leftmost-first
semantics of the regexp package). -/

/-- A rune of the input with its source bytes. -/
abbrev Chunk := Nat × GoString

/-- The bytes of a run of runes. -/
def chunkBytes (l : List Chunk) : GoString := (l.map Prod.snd).flatten

/-- The submatches recorded so far: group index and bytes, latest first. -/
abbrev Caps := List (Nat × GoString)

/-- Regular expressions with capturing groups, for the patterns of the GraphQL
probe: literals, character classes (lists of rune ranges), the greedy star of
a class, concatenation, alternation, a greedy optional part and numbered
capturing groups. -/
inductive Rx where
  | empty
  | lit (c : Nat)
  | cls (ranges : List (Nat × Nat))
  | clsStar (ranges : List (Nat × Nat))
  | cat (a b : Rx)
  | alt (a b : Rx)
  | opt (a : Rx)
  | group (i : Nat) (a : Rx)
  deriving DecidableEq, Repr

/-- Membership of a rune in a character class. -/
def inRanges (ranges : List (Nat × Nat)) (r : Nat) : Bool :=
  ranges.any (fun p => decide (p.1 ≤ r) && decide (r ≤ p.2))

/-- The inputs left by the greedy star of a class, the longest run first. -/
def clsStarRun (ranges : List (Nat × Nat)) : List Chunk → List (List Chunk)
  | [] => [[]]
  | c :: t => if inRanges ranges c.1 = true then clsStarRun ranges t ++ [c :: t] else [c :: t]

/-- All the ways the expression matches at the start of the input: the
remaining input and the submatches of each way, in the priority order of a
backtracking matcher. -/
def Rx.run : Rx → List Chunk → Caps → List (List Chunk × Caps)
  | Rx.empty, s, caps => [(s, caps)]
  | Rx.lit c, s, caps =>
    match s with
    | x :: t => if x.1 = c then [(t, caps)] else []
    | [] => []
  | Rx.cls ranges, s, caps =>
    match s with
    | x :: t => if inRanges ranges x.1 = true then [(t, caps)] else []
    | [] => []
  | Rx.clsStar ranges, s, caps => (clsStarRun ranges s).map (fun rest => (rest, caps))
  | Rx.cat a b, s, caps => (Rx.run a s caps).flatMap (fun p => Rx.run b p.1 p.2)
  | Rx.alt a b, s, caps => Rx.run a s caps ++ Rx.run b s caps
  | Rx.opt a, s, caps => Rx.run a s caps ++ [(s, caps)]
  | Rx.group i a, s, caps =>
    (Rx.run a s caps).map
      (fun p => (p.1, (i, chunkBytes (s.take (s.length - p.1.length))) :: p.2))

/-- A word, rune by rune. -/
def Rx.word (w : GoString) : Rx :=
  w.foldr (fun c acc => Rx.cat (Rx.lit c.toNat) acc) Rx.empty

/-- A compiled regexp.Regexp with submatches: its expression, the number of
its capturing groups and their names (SubexpNames, the entry 0 being empty). -/
structure SubmatchRegexp where
  expr : Rx
  NumSubexp : Nat
  SubexpNames : List GoString
  deriving DecidableEq, Repr

/-- The leftmost match from the given position on: the input at the start of
the match, the input after it and its submatches. -/
def Rx.search (re : Rx) : List Chunk → Option (List Chunk × List Chunk × Caps)
  | [] =>
    match Rx.run re [] [] with
    | p :: _ => some ([], p.1, p.2)
    | [] => none
  | c :: t =>
    match Rx.run re (c :: t) [] with
    | p :: _ => some (c :: t, p.1, p.2)
    | [] => Rx.search re t

/-- The slice a match is delivered as: the text of the match, then the text
of each capturing group (empty for a group that took no part in the match). -/
def submatches (numSubexp : Nat) (start rest : List Chunk) (caps : Caps) : List GoString :=
  chunkBytes (start.take (start.length - rest.length)) ::
    (List.range numSubexp).map (fun i => (caps.lookup (i + 1)).getD [])

/-- Go Regexp.FindSubmatch and FindStringSubmatch: the leftmost match and its
submatches, the empty slice (nil) when there is no match. -/
def SubmatchRegexp.FindSubmatch (re : SubmatchRegexp) (b : GoString) : List GoString :=
  match Rx.search re.expr (runeChunks b) with
  | some (start, rest, caps) => submatches re.NumSubexp start rest caps
  | none => []

/-- The loop of Regexp.allMatches: pos is the input from the search position
on, prevMatchEnd the length of the input after the previous match.  An empty
match right after the previous match is not delivered, and the search moves on
by one rune after an empty match. -/
def allMatches (re : SubmatchRegexp) : Nat → List Chunk → Option Nat → List (List GoString)
  | 0, _, _ => []
  | fuel + 1, pos, prevMatchEnd =>
    match Rx.search re.expr pos with
    | none => []
    | some (start, rest, caps) =>
      let accept : Bool := !(decide (rest.length = pos.length) &&
        decide (some start.length = prevMatchEnd))
      let tail : List (List GoString) :=
        if rest.length = pos.length then
          match pos with
          | [] => []
          | _ :: t => allMatches re fuel t (some rest.length)
        else allMatches re fuel rest (some rest.length)
      if accept = true then submatches re.NumSubexp start rest caps :: tail else tail

/-- Go Regexp.FindAllStringSubmatch(s, -1): all successive matches.  Every
turn of the loop moves the search position on, so the loop ends within one
turn per rune and one more. -/
def SubmatchRegexp.FindAllStringSubmatch (re : SubmatchRegexp) (s : GoString) :
    List (List GoString) :=
  allMatches re ((runeChunks s).length + 2) (runeChunks s) none

/-- Go Regexp.SubexpIndex: the index of the first group with the name, -1 when
there is none. -/
def SubmatchRegexp.SubexpIndex (re : SubmatchRegexp) (name : GoString) : Int :=
  if name = [] then -1
  else
    match re.SubexpNames.indexOf? name with
    | some i => (i : Int)
    | none => -1

/-- The class of white space of the regexp syntax. -/
def spaceClass : List (Nat × Nat) := [(0x09, 0x0A), (0x0C, 0x0D), (0x20, 0x20)]

/-- The class [A-Za-z_]. -/
def identStartClass : List (Nat × Nat) := [(0x41, 0x5A), (0x5F, 0x5F), (0x61, 0x7A)]

/-- The class [A-Za-z0-9_]. -/
def identClass : List (Nat × Nat) := [(0x30, 0x39), (0x41, 0x5A), (0x5F, 0x5F), (0x61, 0x7A)]

/-- The alternation query|mutation|subscription. -/
def keywordRx : Rx :=
  Rx.alt (Rx.word (str "query")) (Rx.alt (Rx.word (str "mutation")) (Rx.word (str "subscription")))

/-- The expression of parseGraphQLQuery: the pattern
(?m)(?P<operationType>query|mutation|subscription)\s*(?P<operationName>[A-Za-z_][A-Za-z0-9_]*)?\s*[({@] -/
def operationRegexp : SubmatchRegexp :=
  { expr :=
      Rx.cat (Rx.group 1 keywordRx)
        (Rx.cat (Rx.clsStar spaceClass)
          (Rx.cat (Rx.opt (Rx.group 2 (Rx.cat (Rx.cls identStartClass) (Rx.clsStar identClass))))
            (Rx.cat (Rx.clsStar spaceClass) (Rx.cls [(0x28, 0x28), (0x40, 0x40), (0x7B, 0x7B)]))))
    NumSubexp := 2
    SubexpNames := [str "", str "operationType", str "operationName"] }

/-- The shorthand expression of parseGraphQLQuery: the pattern
"(?:query|mutation|subscription)?\s*(?:[A-Za-z_][A-Za-z0-9_]*)?\s*[{] -/
def shorthandSyntaxRegexp : SubmatchRegexp :=
  { expr :=
      Rx.cat (Rx.lit 0x22)
        (Rx.cat (Rx.opt keywordRx)
          (Rx.cat (Rx.clsStar spaceClass)
            (Rx.cat (Rx.opt (Rx.cat (Rx.cls identStartClass) (Rx.clsStar identClass)))
              (Rx.cat (Rx.clsStar spaceClass) (Rx.cls [(0x7B, 0x7B)])))))
    NumSubexp := 0
    SubexpNames := [str ""] }

/-- The expression of readBodyWithoutConsuming: the pattern
"query"\s*:\s*("(?:query|mutation|subscription)?\s*(?:[A-Za-z_][A-Za-z0-9_]*)?\s*[{(].*) -/
def queryRegexp : SubmatchRegexp :=
  { expr :=
      Rx.cat (Rx.word (0x22 :: (str "query" ++ [0x22])))
        (Rx.cat (Rx.clsStar spaceClass)
          (Rx.cat (Rx.lit 0x3A)
            (Rx.cat (Rx.clsStar spaceClass)
              (Rx.group 1
                (Rx.cat (Rx.lit 0x22)
                  (Rx.cat (Rx.opt keywordRx)
                    (Rx.cat (Rx.clsStar spaceClass)
                      (Rx.cat (Rx.opt (Rx.cat (Rx.cls identStartClass) (Rx.clsStar identClass)))
                        (Rx.cat (Rx.clsStar spaceClass)
                          (Rx.cat (Rx.cls [(0x28, 0x28), (0x7B, 0x7B)])
                            (Rx.clsStar [(0, 0x09), (0x0B, 0x10FFFF)])))))))))))
    NumSubexp := 1
    SubexpNames := [str "", str ""] }

/-! ## utils.go: the GraphQL query -/

/-- Source parseGraphQLQuery: a GraphQLData structure with information
extracted from the body. -/
def parseGraphQLQuery (body : GoString) : GraphQLData :=
  let gqlData : GraphQLData := { Count := 0, Type_ := Query, Name := str "" }
  let regex := operationRegexp
  let matchList := regex.FindAllStringSubmatch body
  let matchLength : Int := (matchList.length : Int)
  if matchLength > 0 then
    let gqlData := { gqlData with Count := matchLength }
    let firstMatch := matchList.headD []
    let operationTypeIndex := regex.SubexpIndex (str "operationType")
    let operationNameIndex := regex.SubexpIndex (str "operationName")
    let gqlData :=
      if operationTypeIndex ≠ -1 ∧ operationTypeIndex < (firstMatch.length : Int) then
        { gqlData with Type_ := firstMatch.getD operationTypeIndex.toNat [] }
      else gqlData
    let gqlData :=
      if operationNameIndex ≠ -1 ∧ operationNameIndex < (firstMatch.length : Int) then
        { gqlData with Name := firstMatch.getD operationNameIndex.toNat [] }
      else gqlData
    gqlData
  else
    let shorthandSyntaxRegex := shorthandSyntaxRegexp
    let shorthandMatches := shorthandSyntaxRegex.FindSubmatch body
    { gqlData with Count := (shorthandMatches.length : Int) }

/-! ## io: LimitedReader, ReadAll, MultiReader -/

/-- Go io.LimitedReader: reads from R but stops with EOF after N bytes. -/
structure LimitedReader where
  R : Body
  N : Int
  deriving DecidableEq, Repr

/-- Method Read of the LimitedReader for a buffer of p bytes. -/
def LimitedReader.Read (l : LimitedReader) (p : Nat) : GoString × ReadErr × LimitedReader :=
  if l.N ≤ 0 then ([], ReadErr.EOF, l)
  else
    let p : Nat := if (p : Int) > l.N then l.N.toNat else p
    let res := l.R.Read p
    (res.1, res.2.1, { R := res.2.2, N := l.N - (res.1.length : Int) })

/-- The loop of io.ReadAll: the bytes read so far are acc.  Go reads into the
spare capacity of its buffer, which is 512 bytes at first and never zero; the
model reads 512 bytes at a time.  The result is none when the fuel is used up. -/
def readAllLoop : Nat → Body → GoString → Option (Except GoString GoString × Body)
  | 0, _, _ => none
  | fuel + 1, r, acc =>
    let res := r.Read 512
    match res.2.1 with
    | ReadErr.EOF => some (Except.ok (acc ++ res.1), res.2.2)
    | ReadErr.other err => some (Except.error err, res.2.2)
    | ReadErr.nil => readAllLoop fuel res.2.2 (acc ++ res.1)

/-- Go io.ReadAll: reads until EOF or an error; the bytes or the error, and
the reader afterwards. -/
def ReadAll (r : Body) : Option (Except GoString GoString × Body) :=
  readAllLoop (r.size + 1) r []

/-- Go io.NopCloser(io.MultiReader(bytes.NewReader(a), bytes.NewReader(b))):
the reader that delivers a, then b, then io.EOF on a call of its own.  An
empty bytes.Reader reports io.EOF at once and is passed over. -/
def MultiReader (a b : GoString) : Body :=
  { pending := (if a ≠ [] then [ReadStep.data a] else []) ++
      (if b ≠ [] then [ReadStep.data b] else [])
    eofWithData := false }

/-! ## utils.go: the GraphQL probe -/

/-- The local variables of readBodyWithoutConsuming that its loop changes. -/
structure ProbeState where
  limitedReader : LimitedReader
  matchBuffer : GoString := []
  beginBody : GoString := []
  matchedBytes : Option GoString := none
  found : Bool := false
  deriving DecidableEq, Repr

/-- Source readBodyWithoutConsuming, the size of a read. -/
def readSize : Nat := 1024

/-- Source readBodyWithoutConsuming, the body of its loop up to the tests of
err: the state after the Read and the handling of the n bytes read. -/
def probeStep (st : ProbeState) : ReadErr × ProbeState :=
  let res := st.limitedReader.Read readSize
  let buffer := res.1
  let st := { st with limitedReader := res.2.2 }
  if buffer.length > 0 then
    let st := { st with beginBody := st.beginBody ++ buffer }
    if st.found = false then
      let matchBuffer := st.matchBuffer ++ buffer
      let matchBuffer :=
        if matchBuffer.length ≥ 2 * readSize then matchBuffer.drop (matchBuffer.length - 2 * readSize)
        else matchBuffer
      let matchList := queryRegexp.FindSubmatch matchBuffer
      if matchList.length > 1 then
        (res.2.1, { st with
          matchBuffer := matchBuffer
          matchedBytes := some (matchList.getD 1 [])
          found := true })
      else (res.2.1, { st with matchBuffer := matchBuffer })
    else (res.2.1, st)
  else (res.2.1, st)

/-- Source readBodyWithoutConsuming, its loop: the error that ends it (none
for io.EOF) and the state it leaves; none when the fuel is used up. -/
def probeLoop : Nat → ProbeState → Option (Option GoString × ProbeState)
  | 0, _ => none
  | fuel + 1, st =>
    let res := probeStep st
    match res.1 with
    | ReadErr.EOF => some (none, res.2)
    | ReadErr.other err => some (some err, res.2)
    | ReadErr.nil => probeLoop fuel res.2

/-- Source readBodyWithoutConsuming: extracts the GraphQL query from the body
and restores the body to the request.  The result is the matched bytes (none
for nil) or the error, and the request as the function leaves it; the whole
is none when a loop uses up its fuel. -/
def readBodyWithoutConsuming (r : http.Request) (maximumBodySize : Int) :
    Option (Except GoString (Option GoString) × http.Request) :=
  let limitedReader : LimitedReader := { R := r.Body, N := maximumBodySize }
  match probeLoop (r.Body.size + 1) { limitedReader := limitedReader } with
  | none => none
  | some (some err, st) => some (Except.error err, { r with Body := st.limitedReader.R })
  | some (none, st) =>
    match ReadAll st.limitedReader.R with
    | none => none
    | some (Except.error err, body) => some (Except.error err, { r with Body := body })
    | some (Except.ok restBody, _) =>
      some (Except.ok st.matchedBytes, { r with Body := MultiReader st.beginBody restBody })

/-- Source getGraphQLData: reads the body to extract the GraphQL query and
parses it. -/
def getGraphQLData (r : http.Request) (maximumBodySize : Int) :
    Option (Except GoString GraphQLData × http.Request) :=
  match readBodyWithoutConsuming r maximumBodySize with
  | none => none
  | some (Except.error err, r) =>
    some (Except.error (str "error while reading request body: " ++ err), r)
  | some (Except.ok none, r) => some (Except.error (str "query not found in the request body"), r)
  | some (Except.ok (some body), r) => some (Except.ok (parseGraphQLQuery body), r)

/-- Modelled from the spec: the non-overlapping matches of an expression,
scanning the runes of the input from left to right.  At a rune that no earlier
match covers, the match of the expression that starts there, if there is one,
is taken, and the runes it covers are passed over (skip counts those still to
pass). -/
def nonOverlappingMatches (re : SubmatchRegexp) : Nat → List Chunk → List (List GoString)
  | _, [] => []
  | skip + 1, _ :: t => nonOverlappingMatches re skip t
  | 0, c :: t =>
    match Rx.run re.expr (c :: t) [] with
    | p :: _ =>
      submatches re.NumSubexp (c :: t) p.1 p.2 ::
        nonOverlappingMatches re ((c :: t).length - p.1.length - 1) t
    | [] => nonOverlappingMatches re 0 t

/-- A POST request for /graphql whose JSON body arrives in two pieces. -/
def graphQLRequest : http.Request :=
  { Method := str "POST"
    URL := { Path := str "/graphql" }
    Header := [(str "Content-Type", [str "application/json"])]
    Host := str "www.example.com"
    RemoteAddr := str "127.0.0.1:1234"
    ContentLength := 32
    Body := { pending := [ReadStep.data (str "\x7b\"query\":\"query \x7b to"),
      ReadStep.data (str "dos \x7b title \x7d\x7d\"\x7d")] } }

/-- The body of TestParseGraphQLQuery with the mutation LoginV2. -/
def loginBody : GoString :=
  str "\x7b\"query\":\"mutation LoginV2($loginV2LoginName2: String!, $log" ++
    str "inV2Password2: String!, $loginV2ServiceLocationId3: ID!) \x7b l" ++
    str "oginV2(loginName: $loginV2LoginName2, password: $loginV2Pass" ++
    str "word2, serviceLocationId: $loginV2ServiceLocationId3) \x7b cook" ++
    str "ieAdapterToken msg \x7d\x7d\",\"variables\":\x7b\"loginV2LoginName2\":\"alp" ++
    str "ha@staging.com\",\"loginV2Password2\":\"Test1234\",\"loginV2Servic" ++
    str "eLocationId3\":\"50000059\"\x7d\x7d"

/-- The body of TestParseGraphQLQuery with the operations One, Two, Three and Four. -/
def fourOperationsBody : GoString :=
  str "\x7b\"query\":\"mutation One \x7b # Do something ...\x7dmutation Two \x7b #" ++
    str " Do something ...\x7dquery Three @depends(on: [\\\"One\\\", \\\"Two\\\"" ++
    str "]) \x7b # Do something ...\x7dquery Four @depends(on: \\\"Three\\\") \x7b" ++
    str " # Do something ...\x7d\"\x7d"

/-! ## net/url: query values -/

/-- Go url.Values: a map from a key to the list of its values, as an
association list (read with Header.values, written with Header.put, which are
the plain map operations). -/
abbrev url.Values := List (GoString × List GoString)

/-- Go net/url ishex. -/
def ishex (c : UInt8) : Bool :=
  (decide (0x30 ≤ c.toNat) && decide (c.toNat ≤ 0x39)) ||
  (decide (0x61 ≤ c.toNat) && decide (c.toNat ≤ 0x66)) ||
  (decide (0x41 ≤ c.toNat) && decide (c.toNat ≤ 0x46))

/-- Go net/url unhex. -/
def unhex (c : UInt8) : Nat :=
  if 0x30 ≤ c.toNat ∧ c.toNat ≤ 0x39 then c.toNat - 0x30
  else if 0x61 ≤ c.toNat ∧ c.toNat ≤ 0x66 then c.toNat - 0x61 + 10
  else if 0x41 ≤ c.toNat ∧ c.toNat ≤ 0x46 then c.toNat - 0x41 + 10
  else 0

/-- Go url.QueryUnescape: each %XX becomes the byte it names and each + a
space.  The error is the EscapeError of the first malformed escape, given by
its text (the percent sign and up to two bytes after it). -/
def QueryUnescape : GoString → Except GoString GoString
  | [] => Except.ok []
  | c :: t =>
    if c = 0x25 then
      match t with
      | a :: b :: u =>
        if ishex a = true ∧ ishex b = true then
          match QueryUnescape u with
          | Except.ok rest => Except.ok (UInt8.ofNat (unhex a * 16 + unhex b) :: rest)
          | Except.error err => Except.error err
        else Except.error [c, a, b]
      | rest => Except.error (c :: rest)
    else
      match QueryUnescape t with
      | Except.ok rest => Except.ok ((if c = 0x2B then 0x20 else c) :: rest)
      | Except.error err => Except.error err

/-- The pieces of a query between its ampersands, as the loop of
url.parseQuery visits them: the loop takes the text before the first
ampersand and goes on with the text after it while that is not empty. -/
def ampSegments : GoString → List GoString
  | [] => []
  | c :: t =>
    if c = 0x26 then [] :: ampSegments t
    else
      match ampSegments t with
      | [] => [[c]]
      | seg :: rest => (c :: seg) :: rest

/-- Go url.ParseQuery without its error, as URL.Query uses it: a piece that
holds a semicolon, is empty or does not unescape is passed over; the value of
every other piece is appended to the values of its key. -/
def ParseQuery (query : GoString) : url.Values :=
  (ampSegments query).foldl
    (fun (m : url.Values) key =>
      if (Index key (str ";")).isSome = true then m
      else if key = [] then m
      else
        let kv := cut key (str "=")
        match QueryUnescape kv.1 with
        | Except.error _ => m
        | Except.ok key =>
          match QueryUnescape kv.2.1 with
          | Except.error _ => m
          | Except.ok value => Header.put m key (Header.values m key ++ [value]))
    []

/-- Go URL.Query: the parsed RawQuery, malformed pairs silently discarded. -/
def URL.Query (u : URL) : url.Values := ParseQuery u.RawQuery

/-- Go Values.Has: whether the key is set. -/
def url.Values.Has (v : url.Values) (key : GoString) : Bool := v.any (fun e => decide (e.1 = key))

/-- Go Values.Get: the first value of the key, the empty string when there is none. -/
def url.Values.Get (v : url.Values) (key : GoString) : GoString :=
  match Header.values v key with
  | [] => []
  | value :: _ => value

/-- Go Values.Del: deletes the values of the key. -/
def url.Values.Del (v : url.Values) (key : GoString) : url.Values :=
  v.filter (fun e => !decide (e.1 = key))

/-- Go Values.Encode: the values in URL encoded form, sorted by key. -/
def url.Values.Encode (v : url.Values) : GoString :=
  (str "&").intercalate
    ((List.insertionSort (fun a b => a ≤ b) (v.map Prod.fst)).flatMap
      (fun k => (Header.values v k).map (fun value => QueryEscape k ++ str "=" ++ QueryEscape value)))

/-- Go Header.Del: deletes the values of the canonicalised key. -/
def Header.Del (h : Header) (key : GoString) : Header :=
  h.filter (fun e => !decide (e.1 = CanonicalMIMEHeaderKey key))

/-- The functions of net/url that the package calls on whole URLs. -/
structure UrlLib where
  /-- Go url.Parse. -/
  Parse : GoString → Except GoString URL
  /-- Go URL.String. -/
  String : URL → GoString

/-! ## utils.go: the Referer restoration -/

/-- Source sortQueryParams: the URL as a string, with the values of each query
parameter sorted, the parameters sorted by key, and no fragment. -/
def sortQueryParams (ulib : UrlLib) (u : URL) : GoString :=
  let queryParams := u.Query
  let queryParams : url.Values :=
    queryParams.map (fun e => (e.1, List.insertionSort (fun a b => a ≤ b) e.2))
  let u := { u with RawQuery := queryParams.Encode }
  let u := { u with Fragment := str "" }
  ulib.String u

/-- Source isMatchingReferrer: whether the URL of the request equals the value
of the Referer header, the dd_referrer query parameter left out of the URL.
The function reads the request and writes to the URLs it parses only. -/
def isMatchingReferrer (ulib : UrlLib) (r : http.Request) : Except GoString Bool :=
  let fullURL := getProtocol r ++ str "://" ++ r.Host ++ getURL r
  match ulib.Parse fullURL with
  | Except.error err => Except.error (str "fail to parse request URL: " ++ err)
  | Except.ok parsedUrl =>
    let queryParams := parsedUrl.Query
    let queryParams := queryParams.Del (str "dd_referrer")
    let parsedUrl := { parsedUrl with RawQuery := queryParams.Encode }
    let referer := Header.Get r.Header (str "Referer")
    if referer = [] then Except.ok false
    else
      match QueryUnescape referer with
      | Except.error err => Except.error (str "fail to decode referer header: " ++ err)
      | Except.ok decodedReferer =>
        match ulib.Parse decodedReferer with
        | Except.error err => Except.error (str "fail to parse referer header: " ++ err)
        | Except.ok parsedReferer =>
          Except.ok (decide (sortQueryParams ulib parsedUrl = sortQueryParams ulib parsedReferer))

/-- Source restoreReferrer: replaces the value of the Referer header with the
value of the dd_referrer query parameter, or deletes the header when that
value is empty.  The result is the error (none for nil) and the request as the
function leaves it. -/
def restoreReferrer (r : http.Request) : Option GoString × http.Request :=
  let queryParams := r.URL.Query
  if queryParams.Has (str "dd_referrer") = true then
    let ddReferrer := queryParams.Get (str "dd_referrer")
    let restored : Except GoString http.Request :=
      if ddReferrer = [] then Except.ok { r with Header := Header.Del r.Header (str "Referer") }
      else
        match QueryUnescape ddReferrer with
        | Except.error err =>
          Except.error (str "fail to decoded dd_referrer query value: " ++ err)
        | Except.ok decodedReferrer =>
          Except.ok { r with Header := Header.Set r.Header (str "Referer") decodedReferrer }
    match restored with
    | Except.error err => (some err, r)
    | Except.ok r =>
      let queryParams := queryParams.Del (str "dd_referrer")
      (none, { r with URL := { r.URL with RawQuery := queryParams.Encode } })
  else (none, r)

/-- The two optional stages of buildRequest as the package implements them. -/
def sourceProbes (ulib : UrlLib) : Probes :=
  { isMatchingReferrer := fun r =>
      match isMatchingReferrer ulib r with
      | Except.ok isMatching => some isMatching
      | Except.error _ => none
    restoreReferrer := fun r => (restoreReferrer r).2
    getGraphQLData := fun r maximumBodySize =>
      match getGraphQLData r maximumBodySize with
      | some (Except.ok gqlData, r) => (some gqlData, r)
      | some (Except.error _, r) => (none, r)
      | none => (none, r) }

/-- The request of TestRestoreReferrer without dd_referrer: GET /foo with the
Referer header Bar. -/
def requestWithoutDDReferrer : http.Request :=
  { Method := str "GET"
    URL := { Path := str "/foo", RawQuery := str "query=params&toto=tata" }
    Header := [(str "Referer", [str "Bar"])]
    Host := str "example.com"
    RemoteAddr := str "127.0.0.1:1234" }

/-- A library of net/url for the samples: nothing parses. -/
def sampleUrlLib : UrlLib :=
  { Parse := fun _ => Except.error (str "unsupported")
    String := fun u => u.Host ++ u.Path }

/-! ## The legacy package utils: truncation -/

/-- Source utils.getApiKeyLength of the legacy package (its ApiFields
constants are spelled as those of the current package): the maximal size
allowed for a given field; the switch falls through to -1 for a key that no
case lists. -/
def utils.getApiKeyLength (key : ApiFields) : Int :=
  if key ∈ [SecCHDeviceMemory, SecCHUAMobile, SecFetchUser] then 8
  else if key ∈ [SecCHUAArch] then 16
  else if key ∈ [SecCHUAPlatform, SecFetchDest, SecFetchMode] then 32
  else if key ∈ [ContentType, SecFetchSite] then 64
  else if key ∈ [CacheControl, ClientID, XRequestedWith, AcceptCharset, AcceptEncoding,
      Pragma, Connection, From, SecCHUA, SecCHUAModel, TrueClientIP, XRealIP,
      GraphQLOperationName] then 128
  else if key ∈ [AcceptLanguage, SecCHUAFullVersionList, Via] then 256
  else if key ∈ [HeadersList, Origin, ServerHostname, ServerName, Accept, Host] then 512
  else if key ∈ [XForwardedForIP] then -512
  else if key ∈ [UserAgent] then 768
  else if key ∈ [Referer] then 1024
  else if key ∈ [Request] then 2048
  else -1

/-- Source utils.GetApiKeyValue of the legacy package. -/
def utils.GetApiKeyValue (key : ApiFields) (value : GoString) : GoString :=
  if value = [] then []
  else
    let limit := utils.getApiKeyLength key
    if limit < -1 ∧ len value > -1 * limit then
      let limit := limit * -1
      value.drop (len value - limit).toNat
    else if limit > -1 ∧ len value > limit then
      value.take limit.toNat
    else value

/-- The sample request behind a proxy that announces the host
forwarded.example.com. -/
def forwardedRequest : http.Request :=
  { sampleRequest with
    Header := sampleRequest.Header ++ [(str "X-Forwarded-Host", [str "forwarded.example.com"])] }

/-- The sample request with an empty path and no query. -/
def emptyPathRequest : http.Request :=
  { sampleRequest with URL := { Path := str "" } }

/-- A body in which the shorthand pattern matches twice and the operation
pattern does not match. -/
def twoShorthandBody : GoString :=
  str "\x7b\"query\":\"\x7b todos \x7d\",\"other\":\"\x7b x \x7d\"\x7d"

/-- The shorthand body of TestParseGraphQLQuery. -/
def shorthandBody : GoString :=
  str "\x7b\"query\":\"\x7b todos \x7b title \x7d\x7d\"\x7d"

/-- The malformed body of TestParseGraphQLQuery. -/
def malformedBody : GoString :=
  str "\x7b\"query\":\"mutatio RefreshTokenV2 $serviceLocationId: ID!) \x7b refreshTok" ++
    str "enV2(serviceLocationId: $serviceLocationId) \x7b cookieAdapterToken msg \x7d\x7d\"," ++
    str "\"variables\":\x7b\"serviceLocationId\":\"\"\x7d\x7d"

/-- The request of TestRestoreReferrer with a filled dd_referrer. -/
def requestWithFilledDDReferrer : http.Request :=
  { requestWithoutDDReferrer with
    URL := { Path := str "/foo", RawQuery := str "dd_referrer=Foo" } }

/-- The request of TestRestoreReferrer with an empty dd_referrer. -/
def requestWithEmptyDDReferrer : http.Request :=
  { requestWithoutDDReferrer with
    URL := { Path := str "/foo", RawQuery := str "dd_referrer=" } }

/-- The request of TestRestoreReferrer with several query parameters. -/
def requestWithMultipleQueryParams : http.Request :=
  { requestWithoutDDReferrer with
    URL := { Path := str "/foo", RawQuery := str "query=params&dd_referrer=Foo&toto=tata" } }

/-- A request whose dd_referrer holds an escaped percent sign: the parsed value
is a%2Fb. -/
def requestWithEscapedDDReferrer : http.Request :=
  { requestWithoutDDReferrer with
    URL := { Path := str "/foo", RawQuery := str "query=a+b&dd_referrer=a%252Fb" } }

/-- A request whose dd_referrer parses to the value %zz, which does not
unescape. -/
def requestWithUndecodableDDReferrer : http.Request :=
  { requestWithoutDDReferrer with
    URL := { Path := str "/foo", RawQuery := str "query=params&dd_referrer=%25zz" } }

/-! # Theorems -/

/-! ## Truncation -/

theorem truncateValue_length_le (k : ApiFields) (v : GoString) (h : getTruncationSize k ≠ 0) :
    len (truncateValue k v) ≤ |getTruncationSize k| := by
  unfold truncateValue
  simp only [len]
  generalize getTruncationSize k = L at h ⊢
  split_ifs with h1 h2 h3
  · simp
  · obtain ⟨hL, hv⟩ := h2
    rw [List.length_drop, abs_of_neg hL]
    omega
  · obtain ⟨hL, hv⟩ := h3
    rw [List.length_take, abs_of_pos hL]
    omega
  · simp only [not_and, not_lt] at h2 h3
    rcases lt_trichotomy L 0 with hL | hL | hL
    · rw [abs_of_neg hL]; have := h2 hL; omega
    · exact absurd hL h
    · rw [abs_of_pos hL]; exact h3 hL

theorem truncateValue_of_pos (k : ApiFields) (v : GoString)
    (hL : getTruncationSize k > 0) (hv : len v > getTruncationSize k) :
    truncateValue k v = v.take (getTruncationSize k).toNat := by
  unfold truncateValue
  have hne : v ≠ [] := by
    rintro rfl
    simp only [len, List.length_nil] at hv
    omega
  rw [if_neg hne]
  simp only
  rw [if_neg (by omega), if_pos ⟨hL, hv⟩]

theorem truncateValue_of_neg (k : ApiFields) (v : GoString)
    (hL : getTruncationSize k < 0) (hv : len v > |getTruncationSize k|) :
    truncateValue k v = v.drop (v.length - (getTruncationSize k).natAbs) := by
  unfold truncateValue
  rw [abs_of_neg hL] at hv
  have hne : v ≠ [] := by
    rintro rfl
    simp only [len, List.length_nil] at hv
    omega
  rw [if_neg hne]
  simp only
  rw [if_pos ⟨hL, by omega⟩]
  congr 1
  simp only [len] at hv ⊢
  omega

theorem truncateValue_of_fits (k : ApiFields) (v : GoString)
    (h : ¬ (getTruncationSize k > 0 ∧ len v > getTruncationSize k))
    (h2 : ¬ (getTruncationSize k < 0 ∧ len v > |getTruncationSize k|)) :
    truncateValue k v = v := by
  unfold truncateValue
  dsimp only
  split_ifs with h1 h3
  · exact h1.symm
  · exfalso
    apply h2
    refine ⟨h3.1, ?_⟩
    rw [abs_of_neg h3.1]
    have := h3.2
    omega
  · rfl

theorem catalogValue_bound (p : ProtectionAPIRequestPayload)
    (hAccept : len p.Accept ≤ |getTruncationSize Accept|)
    (hAcceptCharset : len p.AcceptCharset ≤ |getTruncationSize AcceptCharset|)
    (hAcceptEncoding : len p.AcceptEncoding ≤ |getTruncationSize AcceptEncoding|)
    (hAcceptLanguage : len p.AcceptLanguage ≤ |getTruncationSize AcceptLanguage|)
    (hCacheControl : len p.CacheControl ≤ |getTruncationSize CacheControl|)
    (hClientID : len p.ClientID ≤ |getTruncationSize ClientID|)
    (hConnection : len p.Connection ≤ |getTruncationSize Connection|)
    (hContentType : len p.ContentType ≤ |getTruncationSize ContentType|)
    (hFrom : len p.From ≤ |getTruncationSize From|)
    (hGraphQLOperationName : ∀ v, p.GraphQLOperationName = some v → len v ≤ |getTruncationSize GraphQLOperationName|)
    (hHeadersList : len p.HeadersList ≤ |getTruncationSize HeadersList|)
    (hHost : len p.Host ≤ |getTruncationSize Host|)
    (hOrigin : len p.Origin ≤ |getTruncationSize Origin|)
    (hPragma : len p.Pragma ≤ |getTruncationSize Pragma|)
    (hReferer : len p.Referer ≤ |getTruncationSize Referer|)
    (hRequest : len p.Request ≤ |getTruncationSize Request|)
    (hSecCHDeviceMemory : len p.SecChDeviceMemory ≤ |getTruncationSize SecCHDeviceMemory|)
    (hSecCHUA : len p.SecChUA ≤ |getTruncationSize SecCHUA|)
    (hSecCHUAArch : len p.SecChUAArch ≤ |getTruncationSize SecCHUAArch|)
    (hSecCHUAFullVersionList : len p.SecChUAFullVersionList ≤ |getTruncationSize SecCHUAFullVersionList|)
    (hSecCHUAMobile : len p.SecChUAMobile ≤ |getTruncationSize SecCHUAMobile|)
    (hSecCHUAModel : len p.SecChUAModel ≤ |getTruncationSize SecCHUAModel|)
    (hSecCHUAPlatform : len p.SecChUAPlatform ≤ |getTruncationSize SecCHUAPlatform|)
    (hSecFetchUser : len p.SecFetchUser ≤ |getTruncationSize SecFetchUser|)
    (hSecFetchDest : len p.SecFetchDest ≤ |getTruncationSize SecFetchDest|)
    (hSecFetchMode : len p.SecFetchMode ≤ |getTruncationSize SecFetchMode|)
    (hSecFetchSite : len p.SecFetchSite ≤ |getTruncationSize SecFetchSite|)
    (hServerHostname : len p.ServerHostName ≤ |getTruncationSize ServerHostname|)
    (hServerName : len p.ServerName ≤ |getTruncationSize ServerName|)
    (hTrueClientIP : len p.TrueClientIP ≤ |getTruncationSize TrueClientIP|)
    (hUserAgent : len p.UserAgent ≤ |getTruncationSize UserAgent|)
    (hVia : len p.Via ≤ |getTruncationSize Via|)
    (hXForwardedForIP : len p.XForwardedForIP ≤ |getTruncationSize XForwardedForIP|)
    (hXRealIP : len p.XRealIP ≤ |getTruncationSize XRealIP|)
    (hXRequestedWith : len p.XRequestedWith ≤ |getTruncationSize XRequestedWith|)
    (k : ApiFields) (v : GoString) (hv : catalogValue p k = some v) :
    len v ≤ |getTruncationSize k| := by
  unfold catalogValue at hv
  by_cases c0 : k = Accept
  · rw [if_pos c0] at hv; rw [c0, ← Option.some.inj hv]; exact hAccept
  rw [if_neg c0] at hv
  by_cases c1 : k = AcceptCharset
  · rw [if_pos c1] at hv; rw [c1, ← Option.some.inj hv]; exact hAcceptCharset
  rw [if_neg c1] at hv
  by_cases c2 : k = AcceptEncoding
  · rw [if_pos c2] at hv; rw [c2, ← Option.some.inj hv]; exact hAcceptEncoding
  rw [if_neg c2] at hv
  by_cases c3 : k = AcceptLanguage
  · rw [if_pos c3] at hv; rw [c3, ← Option.some.inj hv]; exact hAcceptLanguage
  rw [if_neg c3] at hv
  by_cases c4 : k = CacheControl
  · rw [if_pos c4] at hv; rw [c4, ← Option.some.inj hv]; exact hCacheControl
  rw [if_neg c4] at hv
  by_cases c5 : k = ClientID
  · rw [if_pos c5] at hv; rw [c5, ← Option.some.inj hv]; exact hClientID
  rw [if_neg c5] at hv
  by_cases c6 : k = Connection
  · rw [if_pos c6] at hv; rw [c6, ← Option.some.inj hv]; exact hConnection
  rw [if_neg c6] at hv
  by_cases c7 : k = ContentType
  · rw [if_pos c7] at hv; rw [c7, ← Option.some.inj hv]; exact hContentType
  rw [if_neg c7] at hv
  by_cases c8 : k = From
  · rw [if_pos c8] at hv; rw [c8, ← Option.some.inj hv]; exact hFrom
  rw [if_neg c8] at hv
  by_cases c9 : k = GraphQLOperationName
  · rw [if_pos c9] at hv; rw [c9]; exact hGraphQLOperationName v hv
  rw [if_neg c9] at hv
  by_cases c10 : k = HeadersList
  · rw [if_pos c10] at hv; rw [c10, ← Option.some.inj hv]; exact hHeadersList
  rw [if_neg c10] at hv
  by_cases c11 : k = Host
  · rw [if_pos c11] at hv; rw [c11, ← Option.some.inj hv]; exact hHost
  rw [if_neg c11] at hv
  by_cases c12 : k = Origin
  · rw [if_pos c12] at hv; rw [c12, ← Option.some.inj hv]; exact hOrigin
  rw [if_neg c12] at hv
  by_cases c13 : k = Pragma
  · rw [if_pos c13] at hv; rw [c13, ← Option.some.inj hv]; exact hPragma
  rw [if_neg c13] at hv
  by_cases c14 : k = Referer
  · rw [if_pos c14] at hv; rw [c14, ← Option.some.inj hv]; exact hReferer
  rw [if_neg c14] at hv
  by_cases c15 : k = Request
  · rw [if_pos c15] at hv; rw [c15, ← Option.some.inj hv]; exact hRequest
  rw [if_neg c15] at hv
  by_cases c16 : k = SecCHDeviceMemory
  · rw [if_pos c16] at hv; rw [c16, ← Option.some.inj hv]; exact hSecCHDeviceMemory
  rw [if_neg c16] at hv
  by_cases c17 : k = SecCHUA
  · rw [if_pos c17] at hv; rw [c17, ← Option.some.inj hv]; exact hSecCHUA
  rw [if_neg c17] at hv
  by_cases c18 : k = SecCHUAArch
  · rw [if_pos c18] at hv; rw [c18, ← Option.some.inj hv]; exact hSecCHUAArch
  rw [if_neg c18] at hv
  by_cases c19 : k = SecCHUAFullVersionList
  · rw [if_pos c19] at hv; rw [c19, ← Option.some.inj hv]; exact hSecCHUAFullVersionList
  rw [if_neg c19] at hv
  by_cases c20 : k = SecCHUAMobile
  · rw [if_pos c20] at hv; rw [c20, ← Option.some.inj hv]; exact hSecCHUAMobile
  rw [if_neg c20] at hv
  by_cases c21 : k = SecCHUAModel
  · rw [if_pos c21] at hv; rw [c21, ← Option.some.inj hv]; exact hSecCHUAModel
  rw [if_neg c21] at hv
  by_cases c22 : k = SecCHUAPlatform
  · rw [if_pos c22] at hv; rw [c22, ← Option.some.inj hv]; exact hSecCHUAPlatform
  rw [if_neg c22] at hv
  by_cases c23 : k = SecFetchUser
  · rw [if_pos c23] at hv; rw [c23, ← Option.some.inj hv]; exact hSecFetchUser
  rw [if_neg c23] at hv
  by_cases c24 : k = SecFetchDest
  · rw [if_pos c24] at hv; rw [c24, ← Option.some.inj hv]; exact hSecFetchDest
  rw [if_neg c24] at hv
  by_cases c25 : k = SecFetchMode
  · rw [if_pos c25] at hv; rw [c25, ← Option.some.inj hv]; exact hSecFetchMode
  rw [if_neg c25] at hv
  by_cases c26 : k = SecFetchSite
  · rw [if_pos c26] at hv; rw [c26, ← Option.some.inj hv]; exact hSecFetchSite
  rw [if_neg c26] at hv
  by_cases c27 : k = ServerHostname
  · rw [if_pos c27] at hv; rw [c27, ← Option.some.inj hv]; exact hServerHostname
  rw [if_neg c27] at hv
  by_cases c28 : k = ServerName
  · rw [if_pos c28] at hv; rw [c28, ← Option.some.inj hv]; exact hServerName
  rw [if_neg c28] at hv
  by_cases c29 : k = TrueClientIP
  · rw [if_pos c29] at hv; rw [c29, ← Option.some.inj hv]; exact hTrueClientIP
  rw [if_neg c29] at hv
  by_cases c30 : k = UserAgent
  · rw [if_pos c30] at hv; rw [c30, ← Option.some.inj hv]; exact hUserAgent
  rw [if_neg c30] at hv
  by_cases c31 : k = Via
  · rw [if_pos c31] at hv; rw [c31, ← Option.some.inj hv]; exact hVia
  rw [if_neg c31] at hv
  by_cases c32 : k = XForwardedForIP
  · rw [if_pos c32] at hv; rw [c32, ← Option.some.inj hv]; exact hXForwardedForIP
  rw [if_neg c32] at hv
  by_cases c33 : k = XRealIP
  · rw [if_pos c33] at hv; rw [c33, ← Option.some.inj hv]; exact hXRealIP
  rw [if_neg c33] at hv
  by_cases c34 : k = XRequestedWith
  · rw [if_pos c34] at hv; rw [c34, ← Option.some.inj hv]; exact hXRequestedWith
  rw [if_neg c34] at hv
  exact absurd hv (by simp)

theorem payloadOf_bound (lib : Lib) (c : Client) (r0 r : http.Request) (ip : GoString)
    (k : ApiFields) (v : GoString) (hv : catalogValue (payloadOf lib c r0 r ip) k = some v) :
    len v ≤ |getTruncationSize k| := by
  refine catalogValue_bound _ ?_ ?_ ?_ ?_ ?_ ?_ ?_ ?_ ?_ ?_ ?_ ?_ ?_ ?_ ?_ ?_ ?_ ?_ ?_ ?_ ?_ ?_ ?_ ?_
    ?_ ?_ ?_ ?_ ?_ ?_ ?_ ?_ ?_ ?_ ?_ k v hv
  all_goals first
    | exact truncateValue_length_le _ _ (by decide)
    | (intro v hv; cases hv)

theorem graphQLStage_bound (probes : Probes) (c : Client) (p : ProtectionAPIRequestPayload)
    (r : http.Request)
    (hp : ∀ k v, catalogValue p k = some v → len v ≤ |getTruncationSize k|)
    (k : ApiFields) (v : GoString) (hv : catalogValue (graphQLStage probes c p r).1 k = some v) :
    len v ≤ |getTruncationSize k| := by
  unfold graphQLStage at hv
  split at hv
  · split at hv
    · split at hv
      · refine catalogValue_bound _ ?_ ?_ ?_ ?_ ?_ ?_ ?_ ?_ ?_ ?_ ?_ ?_ ?_ ?_ ?_ ?_ ?_ ?_ ?_ ?_ ?_ ?_ ?_ ?_
          ?_ ?_ ?_ ?_ ?_ ?_ ?_ ?_ ?_ ?_ ?_ k v hv
        all_goals first
          | (intro v hv; cases hv; exact truncateValue_length_le _ _ (by decide))
          | exact hp _ _ rfl
      · exact hp k v hv
    · exact hp k v hv
  · exact hp k v hv

theorem buildPayload_bound (lib : Lib) (probes : Probes) (c : Client) (r r1 : http.Request)
    (p : ProtectionAPIRequestPayload) (h : buildPayload lib probes c r = Except.ok (p, r1))
    (k : ApiFields) (v : GoString) (hv : catalogValue p k = some v) :
    len v ≤ |getTruncationSize k| := by
  unfold buildPayload at h
  split at h
  · cases h
  · injection h with h
    have hp := congrArg Prod.fst h
    dsimp only at hp
    rw [← hp] at hv
    exact graphQLStage_bound probes c _ _ (payloadOf_bound lib c r _ _) k v hv

theorem getTruncationSize_ne_zero (k : ApiFields) (h : getTruncationSize k ≠ 0) :
    k ∈ [SecCHDeviceMemory, SecCHUAMobile, SecFetchUser] ∨ k ∈ [SecCHUAArch] ∨
    k ∈ [SecCHUAPlatform, SecFetchDest, SecFetchMode] ∨ k ∈ [ContentType, SecFetchSite] ∨
    k ∈ [CacheControl, ClientID, XRequestedWith, AcceptCharset, AcceptEncoding,
      Pragma, Connection, From, SecCHUA, SecCHUAModel, TrueClientIP, XRealIP,
      GraphQLOperationName] ∨
    k ∈ [AcceptLanguage, SecCHUAFullVersionList, Via] ∨
    k ∈ [HeadersList, Origin, ServerHostname, ServerName, Accept, Host] ∨
    k ∈ [XForwardedForIP] ∨ k ∈ [UserAgent] ∨ k ∈ [Referer] ∨ k ∈ [Request] := by
  by_contra hc
  simp only [not_or] at hc
  obtain ⟨h1, h2, h3, h4, h5, h6, h7, h8, h9, h10, h11⟩ := hc
  apply h
  unfold getTruncationSize
  rw [if_neg h1, if_neg h2, if_neg h3, if_neg h4, if_neg h5, if_neg h6, if_neg h7, if_neg h8,
    if_neg h9, if_neg h10, if_neg h11]

theorem catalogValue_isSome (p : ProtectionAPIRequestPayload) (k : ApiFields)
    (h : getTruncationSize k ≠ 0) (hk : k ≠ GraphQLOperationName) :
    (catalogValue p k).isSome = true := by
  have hm := getTruncationSize_ne_zero k h
  simp only [List.mem_cons, List.mem_singleton, List.not_mem_nil, or_false] at hm
  rcases hm with (h | h | h) | h | (h | h | h) | (h | h) |
    (h | h | h | h | h | h | h | h | h | h | h | h | h) | (h | h | h) |
    (h | h | h | h | h | h) | h | h | h | h
  all_goals first | exact absurd h hk | (subst h; rfl)

/-- C9. Truncation bound: whenever buildRequest succeeds, its result is the
serialisation of a payload in which every catalog field (a key with a non-zero
limit L) holds a value of at most |L| bytes, each such field other than the
optional GraphQLOperationName being present; equivalently truncateValue never
returns more than |getTruncationSize k| bytes for a catalog key k. -/
theorem truncation_bound :
    (∀ (lib : Lib) (probes : Probes) (c : Client) (r : http.Request) (queryStr : GoString),
        (buildRequest lib probes c r).1 = Except.ok queryStr →
        ∃ p r1, buildPayload lib probes c r = Except.ok (p, r1) ∧
          queryStr = Encode (Values p) ∧
          ∀ k : ApiFields, getTruncationSize k ≠ 0 →
            (k ≠ GraphQLOperationName → (catalogValue p k).isSome = true) ∧
            ∀ v, catalogValue p k = some v → len v ≤ |getTruncationSize k|) ∧
    (∀ (k : ApiFields) (v : GoString), getTruncationSize k ≠ 0 →
        len (truncateValue k v) ≤ |getTruncationSize k|) := by
  refine ⟨?_, fun k v h => truncateValue_length_le k v h⟩
  intro lib probes c r queryStr h
  unfold buildRequest at h
  cases hb : buildPayload lib probes c r with
  | error e => rw [hb] at h; cases h
  | ok pr =>
    obtain ⟨p, r1⟩ := pr
    rw [hb] at h
    injection h with h
    refine ⟨p, r1, rfl, h.symm, fun k hk => ?_⟩
    exact ⟨fun hne => catalogValue_isSome p k hk hne,
      fun v hv => buildPayload_bound lib probes c r r1 p hb k v hv⟩

theorem truncation_bound_witness :
    getTruncationSize SecCHUAArch ≠ 0 ∧
    len (truncateValue SecCHUAArch (str "a-very-long-architecture-name")) ≤
      |getTruncationSize SecCHUAArch| ∧
    ∃ p r1, buildPayload (sampleLib (DoResult.ok allowResponse)) sampleProbes sampleClient
        sampleRequest = Except.ok (p, r1) ∧
      Encode (Values (payloadOf (sampleLib (DoResult.ok allowResponse)) sampleClient sampleRequest
        sampleRequest (str "127.0.0.1"))) = Encode (Values p) ∧
      ∀ k : ApiFields, getTruncationSize k ≠ 0 →
        (k ≠ GraphQLOperationName → (catalogValue p k).isSome = true) ∧
        ∀ v, catalogValue p k = some v → len v ≤ |getTruncationSize k| :=
  ⟨by decide, truncation_bound.2 _ _ (by decide),
    truncation_bound.1 (sampleLib (DoResult.ok allowResponse)) sampleProbes sampleClient
      sampleRequest _ rfl⟩

/-- C10. truncateValue is anchored by the sign of the limit L of the key: for
L > 0 and a longer value the result is the first L bytes; for L < 0 and a value
longer than |L| it is the last |L| bytes (the last 512 bytes for
XForwardedForIP); in every other case, and for every key whose limit is 0 (a
key absent from the catalog) whatever the length, the result is the value. -/
theorem truncateValue_anchored (k : ApiFields) (v : GoString) :
    (getTruncationSize k > 0 ∧ len v > getTruncationSize k →
      truncateValue k v = v.take (getTruncationSize k).toNat) ∧
    (getTruncationSize k < 0 ∧ len v > |getTruncationSize k| →
      truncateValue k v = v.drop (v.length - (getTruncationSize k).natAbs)) ∧
    (len v > 512 → truncateValue XForwardedForIP v = v.drop (v.length - 512)) ∧
    (¬ (getTruncationSize k > 0 ∧ len v > getTruncationSize k) ∧
      ¬ (getTruncationSize k < 0 ∧ len v > |getTruncationSize k|) → truncateValue k v = v) ∧
    (getTruncationSize k = 0 → truncateValue k v = v) := by
  refine ⟨fun h => truncateValue_of_pos k v h.1 h.2, fun h => truncateValue_of_neg k v h.1 h.2,
    fun h => ?_, fun h => truncateValue_of_fits k v h.1 h.2, fun h => ?_⟩
  · have hx : getTruncationSize XForwardedForIP = -512 := by decide
    have := truncateValue_of_neg XForwardedForIP v (by rw [hx]; decide) (by rw [hx]; exact h)
    rw [this, hx]
    rfl
  · exact truncateValue_of_fits k v (by rw [h]; simp) (by rw [h]; simp)

theorem truncateValue_anchored_witness :
    (getTruncationSize SecCHUAArch > 0 ∧
      len (str "abcdefghijklmnopqrstuvwxyz") > getTruncationSize SecCHUAArch) ∧
    truncateValue SecCHUAArch (str "abcdefghijklmnopqrstuvwxyz") =
      (str "abcdefghijklmnopqrstuvwxyz").take (getTruncationSize SecCHUAArch).toNat ∧
    getTruncationSize (str "RequestModuleName") = 0 ∧
    truncateValue (str "RequestModuleName") (str "abcdefghijklmnopqrstuvwxyz") =
      str "abcdefghijklmnopqrstuvwxyz" :=
  ⟨by decide,
    (truncateValue_anchored SecCHUAArch (str "abcdefghijklmnopqrstuvwxyz")).1 (by decide),
    by decide,
    (truncateValue_anchored (str "RequestModuleName")
      (str "abcdefghijklmnopqrstuvwxyz")).2.2.2.2 (by decide)⟩

/-! ## strconv.Itoa is injective -/

theorem digitByte_val (d : Nat) (h : d < 10) : (digitByte d).toNat - 0x30 = d := by
  unfold digitByte
  have : (UInt8.ofNat (0x30 + d)).toNat = 0x30 + d := by
    show (0x30 + d) % 256 = 0x30 + d
    omega
  rw [this]; omega

theorem natDigits_val (fuel n : Nat) (acc : GoString) (h : n < fuel) :
    (natDigits fuel n acc).foldl (fun a b => 10 * a + (b.toNat - 0x30)) 0 =
      acc.foldl (fun a b => 10 * a + (b.toNat - 0x30)) n := by
  induction fuel generalizing n acc with
  | zero => omega
  | succ fuel ih =>
    unfold natDigits
    split_ifs with h0
    · rw [List.foldl_cons, digitByte_val _ (Nat.mod_lt _ (by omega))]
      congr 1
      omega
    · rw [ih (n / 10) _ (by omega), List.foldl_cons, digitByte_val _ (Nat.mod_lt _ (by omega))]
      congr 1
      omega

theorem natDigits_head (fuel n : Nat) (acc : GoString) (h : n < fuel) :
    ∃ d t, natDigits fuel n acc = digitByte d :: t ∧ d < 10 := by
  induction fuel generalizing n acc with
  | zero => omega
  | succ fuel ih =>
    unfold natDigits
    split_ifs with h0
    · exact ⟨n % 10, acc, rfl, Nat.mod_lt _ (by omega)⟩
    · exact ih (n / 10) _ (by omega)

theorem Itoa_injective (m n : Int) (h : Itoa m = Itoa n) : m = n := by
  unfold Itoa at h
  have key : ∀ k : Nat, ∃ d t, natDigits (k + 1) k [] = digitByte d :: t ∧ d < 10 :=
    fun k => natDigits_head (k + 1) k [] (by omega)
  have hne : ∀ d, d < 10 → digitByte d ≠ 0x2D := by
    intro d hd
    interval_cases d <;> decide
  split_ifs at h with hm hn hn
  · injection h with _ h
    have := congrArg (List.foldl (fun a b => 10 * a + (b.toNat - 0x30)) 0) h
    rw [natDigits_val _ _ _ (by omega), natDigits_val _ _ _ (by omega)] at this
    simp only [List.foldl_nil] at this
    omega
  · obtain ⟨d, t, hd, hlt⟩ := key n.natAbs
    rw [hd] at h
    injection h with h1 _
    exact absurd h1.symm (hne d hlt)
  · obtain ⟨d, t, hd, hlt⟩ := key m.natAbs
    rw [hd] at h
    injection h with h1 _
    exact absurd h1 (hne d hlt)
  · have := congrArg (List.foldl (fun a b => 10 * a + (b.toNat - 0x30)) 0) h
    rw [natDigits_val _ _ _ (by omega), natDigits_val _ _ _ (by omega)] at this
    simp only [List.foldl_nil] at this
    omega

theorem Itoa_ne_nil (n : Int) : Itoa n ≠ [] := by
  unfold Itoa
  split_ifs
  · simp
  · obtain ⟨d, t, hd, _⟩ := natDigits_head (n.natAbs + 1) n.natAbs [] (by omega)
    rw [hd]; simp

theorem Itoa_eq_iff (s k : Int) : Itoa s = Itoa k ↔ s = k :=
  ⟨Itoa_injective s k, fun h => by rw [h]⟩

/-! ## Header maps -/

theorem Header.values_put_same (h : Header) (k : GoString) (vs : List GoString) :
    Header.values (Header.put h k vs) k = vs := by
  induction h with
  | nil => simp [Header.put, Header.values]
  | cons e t ih =>
    obtain ⟨k1, ws⟩ := e
    unfold Header.put
    split_ifs with h1
    · simp [Header.values, h1]
    · simp [Header.values, h1, ih]

theorem Header.values_put_other (h : Header) (k k1 : GoString) (vs : List GoString)
    (hne : k1 ≠ k) : Header.values (Header.put h k vs) k1 = Header.values h k1 := by
  induction h with
  | nil => simp [Header.put, Header.values, hne.symm]
  | cons e t ih =>
    obtain ⟨k2, ws⟩ := e
    unfold Header.put
    split_ifs with h1
    · subst h1
      simp [Header.values, hne.symm]
    · by_cases h2 : k2 = k1
      · simp [Header.values, h2]
      · simp [Header.values, h2, ih]

theorem Header.Get_congr (h : Header) (m n : GoString)
    (hc : CanonicalMIMEHeaderKey m = CanonicalMIMEHeaderKey n) :
    Header.Get h m = Header.Get h n := by
  unfold Header.Get
  rw [hc]

theorem Header.mem_values_Add (h : Header) (m n u v : GoString)
    (hv : v ∈ Header.values h (CanonicalMIMEHeaderKey n)) :
    v ∈ Header.values (Header.Add h m u) (CanonicalMIMEHeaderKey n) := by
  unfold Header.Add
  by_cases hc : CanonicalMIMEHeaderKey n = CanonicalMIMEHeaderKey m
  · rw [hc, Header.values_put_same]
    rw [hc] at hv
    exact List.mem_append_left _ hv
  · rw [Header.values_put_other _ _ _ _ hc]
    exact hv

theorem Header.mem_values_Add_self (h : Header) (n v : GoString) :
    v ∈ Header.values (Header.Add h n v) (CanonicalMIMEHeaderKey n) := by
  unfold Header.Add
  rw [Header.values_put_same]
  simp

theorem Header.mem_values_Set_self (h : Header) (n v : GoString) :
    v ∈ Header.values (Header.Set h n v) (CanonicalMIMEHeaderKey n) := by
  unfold Header.Set
  rw [Header.values_put_same]
  simp

theorem Header.mem_values_Set (h : Header) (m n u v : GoString)
    (hu : CanonicalMIMEHeaderKey n = CanonicalMIMEHeaderKey m → u = v)
    (hv : v ∈ Header.values h (CanonicalMIMEHeaderKey n)) :
    v ∈ Header.values (Header.Set h m u) (CanonicalMIMEHeaderKey n) := by
  unfold Header.Set
  by_cases hc : CanonicalMIMEHeaderKey n = CanonicalMIMEHeaderKey m
  · rw [hc, Header.values_put_same, hu hc]
    simp
  · rw [Header.values_put_other _ _ _ _ hc]
    exact hv

/-! ## Header propagation -/

theorem foldl_invariant {α β : Type} (P : α → Prop) (f : α → β → α)
    (hf : ∀ a b, P a → P (f a b)) (l : List β) (a : α) (ha : P a) : P (l.foldl f a) := by
  induction l generalizing a with
  | nil => exact ha
  | cons b t ih => exact ih _ (hf a b ha)

theorem foldl_establish {α β : Type} (P : α → Prop) (f : α → β → α)
    (hf : ∀ a b, P a → P (f a b)) (b : β) (hb : ∀ a, P (f a b))
    (l : List β) (hmem : b ∈ l) (a : α) : P (l.foldl f a) := by
  induction l generalizing a with
  | nil => simp at hmem
  | cons m t ih =>
    rw [List.foldl_cons]
    rcases List.mem_cons.1 hmem with rfl | hmem
    · exact foldl_invariant P f hf t _ (hb a)
    · exact ih hmem _

theorem addDataDomeHeaders_present (ddResp : Response) (w : ResponseWriter) (n : GoString)
    (hn : n ∈ Fields (Header.Get ddResp.Header (str "x-datadome-headers")))
    (hv : Header.Get ddResp.Header n ≠ []) :
    Header.Get ddResp.Header n ∈
      Header.values (addDataDomeHeaders ddResp w).header (CanonicalMIMEHeaderKey n) := by
  unfold addDataDomeHeaders
  dsimp only
  split_ifs with h
  · refine foldl_establish
      (fun w : ResponseWriter =>
        Header.Get ddResp.Header n ∈ Header.values w.header (CanonicalMIMEHeaderKey n))
      _ ?_ n ?_ _ hn w
    · intro a m ha
      dsimp only
      split_ifs with h1 h2
      · exact Header.mem_values_Add _ _ _ _ _ ha
      · exact Header.mem_values_Set _ _ _ _ _ (fun hc => Header.Get_congr _ _ _ hc.symm) ha
      · exact ha
    · intro a
      dsimp only
      rw [if_pos hv]
      split_ifs with h2
      · exact Header.mem_values_Add_self _ _ _
      · exact Header.mem_values_Set_self _ _ _
  · have hnil : Header.Get ddResp.Header (str "x-datadome-headers") = [] := by
      by_contra hc; exact h hc
    rw [hnil, show Fields [] = [] from rfl] at hn
    exact absurd hn (List.not_mem_nil _)

theorem addDataDomeRequestHeaders_present (ddResp : Response) (r : http.Request) (n : GoString)
    (hn : n ∈ Fields (Header.Get ddResp.Header (str "x-datadome-request-headers")))
    (hv : Header.Get ddResp.Header n ≠ []) :
    Header.Get ddResp.Header n ∈
      Header.values (addDataDomeRequestHeaders ddResp r).Header (CanonicalMIMEHeaderKey n) := by
  unfold addDataDomeRequestHeaders
  dsimp only
  split_ifs with h
  · refine foldl_establish
      (fun r : http.Request =>
        Header.Get ddResp.Header n ∈ Header.values r.Header (CanonicalMIMEHeaderKey n))
      _ ?_ n ?_ _ hn r
    · intro a m ha
      dsimp only
      split_ifs with h1
      · exact Header.mem_values_Add _ _ _ _ _ ha
      · exact ha
    · intro a
      dsimp only
      rw [if_pos hv]
      exact Header.mem_values_Add_self _ _ _
  · have hnil : Header.Get ddResp.Header (str "x-datadome-request-headers") = [] := by
      by_contra hc; exact h hc
    rw [hnil, show Fields [] = [] from rfl] at hn
    exact absurd hn (List.not_mem_nil _)

/-- Only the header map of the request is touched by addDataDomeRequestHeaders. -/
theorem addDataDomeRequestHeaders_frame (ddResp : Response) (r : http.Request) :
    { addDataDomeRequestHeaders ddResp r with Header := r.Header } = r := by
  unfold addDataDomeRequestHeaders
  dsimp only
  split_ifs with h
  · refine foldl_invariant (fun r0 : http.Request => { r0 with Header := r.Header } = r)
      _ ?_ _ r rfl
    intro a m ha
    dsimp only
    split_ifs
    · exact ha
    · exact ha
  · rfl

theorem addDataDomeHeaders_calls (ddResp : Response) (w : ResponseWriter) :
    (addDataDomeHeaders ddResp w).calls = w.calls ∧
    (addDataDomeHeaders ddResp w).writeErr = w.writeErr := by
  unfold addDataDomeHeaders
  dsimp only
  split_ifs with h
  · refine foldl_invariant
      (fun w0 : ResponseWriter => w0.calls = w.calls ∧ w0.writeErr = w.writeErr) _ ?_ _ w
      ⟨rfl, rfl⟩
    intro a m ha
    dsimp only
    split_ifs <;> exact ha
  · exact ⟨rfl, rfl⟩

/-! ## The middleware shell, past the URL patterns -/

/-- A request that passes the URL patterns and for which buildRequest
succeeds: handler is the Protection API call followed by sendNext. -/
theorem handler_passed (lib : Lib) (probes : Probes) (c : Client) (w : ResponseWriter)
    (r r1 : http.Request) (next : Option Handler) (queryStr : GoString)
    (hex : ∀ re, c.urlPatternExclusion = some re → re.MatchString (getURI r) = false)
    (hin : ∀ re, c.urlPatternInclusion = some re → re.MatchString (getURI r) = true)
    (hb : buildRequest lib probes c r = (Except.ok queryStr, r1)) :
    handler lib probes c w r next =
      { isBlocked := (datadomeCall lib c queryStr r1 w).isBlocked,
        err := (sendNext next (datadomeCall lib c queryStr r1 w).origReq
          (datadomeCall lib c queryStr r1 w).isBlocked (datadomeCall lib c queryStr r1 w).err
          (datadomeCall lib c queryStr r1 w).rw).2.1,
        r := (datadomeCall lib c queryStr r1 w).origReq,
        w := (datadomeCall lib c queryStr r1 w).origResp,
        events := Event.buildRequest :: ((datadomeCall lib c queryStr r1 w).events ++
          (sendNext next (datadomeCall lib c queryStr r1 w).origReq
            (datadomeCall lib c queryStr r1 w).isBlocked (datadomeCall lib c queryStr r1 w).err
            (datadomeCall lib c queryStr r1 w).rw).2.2) } := by
  unfold handler
  dsimp only
  have h1 : ¬ ((match c.urlPatternExclusion with
      | some re => re.MatchString (getURI r)
      | none => false) = true) := by
    cases he : c.urlPatternExclusion with
    | none => simp
    | some re => simp [hex re he]
  have h2 : ¬ ((match c.urlPatternInclusion with
      | some re => !re.MatchString (getURI r)
      | none => false) = true) := by
    cases hi : c.urlPatternInclusion with
    | none => simp
    | some re => simp [hin re hi]
  rw [if_neg h1, if_neg h2, hb]
  dsimp only
  cases next with
  | none =>
    cases herr : (datadomeCall lib c queryStr r1 w).err <;> simp [sendNext]
  | some h =>
    cases herr : (datadomeCall lib c queryStr r1 w).err <;> simp [sendNext]

/-- With a next handler, handler invokes it after every Protection API call,
whatever the verdict, with the writer datadomeCall returned. -/
theorem handler_passed_invokes_next (lib : Lib) (probes : Probes) (c : Client)
    (w : ResponseWriter) (r r1 : http.Request) (h : Handler) (queryStr : GoString)
    (hex : ∀ re, c.urlPatternExclusion = some re → re.MatchString (getURI r) = false)
    (hin : ∀ re, c.urlPatternInclusion = some re → re.MatchString (getURI r) = true)
    (hb : buildRequest lib probes c r = (Except.ok queryStr, r1)) :
    (handler lib probes c w r (some h)).events = Event.buildRequest ::
      ((datadomeCall lib c queryStr r1 w).events ++
        [Event.next h (datadomeCall lib c queryStr r1 w).rw
          (datadomeCall lib c queryStr r1 w).origReq]) ∧
    (handler lib probes c w r (some h)).err = none := by
  rw [handler_passed lib probes c w r r1 (some h) queryStr hex hin hb]
  exact ⟨rfl, rfl⟩

/-- The direct form, past the URL patterns: DatadomeProtect returns what
datadomeCall returns and leaves the request and the writer as the call does. -/
theorem DatadomeProtect_passed (lib : Lib) (probes : Probes) (c : Client) (w : ResponseWriter)
    (r r1 : http.Request) (queryStr : GoString)
    (hex : ∀ re, c.urlPatternExclusion = some re → re.MatchString (getURI r) = false)
    (hin : ∀ re, c.urlPatternInclusion = some re → re.MatchString (getURI r) = true)
    (hb : buildRequest lib probes c r = (Except.ok queryStr, r1)) :
    DatadomeProtect lib probes c w r =
      { isBlocked := (datadomeCall lib c queryStr r1 w).isBlocked,
        err := (datadomeCall lib c queryStr r1 w).err,
        r := (datadomeCall lib c queryStr r1 w).origReq,
        w := (datadomeCall lib c queryStr r1 w).origResp,
        events := Event.buildRequest :: (datadomeCall lib c queryStr r1 w).events } := by
  unfold DatadomeProtect
  rw [handler_passed lib probes c w r r1 none queryStr hex hin hb]
  simp [sendNext]

/-! ## The Protection API call -/

/-- The dispatch of datadomeCall once a response has been received and read. -/
theorem datadomeCall_response (lib : Lib) (c : Client) (jsonStr : GoString)
    (origReq : http.Request) (origResp : ResponseWriter) (response : Response)
    (hnew : lib.NewRequestErr c.endpoint = none)
    (hdo : lib.Do (outboundRequest c jsonStr origReq) = DoResult.ok response) :
    datadomeCall lib c jsonStr origReq origResp =
      if Header.Get response.Header (str "x-datadomeresponse") = [] ∨
          Itoa response.StatusCode ≠ Header.Get response.Header (str "x-datadomeresponse") then
        { err := some Error.inconsistent, rw := none, isBlocked := false,
          origReq := origReq, origResp := origResp,
          events := [Event.outbound (outboundRequest c jsonStr origReq)] }
      else if Header.Get response.Header (str "x-datadomeresponse") = str "400" then
        { err := none, rw := some origResp, isBlocked := false,
          origReq := origReq, origResp := origResp,
          events := [Event.outbound (outboundRequest c jsonStr origReq)] }
      else if Header.Get response.Header (str "x-datadomeresponse") = str "301" ∨
          Header.Get response.Header (str "x-datadomeresponse") = str "302" ∨
          Header.Get response.Header (str "x-datadomeresponse") = str "401" ∨
          Header.Get response.Header (str "x-datadomeresponse") = str "403" then
        match ((addDataDomeHeaders response origResp).WriteHeader response.StatusCode).Write
            response.Body with
        | (origResp, some err) =>
          { err := some (Error.write err), rw := none, isBlocked := false,
            origReq := origReq, origResp := origResp,
            events := [Event.outbound (outboundRequest c jsonStr origReq)] }
        | (origResp, none) =>
          { err := none, rw := some origResp, isBlocked := true,
            origReq := origReq, origResp := origResp,
            events := [Event.outbound (outboundRequest c jsonStr origReq)] }
      else if Header.Get response.Header (str "x-datadomeresponse") = str "200" then
        { err := none, rw := some (addDataDomeHeaders response origResp), isBlocked := false,
          origReq := addDataDomeRequestHeaders response origReq,
          origResp := addDataDomeHeaders response origResp,
          events := [Event.outbound (outboundRequest c jsonStr origReq)] }
      else
        { err := some (Error.unexpectedStatus (Header.Get response.Header (str "x-datadomeresponse"))),
          rw := some origResp, isBlocked := false,
          origReq := origReq, origResp := origResp,
          events := [Event.outbound (outboundRequest c jsonStr origReq)] } := by
  unfold datadomeCall
  rw [hnew]
  dsimp only
  rw [hdo]
  try rfl

theorem str_status_eq :
    str "400" = Itoa 400 ∧ str "301" = Itoa 301 ∧ str "302" = Itoa 302 ∧ str "401" = Itoa 401 ∧
    str "403" = Itoa 403 ∧ str "200" = Itoa 200 := by decide

/-- C1. Verdict of datadomeCall for a response that was received and read
without error, on a writer whose Write succeeds: an absent or disagreeing
X-DataDomeResponse header gives (error, not blocked); an agreeing status 200
or 400 gives (no error, not blocked); 301, 302, 401, 403 give (no error,
blocked); every other status gives (error, not blocked).  Hence isBlocked
holds exactly when the header agrees and the status is 301, 302, 401 or 403. -/
theorem datadomeCall_verdict (lib : Lib) (c : Client) (jsonStr : GoString)
    (origReq : http.Request) (origResp : ResponseWriter) (response : Response)
    (hnew : lib.NewRequestErr c.endpoint = none)
    (hdo : lib.Do (outboundRequest c jsonStr origReq) = DoResult.ok response)
    (hwrite : origResp.writeErr = none) :
    ((Header.Get response.Header (str "x-datadomeresponse") = [] ∨
        Header.Get response.Header (str "x-datadomeresponse") ≠ Itoa response.StatusCode) →
      (datadomeCall lib c jsonStr origReq origResp).err ≠ none ∧
      (datadomeCall lib c jsonStr origReq origResp).isBlocked = false) ∧
    (Header.Get response.Header (str "x-datadomeresponse") = Itoa response.StatusCode →
      ((response.StatusCode = 200 ∨ response.StatusCode = 400) →
        (datadomeCall lib c jsonStr origReq origResp).err = none ∧
        (datadomeCall lib c jsonStr origReq origResp).isBlocked = false) ∧
      ((response.StatusCode = 301 ∨ response.StatusCode = 302 ∨ response.StatusCode = 401 ∨
          response.StatusCode = 403) →
        (datadomeCall lib c jsonStr origReq origResp).err = none ∧
        (datadomeCall lib c jsonStr origReq origResp).isBlocked = true) ∧
      ((response.StatusCode ≠ 200 ∧ response.StatusCode ≠ 400 ∧ response.StatusCode ≠ 301 ∧
          response.StatusCode ≠ 302 ∧ response.StatusCode ≠ 401 ∧ response.StatusCode ≠ 403) →
        (datadomeCall lib c jsonStr origReq origResp).err ≠ none ∧
        (datadomeCall lib c jsonStr origReq origResp).isBlocked = false)) ∧
    ((datadomeCall lib c jsonStr origReq origResp).isBlocked = true ↔
      (Header.Get response.Header (str "x-datadomeresponse") = Itoa response.StatusCode ∧
        (response.StatusCode = 301 ∨ response.StatusCode = 302 ∨ response.StatusCode = 401 ∨
          response.StatusCode = 403))) := by
  rw [datadomeCall_response lib c jsonStr origReq origResp response hnew hdo]
  obtain ⟨e400, e301, e302, e401, e403, e200⟩ := str_status_eq
  rw [e400, e301, e302, e401, e403, e200]
  have hw : ∀ s, ((addDataDomeHeaders response origResp).WriteHeader s).writeErr = none := by
    intro s
    show (addDataDomeHeaders response origResp).writeErr = none
    rw [(addDataDomeHeaders_calls response origResp).2, hwrite]
  generalize Header.Get response.Header (str "x-datadomeresponse") = dd
  generalize response.StatusCode = s
  by_cases hcons : dd = Itoa s
  · subst hcons
    have hne := Itoa_ne_nil s
    have inj : ∀ k : Int, Itoa s = Itoa k ↔ s = k :=
      fun k => ⟨Itoa_injective s k, fun h => by rw [h]⟩
    simp only [inj, hne, ne_eq, not_true_eq_false, or_self, if_false, false_or, true_and,
      false_implies, true_implies]
    unfold ResponseWriter.Write
    simp only [hw]
    by_cases h400 : s = 400
    · subst h400; simp
    by_cases h200 : s = 200
    · subst h200; simp
    by_cases hb : s = 301 ∨ s = 302 ∨ s = 401 ∨ s = 403
    · simp only [hb, h400, h200, if_true, if_false, or_false, false_or, true_and,
        true_implies, false_implies, and_self, not_true_eq_false, false_and, and_false,
        implies_true, ne_eq, not_false_eq_true, and_true, reduceCtorEq]
      omega
    · simp only [not_or] at hb
      simp [hb, h400, h200]
  · have hcons2 : ¬ Itoa s = dd := fun h => hcons h.symm
    simp [hcons, hcons2]

theorem datadomeCall_verdict_witness :
    (sampleLib (DoResult.ok blockResponse)).NewRequestErr sampleClient.endpoint = none ∧
    ({} : ResponseWriter).writeErr = none ∧
    ((datadomeCall (sampleLib (DoResult.ok blockResponse)) sampleClient (str "Key=azerty")
        sampleRequest {}).isBlocked = true ↔
      (Header.Get blockResponse.Header (str "x-datadomeresponse") = Itoa blockResponse.StatusCode ∧
        (blockResponse.StatusCode = 301 ∨ blockResponse.StatusCode = 302 ∨
          blockResponse.StatusCode = 401 ∨ blockResponse.StatusCode = 403))) :=
  ⟨rfl, rfl,
    (datadomeCall_verdict (sampleLib (DoResult.ok blockResponse)) sampleClient (str "Key=azerty")
      sampleRequest {} blockResponse rfl rfl rfl).2.2⟩

theorem statuses_append (w : ResponseWriter) (s : Int) (h : Header) (d : GoString) :
    ({ w with calls := w.calls ++ [WriterCall.WriteHeader s h, WriterCall.Write d] } :
      ResponseWriter).statuses = w.statuses ++ [s] ∧
    ({ w with calls := w.calls ++ [WriterCall.WriteHeader s h, WriterCall.Write d] } :
      ResponseWriter).body = w.body ++ d := by
  unfold ResponseWriter.statuses ResponseWriter.body
  simp [List.filterMap_append, List.flatMap_append]

/-- C2, as amended. For a response whose X-DataDomeResponse header agrees with
its status s in 301, 302, 401, 403, datadomeCall leaves the request alone,
applies the X-DataDome-Headers propagation to the downstream headers, then
calls WriteHeader(s) (the propagated headers being in place), then Write with
the Protection API body; the writer has thus received status s and that body
after whatever it had received before.  If that Write reports no error the
result is (no error, the writer, blocked); if it reports an error the result
is (that error, nil, not blocked). -/
theorem datadomeCall_block (lib : Lib) (c : Client) (jsonStr : GoString)
    (origReq : http.Request) (origResp : ResponseWriter) (response : Response)
    (res : CallResult)
    (hres : res = datadomeCall lib c jsonStr origReq origResp)
    (hnew : lib.NewRequestErr c.endpoint = none)
    (hdo : lib.Do (outboundRequest c jsonStr origReq) = DoResult.ok response)
    (hcons : Header.Get response.Header (str "x-datadomeresponse") = Itoa response.StatusCode)
    (hs : response.StatusCode = 301 ∨ response.StatusCode = 302 ∨ response.StatusCode = 401 ∨
      response.StatusCode = 403) :
    res.origReq = origReq ∧
    res.origResp.header = (addDataDomeHeaders response origResp).header ∧
    res.origResp.calls = origResp.calls ++
      [WriterCall.WriteHeader response.StatusCode (addDataDomeHeaders response origResp).header,
        WriterCall.Write response.Body] ∧
    res.origResp.statuses = origResp.statuses ++ [response.StatusCode] ∧
    res.origResp.body = origResp.body ++ response.Body ∧
    (∀ n ∈ Fields (Header.Get response.Header (str "x-datadome-headers")),
      Header.Get response.Header n ≠ [] →
      Header.Get response.Header n ∈ Header.values res.origResp.header (CanonicalMIMEHeaderKey n)) ∧
    (origResp.writeErr = none →
      res.err = none ∧ res.isBlocked = true ∧ res.rw = some res.origResp) ∧
    (∀ e, origResp.writeErr = some e →
      res.err = some (Error.write e) ∧ res.isBlocked = false ∧ res.rw = none) ∧
    (∀ (probes : Probes) (r : http.Request),
      (∀ re, c.urlPatternExclusion = some re → re.MatchString (getURI r) = false) →
      (∀ re, c.urlPatternInclusion = some re → re.MatchString (getURI r) = true) →
      buildRequest lib probes c r = (Except.ok jsonStr, origReq) →
      DatadomeProtect lib probes c origResp r =
        { isBlocked := res.isBlocked, err := res.err, r := res.origReq, w := res.origResp,
          events := Event.buildRequest :: res.events }) := by
  have hdirect : ∀ (probes : Probes) (r : http.Request),
      (∀ re, c.urlPatternExclusion = some re → re.MatchString (getURI r) = false) →
      (∀ re, c.urlPatternInclusion = some re → re.MatchString (getURI r) = true) →
      buildRequest lib probes c r = (Except.ok jsonStr, origReq) →
      DatadomeProtect lib probes c origResp r =
        { isBlocked := res.isBlocked, err := res.err, r := res.origReq, w := res.origResp,
          events := Event.buildRequest :: res.events } := by
    intro probes r hex hin hb
    rw [hres]
    exact DatadomeProtect_passed lib probes c origResp r origReq jsonStr hex hin hb
  rw [datadomeCall_response lib c jsonStr origReq origResp response hnew hdo] at hres
  obtain ⟨e400, e301, e302, e401, e403, e200⟩ := str_status_eq
  have hne := Itoa_ne_nil response.StatusCode
  have inj : ∀ k : Int, Itoa response.StatusCode = Itoa k ↔ response.StatusCode = k :=
    fun k => ⟨Itoa_injective _ k, fun h => by rw [h]⟩
  have h400 : response.StatusCode ≠ 400 := by omega
  rw [hcons, e400, e301, e302, e401, e403] at hres
  simp only [inj, hne, ne_eq, not_true_eq_false, or_self, if_false, h400, hs, if_true] at hres
  have hcalls := (addDataDomeHeaders_calls response origResp).1
  have hwe := (addDataDomeHeaders_calls response origResp).2
  have hst := statuses_append origResp response.StatusCode
    (addDataDomeHeaders response origResp).header response.Body
  have hprop := fun n hn hv => addDataDomeHeaders_present response origResp n hn hv
  unfold ResponseWriter.Write ResponseWriter.WriteHeader at hres
  simp only [hwe, hcalls, List.append_assoc, List.singleton_append] at hres
  cases hw : origResp.writeErr with
  | none =>
    rw [hw] at hres
    subst hres
    refine ⟨rfl, rfl, rfl, hst.1, hst.2, hprop, fun _ => ⟨rfl, rfl, rfl⟩, ?_, hdirect⟩
    intro e he
    cases he
  | some e =>
    rw [hw] at hres
    subst hres
    refine ⟨rfl, rfl, rfl, hst.1, hst.2, hprop, ?_, ?_, hdirect⟩
    · intro h
      cases h
    · intro e1 he
      cases he
      exact ⟨rfl, rfl, rfl⟩

theorem datadomeCall_block_witness :
    (Header.Get blockResponse.Header (str "x-datadomeresponse") = Itoa blockResponse.StatusCode ∧
      blockResponse.StatusCode = 403) ∧
    (datadomeCall (sampleLib (DoResult.ok blockResponse)) sampleClient (str "Key=azerty")
        sampleRequest {}).origResp.statuses = ({} : ResponseWriter).statuses ++ [blockResponse.StatusCode] ∧
    (datadomeCall (sampleLib (DoResult.ok blockResponse)) sampleClient (str "Key=azerty")
        sampleRequest {}).origResp.body = ({} : ResponseWriter).body ++ blockResponse.Body ∧
    Header.Get (datadomeCall (sampleLib (DoResult.ok blockResponse)) sampleClient (str "Key=azerty")
        sampleRequest {}).origResp.header (str "X-DataDome") = str "protected" ∧
    (datadomeCall (sampleLib (DoResult.ok blockResponse)) sampleClient (str "Key=azerty")
        sampleRequest {}).isBlocked = true :=
  ⟨by decide,
    (datadomeCall_block (sampleLib (DoResult.ok blockResponse)) sampleClient (str "Key=azerty")
      sampleRequest {} blockResponse _ rfl rfl rfl (by decide) (by decide)).2.2.2.1,
    (datadomeCall_block (sampleLib (DoResult.ok blockResponse)) sampleClient (str "Key=azerty")
      sampleRequest {} blockResponse _ rfl rfl rfl (by decide) (by decide)).2.2.2.2.1,
    by decide,
    ((datadomeCall_block (sampleLib (DoResult.ok blockResponse)) sampleClient (str "Key=azerty")
      sampleRequest {} blockResponse _ rfl rfl rfl (by decide) (by decide)).2.2.2.2.2.2.1 rfl).2.1⟩

/-- C2 as stated fails when the downstream Write reports an error: the header
agrees with status 403, yet the call is not reported as blocked and carries
the write error. -/
theorem write_error_not_blocked :
    Header.Get blockResponse.Header (str "x-datadomeresponse") = Itoa blockResponse.StatusCode ∧
    blockResponse.StatusCode = 403 ∧
    (datadomeCall (sampleLib (DoResult.ok blockResponse)) sampleClient (str "Key=azerty")
        sampleRequest { writeErr := some (str "broken pipe") }).isBlocked = false ∧
    (datadomeCall (sampleLib (DoResult.ok blockResponse)) sampleClient (str "Key=azerty")
        sampleRequest { writeErr := some (str "broken pipe") }).err =
      some (Error.write (str "broken pipe")) := by
  decide

/-- C5. For a response with status 200 and X-DataDomeResponse 200,
datadomeCall makes no WriteHeader and no Write call on the downstream writer
(its status codes and body are what they were; only its header map changes,
by addDataDomeHeaders) and changes nothing of the request but its header map
(by addDataDomeRequestHeaders): every header named in X-DataDome-Headers with
a value in the response is then among the downstream values of that header,
every header named in X-DataDome-Request-Headers with a value in the response
is among the request's values of that header, and the result is (no error,
not blocked). -/
theorem datadomeCall_allow (lib : Lib) (c : Client) (jsonStr : GoString)
    (origReq : http.Request) (origResp : ResponseWriter) (response : Response)
    (res : CallResult)
    (hres : res = datadomeCall lib c jsonStr origReq origResp)
    (hnew : lib.NewRequestErr c.endpoint = none)
    (hdo : lib.Do (outboundRequest c jsonStr origReq) = DoResult.ok response)
    (hstatus : response.StatusCode = 200)
    (hcons : Header.Get response.Header (str "x-datadomeresponse") = str "200") :
    res.err = none ∧ res.isBlocked = false ∧ res.rw = some res.origResp ∧
    res.origResp.calls = origResp.calls ∧
    res.origResp.statuses = origResp.statuses ∧ res.origResp.body = origResp.body ∧
    res.origResp.writeErr = origResp.writeErr ∧
    res.origResp = addDataDomeHeaders response origResp ∧
    res.origReq = addDataDomeRequestHeaders response origReq ∧
    { res.origReq with Header := origReq.Header } = origReq ∧
    (∀ n ∈ Fields (Header.Get response.Header (str "x-datadome-headers")),
      Header.Get response.Header n ≠ [] →
      Header.Get response.Header n ∈ Header.values res.origResp.header (CanonicalMIMEHeaderKey n)) ∧
    (∀ n ∈ Fields (Header.Get response.Header (str "x-datadome-request-headers")),
      Header.Get response.Header n ≠ [] →
      Header.Get response.Header n ∈ Header.values res.origReq.Header (CanonicalMIMEHeaderKey n)) ∧
    (∀ (probes : Probes) (r : http.Request),
      (∀ re, c.urlPatternExclusion = some re → re.MatchString (getURI r) = false) →
      (∀ re, c.urlPatternInclusion = some re → re.MatchString (getURI r) = true) →
      buildRequest lib probes c r = (Except.ok jsonStr, origReq) →
      DatadomeProtect lib probes c origResp r =
        { isBlocked := false, err := none, r := res.origReq, w := res.origResp,
          events := [Event.buildRequest, Event.outbound (outboundRequest c jsonStr origReq)] }) := by
  have hdirect : ∀ (probes : Probes) (r : http.Request),
      (∀ re, c.urlPatternExclusion = some re → re.MatchString (getURI r) = false) →
      (∀ re, c.urlPatternInclusion = some re → re.MatchString (getURI r) = true) →
      buildRequest lib probes c r = (Except.ok jsonStr, origReq) →
      DatadomeProtect lib probes c origResp r =
        { isBlocked := res.isBlocked, err := res.err, r := res.origReq, w := res.origResp,
          events := Event.buildRequest :: res.events } := by
    intro probes r hex hin hb
    rw [hres]
    exact DatadomeProtect_passed lib probes c origResp r origReq jsonStr hex hin hb
  rw [datadomeCall_response lib c jsonStr origReq origResp response hnew hdo] at hres
  have h1 : ¬ (Header.Get response.Header (str "x-datadomeresponse") = [] ∨
      Itoa response.StatusCode ≠ Header.Get response.Header (str "x-datadomeresponse")) := by
    rw [hcons, hstatus]
    decide
  have h2 : ¬ Header.Get response.Header (str "x-datadomeresponse") = str "400" := by
    rw [hcons]; decide
  have h3 : ¬ (Header.Get response.Header (str "x-datadomeresponse") = str "301" ∨
      Header.Get response.Header (str "x-datadomeresponse") = str "302" ∨
      Header.Get response.Header (str "x-datadomeresponse") = str "401" ∨
      Header.Get response.Header (str "x-datadomeresponse") = str "403") := by
    rw [hcons]; decide
  rw [if_neg h1, if_neg h2, if_neg h3, if_pos hcons] at hres
  subst hres
  have hcalls := (addDataDomeHeaders_calls response origResp).1
  refine ⟨rfl, rfl, rfl, hcalls, ?_, ?_, (addDataDomeHeaders_calls response origResp).2, rfl, rfl,
    addDataDomeRequestHeaders_frame response origReq,
    fun n hn hv => addDataDomeHeaders_present response origResp n hn hv,
    fun n hn hv => addDataDomeRequestHeaders_present response origReq n hn hv, hdirect⟩
  · show (addDataDomeHeaders response origResp).statuses = origResp.statuses
    unfold ResponseWriter.statuses
    rw [hcalls]
  · show (addDataDomeHeaders response origResp).body = origResp.body
    unfold ResponseWriter.body
    rw [hcalls]

theorem datadomeCall_allow_witness :
    (allowResponse.StatusCode = 200 ∧
      Header.Get allowResponse.Header (str "x-datadomeresponse") = str "200") ∧
    (datadomeCall (sampleLib (DoResult.ok allowResponse)) sampleClient (str "Key=azerty")
        sampleRequest {}).origResp.calls = ({} : ResponseWriter).calls ∧
    (datadomeCall (sampleLib (DoResult.ok allowResponse)) sampleClient (str "Key=azerty")
        sampleRequest {}).isBlocked = false ∧
    Header.Get (datadomeCall (sampleLib (DoResult.ok allowResponse)) sampleClient
        (str "Key=azerty") sampleRequest {}).origReq.Header (str "X-Datadome-isbot") = str "1" ∧
    Header.Get (datadomeCall (sampleLib (DoResult.ok allowResponse)) sampleClient
        (str "Key=azerty") sampleRequest {}).origResp.header (str "X-Datadome") = str "protected" :=
  ⟨by decide,
    (datadomeCall_allow (sampleLib (DoResult.ok allowResponse)) sampleClient (str "Key=azerty")
      sampleRequest {} allowResponse _ rfl rfl rfl (by decide) (by decide)).2.2.2.1,
    (datadomeCall_allow (sampleLib (DoResult.ok allowResponse)) sampleClient (str "Key=azerty")
      sampleRequest {} allowResponse _ rfl rfl rfl (by decide) (by decide)).2.1,
    by decide, by decide⟩

/-- C6. Outside the Allow and Block verdicts datadomeCall mutates nothing: for
a response that is inconsistent (X-DataDomeResponse absent or different from
the status), or consistent with status 400, or consistent with a status
outside 200, 301, 302, 400, 401, 403, the downstream writer (headers, calls
received, hence status and body) and the request are exactly as before. -/
theorem datadomeCall_frame (lib : Lib) (c : Client) (jsonStr : GoString)
    (origReq : http.Request) (origResp : ResponseWriter) (response : Response)
    (hnew : lib.NewRequestErr c.endpoint = none)
    (hdo : lib.Do (outboundRequest c jsonStr origReq) = DoResult.ok response)
    (hcase :
      (Header.Get response.Header (str "x-datadomeresponse") = [] ∨
        Header.Get response.Header (str "x-datadomeresponse") ≠ Itoa response.StatusCode) ∨
      (Header.Get response.Header (str "x-datadomeresponse") = Itoa response.StatusCode ∧
        response.StatusCode = 400) ∨
      (Header.Get response.Header (str "x-datadomeresponse") = Itoa response.StatusCode ∧
        response.StatusCode ≠ 200 ∧ response.StatusCode ≠ 301 ∧ response.StatusCode ≠ 302 ∧
        response.StatusCode ≠ 400 ∧ response.StatusCode ≠ 401 ∧ response.StatusCode ≠ 403)) :
    (datadomeCall lib c jsonStr origReq origResp).origResp = origResp ∧
    (datadomeCall lib c jsonStr origReq origResp).origReq = origReq := by
  rw [datadomeCall_response lib c jsonStr origReq origResp response hnew hdo]
  obtain ⟨e400, e301, e302, e401, e403, e200⟩ := str_status_eq
  have inj : ∀ k : Int, Itoa response.StatusCode = Itoa k ↔ response.StatusCode = k :=
    fun k => ⟨Itoa_injective _ k, fun h => by rw [h]⟩
  rcases hcase with h | ⟨hc, h⟩ | ⟨hc, h200, h301, h302, h400, h401, h403⟩
  · have h1 : Header.Get response.Header (str "x-datadomeresponse") = [] ∨
        Itoa response.StatusCode ≠ Header.Get response.Header (str "x-datadomeresponse") := by
      rcases h with h | h
      · exact Or.inl h
      · exact Or.inr (fun e => h e.symm)
    rw [if_pos h1]
    exact ⟨rfl, rfl⟩
  · have h1 : ¬ (Header.Get response.Header (str "x-datadomeresponse") = [] ∨
        Itoa response.StatusCode ≠ Header.Get response.Header (str "x-datadomeresponse")) := by
      rw [hc]
      simp [Itoa_ne_nil]
    have h2 : Header.Get response.Header (str "x-datadomeresponse") = str "400" := by
      rw [hc, h, e400]
    rw [if_neg h1, if_pos h2]
    exact ⟨rfl, rfl⟩
  · have h1 : ¬ (Header.Get response.Header (str "x-datadomeresponse") = [] ∨
        Itoa response.StatusCode ≠ Header.Get response.Header (str "x-datadomeresponse")) := by
      rw [hc]
      simp [Itoa_ne_nil]
    rw [if_neg h1, hc, e400, e301, e302, e401, e403, e200]
    rw [if_neg (fun e => h400 ((inj 400).1 e)),
      if_neg (fun e => by
        rcases e with e | e | e | e
        · exact h301 ((inj 301).1 e)
        · exact h302 ((inj 302).1 e)
        · exact h401 ((inj 401).1 e)
        · exact h403 ((inj 403).1 e)),
      if_neg (fun e => h200 ((inj 200).1 e))]
    exact ⟨rfl, rfl⟩

theorem datadomeCall_frame_witness :
    Header.Get inconsistentResponse.Header (str "x-datadomeresponse") ≠
      Itoa inconsistentResponse.StatusCode ∧
    (datadomeCall (sampleLib (DoResult.ok inconsistentResponse)) sampleClient (str "Key=azerty")
      sampleRequest {}).origResp = {} ∧
    (datadomeCall (sampleLib (DoResult.ok inconsistentResponse)) sampleClient (str "Key=azerty")
      sampleRequest {}).origReq = sampleRequest :=
  ⟨by decide,
    datadomeCall_frame (sampleLib (DoResult.ok inconsistentResponse)) sampleClient
      (str "Key=azerty") sampleRequest {} inconsistentResponse rfl rfl
      (Or.inl (Or.inr (by decide)))⟩

/-! ## The middleware shell -/

/-- A request stopped by the URL patterns: handler returns at once. -/
theorem handler_gating (lib : Lib) (probes : Probes) (c : Client) (w : ResponseWriter)
    (r : http.Request) (next : Option Handler)
    (h : (∃ re, c.urlPatternExclusion = some re ∧ re.MatchString (getURI r) = true) ∨
      (∃ re, c.urlPatternInclusion = some re ∧ re.MatchString (getURI r) = false)) :
    handler lib probes c w r next =
      { isBlocked := false, err := none, r := r, w := w, events := [] } := by
  unfold handler
  dsimp only
  rcases h with ⟨re, hre, hm⟩ | ⟨re, hre, hm⟩
  · rw [hre]
    dsimp only
    rw [if_pos hm]
  · rw [hre]
    dsimp only
    rw [hm]
    split_ifs <;> first | rfl | (exfalso; simp_all)

/-- C7. URL gating: when an exclusion pattern is configured and matches the
request URI, or an inclusion pattern is configured and does not match it,
DatadomeProtect returns (not blocked, nil error) and nothing else happens: no
payload is built, no request is sent to the Protection API, and the request
and the response writer are as they were. -/
theorem DatadomeProtect_gating (lib : Lib) (probes : Probes) (c : Client) (rw : ResponseWriter)
    (r : http.Request)
    (h : (∃ re, c.urlPatternExclusion = some re ∧ re.MatchString (getURI r) = true) ∨
      (∃ re, c.urlPatternInclusion = some re ∧ re.MatchString (getURI r) = false)) :
    DatadomeProtect lib probes c rw r =
      { isBlocked := false, err := none, r := r, w := rw, events := [] } :=
  handler_gating lib probes c rw r none h

theorem DatadomeProtect_gating_witness :
    (∃ re, includedPathClient.urlPatternInclusion = some re ∧
      re.MatchString (getURI notIncludedRequest) = false) ∧
    DatadomeProtect (sampleLib (DoResult.ok blockResponse)) sampleProbes includedPathClient {}
        notIncludedRequest =
      { isBlocked := false, err := none, r := notIncludedRequest, w := {}, events := [] } :=
  ⟨⟨RE.toRegexp includedPathRE, rfl, by decide⟩,
    DatadomeProtect_gating (sampleLib (DoResult.ok blockResponse)) sampleProbes includedPathClient {}
      notIncludedRequest (Or.inr ⟨RE.toRegexp includedPathRE, rfl, by decide⟩)⟩

/-- C3, the code at a blocked request: with a next handler, the handler of
DatadomeHandler writes the block response (status 403 and the body) and then
calls next.ServeHTTP with the written response writer. -/
theorem DatadomeHandler_block_invokes_next :
    Header.Get blockResponse.Header (str "x-datadomeresponse") = Itoa blockResponse.StatusCode ∧
    blockResponse.StatusCode = 403 ∧
    (DatadomeHandler (sampleLib (DoResult.ok blockResponse)) sampleProbes sampleClient
      (some sampleNext) {} sampleRequest).w.statuses = [403] ∧
    (DatadomeHandler (sampleLib (DoResult.ok blockResponse)) sampleProbes sampleClient
      (some sampleNext) {} sampleRequest).w.body = str "blocked" ∧
    (DatadomeHandler (sampleLib (DoResult.ok blockResponse)) sampleProbes sampleClient
      (some sampleNext) {} sampleRequest).events.getLast? =
      some (Event.next sampleNext
        (some (DatadomeHandler (sampleLib (DoResult.ok blockResponse)) sampleProbes sampleClient
          (some sampleNext) {} sampleRequest).w) sampleRequest) := by
  decide

/-- C4, the code at a failed Protection API call: with a next handler, the
handler of DatadomeHandler calls next.ServeHTTP once, with a nil response
writer instead of the caller's writer; the direct form returns not blocked
together with the error. -/
theorem DatadomeHandler_failure_passes_nil_writer :
    (DatadomeHandler (sampleLib (DoResult.transportError (str "timeout"))) sampleProbes sampleClient
      (some sampleNext) {} sampleRequest).events.filter
        (fun e => match e with
          | Event.next _ _ _ => true
          | _ => false) =
      [Event.next sampleNext none sampleRequest] ∧
    (DatadomeHandler (sampleLib (DoResult.transportError (str "timeout"))) sampleProbes sampleClient
      (some sampleNext) {} sampleRequest).w = {} ∧
    (DatadomeHandler (sampleLib (DoResult.ok inconsistentResponse)) sampleProbes sampleClient
      (some sampleNext) {} sampleRequest).events.filter
        (fun e => match e with
          | Event.next _ _ _ => true
          | _ => false) =
      [Event.next sampleNext none sampleRequest] ∧
    (DatadomeProtect (sampleLib (DoResult.transportError (str "timeout"))) sampleProbes sampleClient
      {} sampleRequest).isBlocked = false ∧
    (DatadomeProtect (sampleLib (DoResult.transportError (str "timeout"))) sampleProbes sampleClient
      {} sampleRequest).err = some (Error.transport (str "timeout")) := by
  decide

/-! ## UTF-8 decoding of a string that ends in ASCII bytes -/

theorem DecodeRuneInString_ascii (b : UInt8) (t : GoString) (h : b.toNat < 0x80) :
    DecodeRuneInString (b :: t) = (b.toNat, 1) := by
  unfold DecodeRuneInString
  simp only [h, if_true]

theorem isCont_ascii (b : UInt8) (h : b.toNat < 0x80) : isCont b = false := by
  unfold isCont
  simp only [Bool.and_eq_false_imp, decide_eq_true_eq, decide_eq_false_iff_not, not_le]
  omega

theorem secondLo_ge (x : Nat) : 0x80 ≤ secondLo x := by
  unfold secondLo
  split_ifs <;> omega

theorem DecodeRuneInString_append (b : UInt8) (t a : GoString)
    (ha : ∀ x ∈ a, x.toNat < 0x80) :
    DecodeRuneInString (b :: (t ++ a)) = DecodeRuneInString (b :: t) ∧
    (DecodeRuneInString (b :: t)).2 ≤ t.length + 1 ∧ 1 ≤ (DecodeRuneInString (b :: t)).2 := by
  have hc : ∀ x ∈ a, isCont x = false := fun x hx => isCont_ascii x (ha x hx)
  have hl : ∀ x ∈ a, (secondLo b.toNat ≤ x.toNat) = False := fun x hx => by
    have := secondLo_ge b.toNat
    have := ha x hx
    simp only [eq_iff_iff, iff_false, not_le]
    omega
  by_cases h1 : b.toNat < 0x80
  · rw [DecodeRuneInString_ascii b _ h1, DecodeRuneInString_ascii b _ h1]
    exact ⟨rfl, by simp, le_refl _⟩
  by_cases h2 : 0xC2 ≤ b.toNat ∧ b.toNat ≤ 0xDF
  · rcases t with _ | ⟨b1, t⟩
    · rcases a with _ | ⟨a1, a⟩
      · simp [DecodeRuneInString, h1, h2]
      · have := hc a1 (List.mem_cons_self _ _)
        simp [DecodeRuneInString, h1, h2, this]
    · simp only [DecodeRuneInString, h1, h2, List.cons_append, if_false, if_true, and_self,
        List.length_cons, true_and]
      split_ifs <;> simp
  by_cases h3 : 0xE0 ≤ b.toNat ∧ b.toNat ≤ 0xEF
  · rcases t with _ | ⟨b1, _ | ⟨b2, t⟩⟩
    · rcases a with _ | ⟨a1, _ | ⟨a2, a⟩⟩
      · simp [DecodeRuneInString, h1, h2, h3]
      · simp [DecodeRuneInString, h1, h2, h3]
      · have := hl a1 (List.mem_cons_self _ _)
        simp only [DecodeRuneInString, h1, h2, h3, List.nil_append, this, if_false, if_true,
          and_self, false_and, List.length_nil]
        simp
    · rcases a with _ | ⟨a1, a⟩
      · simp [DecodeRuneInString, h1, h2, h3]
      · have := hc a1 (List.mem_cons_self _ _)
        simp [DecodeRuneInString, h1, h2, h3, this]
    · simp only [DecodeRuneInString, h1, h2, h3, List.cons_append, if_false, if_true, and_self,
        List.length_cons, true_and]
      split_ifs <;> simp
  by_cases h4 : 0xF0 ≤ b.toNat ∧ b.toNat ≤ 0xF4
  · rcases t with _ | ⟨b1, _ | ⟨b2, _ | ⟨b3, t⟩⟩⟩
    · rcases a with _ | ⟨a1, _ | ⟨a2, _ | ⟨a3, a⟩⟩⟩
      · simp [DecodeRuneInString, h1, h2, h3, h4]
      · simp [DecodeRuneInString, h1, h2, h3, h4]
      · simp [DecodeRuneInString, h1, h2, h3, h4]
      · have := hl a1 (List.mem_cons_self _ _)
        simp only [DecodeRuneInString, h1, h2, h3, h4, List.nil_append, this, if_false, if_true,
          and_self, false_and, List.length_nil]
        simp
    · rcases a with _ | ⟨a1, _ | ⟨a2, a⟩⟩
      · simp [DecodeRuneInString, h1, h2, h3, h4]
      · simp [DecodeRuneInString, h1, h2, h3, h4]
      · have := hc a1 (List.mem_cons_self _ _)
        simp [DecodeRuneInString, h1, h2, h3, h4, this]
    · rcases a with _ | ⟨a1, a⟩
      · simp [DecodeRuneInString, h1, h2, h3, h4]
      · have := hc a1 (List.mem_cons_self _ _)
        simp [DecodeRuneInString, h1, h2, h3, h4, this]
    · simp only [DecodeRuneInString, h1, h2, h3, h4, List.cons_append, if_false, if_true,
        and_self, List.length_cons, true_and]
      split_ifs <;> simp
  · simp [DecodeRuneInString, h1, h2, h3, h4]

theorem runeChunksAux_ascii (a : GoString) (ha : ∀ x ∈ a, x.toNat < 0x80) :
    (runeChunksAux 0 a).map Prod.fst = a.map UInt8.toNat := by
  induction a with
  | nil => rfl
  | cons b t ih =>
    have hb : b.toNat < 0x80 := ha b (List.mem_cons_self _ _)
    unfold runeChunksAux
    simp only [DecodeRuneInString_ascii b t hb, List.map_cons, Nat.sub_self]
    rw [ih (fun x hx => ha x (List.mem_cons_of_mem _ hx))]

theorem runeChunksAux_append (a : GoString) (ha : ∀ x ∈ a, x.toNat < 0x80) (pre : GoString)
    (k : Nat) (hk : k ≤ pre.length) :
    (runeChunksAux k (pre ++ a)).map Prod.fst =
      (runeChunksAux k pre).map Prod.fst ++ a.map UInt8.toNat := by
  induction pre generalizing k with
  | nil =>
    have : k = 0 := by simpa using hk
    subst this
    rw [List.nil_append, runeChunksAux_ascii a ha]
    rfl
  | cons b t ih =>
    rcases k with _ | k
    · obtain ⟨h1, h2, h3⟩ := DecodeRuneInString_append b t a ha
      rw [List.cons_append]
      unfold runeChunksAux
      simp only [h1, List.map_cons, List.cons_append]
      rw [ih _ (by omega)]
    · rw [List.cons_append]
      unfold runeChunksAux
      exact ih k (by simpa using hk)

theorem runes_append_ascii (pre a : GoString) (ha : ∀ x ∈ a, x.toNat < 0x80) :
    runes (pre ++ a) = runes pre ++ a.map UInt8.toNat :=
  runeChunksAux_append a ha pre 0 (Nat.zero_le _)

/-! ## The default exclusion pattern -/

theorem RE.run_word (w e rest : List Nat)
    (h : List.Forall₂ (fun c r => foldsToASCII c r = true) w e) :
    rest ∈ RE.run (RE.word true w) (e ++ rest) := by
  induction h with
  | nil => simp [RE.word, RE.run]
  | cons hcr _ ih =>
    unfold RE.word
    simp only [List.foldr_cons, if_true, List.cons_append]
    unfold RE.run
    simp only [List.mem_flatMap]
    refine ⟨_, ?_, ih⟩
    unfold RE.run
    simp [hcr]

theorem RE.run_anyOf (a : RE) (l : List RE) (b : RE) (hb : b ∈ a :: l) (s rest : List Nat)
    (h : rest ∈ RE.run b s) : rest ∈ RE.run (RE.anyOf a l) s := by
  induction l generalizing a with
  | nil =>
    have : b = a := by simpa using hb
    subst this
    exact h
  | cons c t ih =>
    unfold RE.anyOf RE.run
    rcases List.mem_cons.1 hb with rfl | hb
    · exact List.mem_append_left _ h
    · exact List.mem_append_right _ (ih c hb)

theorem toLowerASCII_folds (b x : UInt8) (h : toLowerASCII b = x) (hx : x.toNat < 0x80) :
    b.toNat < 0x80 ∧ foldsToASCII x.toNat b.toNat = true := by
  unfold toLowerASCII at h
  split_ifs at h with hu
  · have hxv : x.toNat = b.toNat + 32 := by
      rw [← h]
      show (b.toNat + 32) % 256 = b.toNat + 32
      omega
    refine ⟨by omega, ?_⟩
    unfold foldsToASCII isUpperASCII isLowerASCII
    rw [hxv]
    simp
    omega
  · subst h
    exact ⟨hx, by simp [foldsToASCII]⟩

theorem defaultExclusionExtensions_ascii :
    ∀ ext ∈ defaultExclusionExtensions, ∀ x ∈ ext, x.toNat < 0x80 := by
  decide

theorem defaultExclusionRE_matches (pre ext e : GoString)
    (hext : ext ∈ defaultExclusionExtensions) (hcase : e.map toLowerASCII = ext) :
    RE.MatchString defaultExclusionRE (pre ++ 0x2E :: e) = true := by
  have hx := defaultExclusionExtensions_ascii ext hext
  have hfold : List.Forall₂ (fun c r => foldsToASCII c r = true)
      (ext.map UInt8.toNat) (e.map UInt8.toNat) := by
    subst hcase
    rw [List.forall₂_map_left_iff, List.forall₂_map_right_iff, List.forall₂_map_left_iff]
    apply List.forall₂_same.2
    intro b hb
    exact (toLowerASCII_folds b _ rfl (hx _ (List.mem_map_of_mem _ hb))).2
  have hascii : ∀ x ∈ (0x2E : UInt8) :: e, x.toNat < 0x80 := by
    intro x hxm
    rcases List.mem_cons.1 hxm with rfl | hxm
    · decide
    · exact (toLowerASCII_folds x _ rfl (hx _ (by rw [← hcase]; exact List.mem_map_of_mem _ hxm))).1
  unfold RE.MatchString
  rw [runes_append_ascii pre _ hascii, List.any_eq_true]
  refine ⟨(0x2E : UInt8).toNat :: e.map UInt8.toNat, ?_, ?_⟩
  · rw [List.mem_tails, List.map_cons]
    exact List.suffix_append _ _
  · have hword : ([] : List Nat) ∈ RE.run (RE.word true (ext.map UInt8.toNat))
        (e.map UInt8.toNat ++ []) := RE.run_word _ _ [] hfold
    rw [List.append_nil] at hword
    have hany : ([] : List Nat) ∈ RE.run (RE.anyOf (RE.word true ((str "avi").map UInt8.toNat))
        ((defaultExclusionExtensions.drop 1).map (fun e => RE.word true (e.map UInt8.toNat))))
        (e.map UInt8.toNat) := by
      refine RE.run_anyOf _ _ (RE.word true (ext.map UInt8.toNat)) ?_ _ _ hword
      exact List.mem_map_of_mem (fun e => RE.word true (e.map UInt8.toNat)) hext
    have hmem : ([] : List Nat) ∈ RE.run defaultExclusionRE
        ((0x2E : UInt8).toNat :: e.map UInt8.toNat) := by
      unfold defaultExclusionRE
      unfold RE.run
      simp only [List.mem_flatMap]
      refine ⟨e.map UInt8.toNat, ?_, ?_⟩
      · unfold RE.run
        dsimp only
        rw [if_pos (by decide : foldsToASCII 46 (UInt8.toNat 46) = true)]
        exact List.mem_singleton_self _
      · unfold RE.run
        simp only [List.mem_flatMap]
        exact ⟨[], hany, by unfold RE.run; simp⟩
    cases hr : RE.run defaultExclusionRE ((0x2E : UInt8).toNat :: e.map UInt8.toNat) with
    | nil => rw [hr] at hmem; exact absurd hmem (List.not_mem_nil _)
    | cons _ _ => rfl

theorem NewClient_default_exclusion (lib : Lib) (key : GoString) (c : Client) (re : Regexp)
    (hcompile : lib.Compile DefaultUrlPatternExclusionValue = Except.ok re)
    (hclient : NewClient lib key [] = Except.ok c) :
    c.urlPatternExclusion = some re := by
  unfold NewClient at hclient
  simp only [List.foldl_nil] at hclient
  have hT : ¬ DefaultTimeoutValue ≤ 0 := by decide
  have hM : ¬ DefaultMaximumBodySizeValue ≤ 0 := by decide
  have hE : DefaultUrlPatternExclusionValue ≠ [] := by decide
  have hI : ¬ DefaultUrlPatternInclusionValue ≠ [] := by decide
  by_cases hk : key = []
  · rw [if_pos hk] at hclient
    cases hclient
  · rw [if_neg hk, if_neg hT, if_neg hM] at hclient
    simp only [if_pos hE, hcompile, if_neg hI] at hclient
    split_ifs at hclient <;> (injection hclient with hc; rw [← hc])

/-- C8. With default settings (the client NewClient builds without options,
the regexp library compiling the default exclusion pattern to its expression),
every request whose URI ends with a dot followed by one of the listed
extensions, in any letter case, is excluded: DatadomeProtect returns not
blocked with no error, and no payload is built and no request is sent to the
Protection API. -/
theorem DatadomeProtect_default_exclusion (lib : Lib) (probes : Probes) (key : GoString)
    (c : Client) (rw : ResponseWriter) (r : http.Request) (pre ext e : GoString)
    (hcompile : lib.Compile DefaultUrlPatternExclusionValue =
      Except.ok (RE.toRegexp defaultExclusionRE))
    (hclient : NewClient lib key [] = Except.ok c)
    (hext : ext ∈ defaultExclusionExtensions)
    (hcase : e.map toLowerASCII = ext)
    (huri : getURI r = pre ++ 0x2E :: e) :
    DatadomeProtect lib probes c rw r =
      { isBlocked := false, err := none, r := r, w := rw, events := [] } := by
  have hre := NewClient_default_exclusion lib key c _ hcompile hclient
  refine handler_gating lib probes c rw r none (Or.inl ⟨_, hre, ?_⟩)
  rw [huri]
  exact defaultExclusionRE_matches pre ext e hext hcase

set_option maxRecDepth 20000 in
theorem DatadomeProtect_default_exclusion_witness :
    str "jpg" ∈ defaultExclusionExtensions ∧
    (str "JpG").map toLowerASCII = str "jpg" ∧
    getURI { pictureRequest with URL := { Path := str "/picture.JpG" } } =
      str "/picture" ++ 0x2E :: str "JpG" ∧
    DatadomeProtect (sampleLib (DoResult.ok blockResponse)) sampleProbes sampleClient {}
        { pictureRequest with URL := { Path := str "/picture.JpG" } } =
      { isBlocked := false, err := none,
        r := { pictureRequest with URL := { Path := str "/picture.JpG" } }, w := {}, events := [] } :=
  ⟨by decide, by decide, by decide,
    DatadomeProtect_default_exclusion (sampleLib (DoResult.ok blockResponse)) sampleProbes
      (str "azerty") sampleClient {} { pictureRequest with URL := { Path := str "/picture.JpG" } }
      (str "/picture") (str "jpg") (str "JpG") rfl rfl (by decide) (by decide) (by decide)⟩

/-! ## The field catalog against its documented table -/

/-- C11. The field catalog implemented by getTruncationSize equals the
documented table: for every identifier, getTruncationSize gives the limit the
table lists for it (8, 16, 32, 64, 128, 256, 512, -512, 768, 1024 or 2048), and
gives 0 (no limit) for every identifier the table does not list. -/
theorem getTruncationSize_eq_documented (key : ApiFields) :
    getTruncationSize key = documentedTruncationSize key := by
  by_cases hm : key ∈ [SecCHDeviceMemory, SecCHUAMobile, SecFetchUser] ∨ key ∈ [SecCHUAArch] ∨
      key ∈ [SecCHUAPlatform, SecFetchDest, SecFetchMode] ∨ key ∈ [ContentType, SecFetchSite] ∨
      key ∈ [CacheControl, ClientID, XRequestedWith, AcceptCharset, AcceptEncoding,
        Pragma, Connection, From, SecCHUA, SecCHUAModel, TrueClientIP, XRealIP,
        GraphQLOperationName] ∨
      key ∈ [AcceptLanguage, SecCHUAFullVersionList, Via] ∨
      key ∈ [HeadersList, Origin, ServerHostname, ServerName, Accept, Host] ∨
      key ∈ [XForwardedForIP] ∨ key ∈ [UserAgent] ∨ key ∈ [Referer] ∨ key ∈ [Request]
  · simp only [List.mem_cons, List.mem_singleton, List.not_mem_nil, or_false] at hm
    rcases hm with (h | h | h) | h | (h | h | h) | (h | h) |
      (h | h | h | h | h | h | h | h | h | h | h | h | h) | (h | h | h) |
      (h | h | h | h | h | h) | h | h | h | h
    all_goals (subst h; rfl)
  · have hs : getTruncationSize key = 0 := by
      by_contra hne
      exact hm (getTruncationSize_ne_zero key hne)
    rw [hs]
    simp only [List.mem_cons, List.mem_singleton, List.not_mem_nil, or_false, not_or] at hm
    obtain ⟨⟨a1, a2, a3⟩, b1, ⟨c1, c2, c3⟩, ⟨d1, d2⟩,
      ⟨e1, e2, e3, e4, e5, e6, e7, e8, e9, e10, e11, e12, e13⟩, ⟨f1, f2, f3⟩,
      ⟨g1, g2, g3, g4, g5, g6⟩, i1, j1, k1, l1⟩ := hm
    have hf : ∀ (k : ApiFields) (n : Int) (t : List (ApiFields × Int)), key ≠ k →
        List.find? (fun e => decide (e.1 = key)) ((k, n) :: t)
          = List.find? (fun e => decide (e.1 = key)) t := by
      intro k n t hk
      rw [List.find?_cons_of_neg]
      simpa using fun h => hk h.symm
    unfold documentedTruncationSize documentedCatalog
    rw [hf _ _ _ a1, hf _ _ _ a2, hf _ _ _ a3, hf _ _ _ b1, hf _ _ _ c1, hf _ _ _ c2,
      hf _ _ _ c3, hf _ _ _ d1, hf _ _ _ d2, hf _ _ _ e4, hf _ _ _ e5, hf _ _ _ e1,
      hf _ _ _ e2, hf _ _ _ e7, hf _ _ _ e8, hf _ _ _ e6, hf _ _ _ e9, hf _ _ _ e10,
      hf _ _ _ e11, hf _ _ _ e12, hf _ _ _ e3, hf _ _ _ e13, hf _ _ _ f1, hf _ _ _ f2,
      hf _ _ _ f3, hf _ _ _ g5, hf _ _ _ g1, hf _ _ _ g6, hf _ _ _ g2, hf _ _ _ g3,
      hf _ _ _ g4, hf _ _ _ i1, hf _ _ _ j1, hf _ _ _ k1, hf _ _ _ l1]
    rfl

/-! ## Construction of the client -/

/-- The checks of NewClient, stated on the client the options configure. -/
theorem NewClient_configured (lib : Lib) (key : GoString) (options : List ClientOption) :
    NewClient lib key options =
      (if (configuredClient key options).ServerSideKey = [] then
        Except.error (str "ServerSideKey must be defined")
      else if (configuredClient key options).Timeout ≤ 0 then
        Except.error (str "Timeout must be a positive integer")
      else if (configuredClient key options).MaximumBodySize ≤ 0 then
        Except.error (str "MaximumBodySize must be a positive integer")
      else
        match (if (configuredClient key options).UrlPatternExclusion ≠ [] then
            match lib.Compile (configuredClient key options).UrlPatternExclusion with
            | Except.error err =>
              Except.error (str "UrlPatternExclusion must be a valid RegExp: " ++ err)
            | Except.ok re =>
              Except.ok { configuredClient key options with urlPatternExclusion := some re }
          else Except.ok (configuredClient key options) : Except GoString Client) with
        | Except.error err => Except.error err
        | Except.ok c =>
          match (if c.UrlPatternInclusion ≠ [] then
              match lib.Compile c.UrlPatternInclusion with
              | Except.error err =>
                Except.error (str "UrlPatternInclusion must be a valid RegExp: " ++ err)
              | Except.ok re => Except.ok { c with urlPatternInclusion := some re }
            else Except.ok c : Except GoString Client) with
          | Except.error err => Except.error err
          | Except.ok c =>
            if ¬ (str "http").isPrefixOf c.Endpoint = true ∧
                ¬ (str "/").isPrefixOf c.Endpoint = true then
              Except.ok { c with endpoint := str "https://" ++ c.Endpoint ++ str "/validate-request" }
            else Except.ok { c with endpoint := c.Endpoint }) := by
  rfl

theorem NewClient_key (lib : Lib) (key : GoString) (options : List ClientOption)
    (hk : (configuredClient key options).ServerSideKey = []) :
    NewClient lib key options = Except.error (str "ServerSideKey must be defined") := by
  rw [NewClient_configured, if_pos hk]

theorem NewClient_timeout (lib : Lib) (key : GoString) (options : List ClientOption)
    (hk : (configuredClient key options).ServerSideKey ≠ [])
    (ht : (configuredClient key options).Timeout ≤ 0) :
    NewClient lib key options = Except.error (str "Timeout must be a positive integer") := by
  rw [NewClient_configured, if_neg hk, if_pos ht]

theorem NewClient_body (lib : Lib) (key : GoString) (options : List ClientOption)
    (hk : (configuredClient key options).ServerSideKey ≠ [])
    (ht : ¬ (configuredClient key options).Timeout ≤ 0)
    (hm : (configuredClient key options).MaximumBodySize ≤ 0) :
    NewClient lib key options =
      Except.error (str "MaximumBodySize must be a positive integer") := by
  rw [NewClient_configured, if_neg hk, if_neg ht, if_pos hm]

theorem NewClient_exclusion (lib : Lib) (key : GoString) (options : List ClientOption)
    (err : GoString)
    (hk : (configuredClient key options).ServerSideKey ≠ [])
    (ht : ¬ (configuredClient key options).Timeout ≤ 0)
    (hm : ¬ (configuredClient key options).MaximumBodySize ≤ 0)
    (he : (configuredClient key options).UrlPatternExclusion ≠ [])
    (hc : lib.Compile (configuredClient key options).UrlPatternExclusion = Except.error err) :
    NewClient lib key options =
      Except.error (str "UrlPatternExclusion must be a valid RegExp: " ++ err) := by
  rw [NewClient_configured, if_neg hk, if_neg ht, if_neg hm, if_pos he, hc]

theorem NewClient_inclusion (lib : Lib) (key : GoString) (options : List ClientOption)
    (err : GoString)
    (hk : (configuredClient key options).ServerSideKey ≠ [])
    (ht : ¬ (configuredClient key options).Timeout ≤ 0)
    (hm : ¬ (configuredClient key options).MaximumBodySize ≤ 0)
    (he : (configuredClient key options).UrlPatternExclusion = [] ∨
      ∃ re, lib.Compile (configuredClient key options).UrlPatternExclusion = Except.ok re)
    (hi : (configuredClient key options).UrlPatternInclusion ≠ [])
    (hc : lib.Compile (configuredClient key options).UrlPatternInclusion = Except.error err) :
    NewClient lib key options =
      Except.error (str "UrlPatternInclusion must be a valid RegExp: " ++ err) := by
  rw [NewClient_configured, if_neg hk, if_neg ht, if_neg hm]
  by_cases hx : (configuredClient key options).UrlPatternExclusion ≠ []
  · rcases he with he | ⟨re, he⟩
    · exact absurd he hx
    · rw [if_pos hx, he]
      dsimp only
      rw [if_pos hi, hc]
  · rw [if_neg hx]
    dsimp only
    rw [if_pos hi, hc]

/-- The client NewClient returns when every check passes. -/
theorem NewClient_ok_of (lib : Lib) (key : GoString) (options : List ClientOption)
    (ex inc : Regexp)
    (hk : (configuredClient key options).ServerSideKey ≠ [])
    (ht : ¬ (configuredClient key options).Timeout ≤ 0)
    (hm : ¬ (configuredClient key options).MaximumBodySize ≤ 0)
    (he : (configuredClient key options).UrlPatternExclusion ≠ [] →
      lib.Compile (configuredClient key options).UrlPatternExclusion = Except.ok ex)
    (hi : (configuredClient key options).UrlPatternInclusion ≠ [] →
      lib.Compile (configuredClient key options).UrlPatternInclusion = Except.ok inc) :
    NewClient lib key options = Except.ok
      { configuredClient key options with
        urlPatternExclusion :=
          if (configuredClient key options).UrlPatternExclusion ≠ [] then some ex
          else (configuredClient key options).urlPatternExclusion
        urlPatternInclusion :=
          if (configuredClient key options).UrlPatternInclusion ≠ [] then some inc
          else (configuredClient key options).urlPatternInclusion
        endpoint :=
          if ¬ (str "http").isPrefixOf (configuredClient key options).Endpoint = true ∧
              ¬ (str "/").isPrefixOf (configuredClient key options).Endpoint = true then
            str "https://" ++ (configuredClient key options).Endpoint ++ str "/validate-request"
          else (configuredClient key options).Endpoint } := by
  rw [NewClient_configured, if_neg hk, if_neg ht, if_neg hm]
  have h1 : (if (configuredClient key options).UrlPatternExclusion ≠ [] then
        match lib.Compile (configuredClient key options).UrlPatternExclusion with
        | Except.error err =>
          Except.error (str "UrlPatternExclusion must be a valid RegExp: " ++ err)
        | Except.ok re =>
          Except.ok { configuredClient key options with urlPatternExclusion := some re }
      else Except.ok (configuredClient key options) : Except GoString Client) =
      Except.ok { configuredClient key options with
        urlPatternExclusion :=
          if (configuredClient key options).UrlPatternExclusion ≠ [] then some ex
          else (configuredClient key options).urlPatternExclusion } := by
    by_cases hx : (configuredClient key options).UrlPatternExclusion ≠ []
    · rw [if_pos hx, if_pos hx, he hx]
    · rw [if_neg hx, if_neg hx]
  rw [h1]
  dsimp only
  by_cases hy : (configuredClient key options).UrlPatternInclusion ≠ []
  · rw [if_pos hy, if_pos hy, hi hy]
    dsimp only
    by_cases hp : ¬ (str "http").isPrefixOf (configuredClient key options).Endpoint = true ∧
        ¬ (str "/").isPrefixOf (configuredClient key options).Endpoint = true
    · rw [if_pos hp, if_pos hp]
    · rw [if_neg hp, if_neg hp]
  · rw [if_neg hy, if_neg hy]
    dsimp only
    by_cases hp : ¬ (str "http").isPrefixOf (configuredClient key options).Endpoint = true ∧
        ¬ (str "/").isPrefixOf (configuredClient key options).Endpoint = true
    · rw [if_pos hp, if_pos hp]
    · rw [if_neg hp, if_neg hp]

/-- What a successful NewClient says about the configured client and about
the client it returns. -/
theorem NewClient_ok_inv (lib : Lib) (key : GoString) (options : List ClientOption) (c : Client)
    (h : NewClient lib key options = Except.ok c) :
    (configuredClient key options).ServerSideKey ≠ [] ∧
    ¬ (configuredClient key options).Timeout ≤ 0 ∧
    ¬ (configuredClient key options).MaximumBodySize ≤ 0 ∧
    ∃ ex inc : Option Regexp,
      ((configuredClient key options).UrlPatternExclusion ≠ [] →
        ∃ re, lib.Compile (configuredClient key options).UrlPatternExclusion = Except.ok re ∧
          ex = some re) ∧
      ((configuredClient key options).UrlPatternExclusion = [] →
        ex = (configuredClient key options).urlPatternExclusion) ∧
      ((configuredClient key options).UrlPatternInclusion ≠ [] →
        ∃ re, lib.Compile (configuredClient key options).UrlPatternInclusion = Except.ok re ∧
          inc = some re) ∧
      ((configuredClient key options).UrlPatternInclusion = [] →
        inc = (configuredClient key options).urlPatternInclusion) ∧
      c = { configuredClient key options with
        urlPatternExclusion := ex
        urlPatternInclusion := inc
        endpoint :=
          if ¬ (str "http").isPrefixOf (configuredClient key options).Endpoint = true ∧
              ¬ (str "/").isPrefixOf (configuredClient key options).Endpoint = true then
            str "https://" ++ (configuredClient key options).Endpoint ++ str "/validate-request"
          else (configuredClient key options).Endpoint } := by
  by_cases hk : (configuredClient key options).ServerSideKey = []
  · rw [NewClient_key lib key options hk] at h
    cases h
  by_cases ht : (configuredClient key options).Timeout ≤ 0
  · rw [NewClient_timeout lib key options hk ht] at h
    cases h
  by_cases hm : (configuredClient key options).MaximumBodySize ≤ 0
  · rw [NewClient_body lib key options hk ht hm] at h
    cases h
  refine ⟨hk, ht, hm, ?_⟩
  have hex : ∃ ex : Regexp, (configuredClient key options).UrlPatternExclusion ≠ [] →
      lib.Compile (configuredClient key options).UrlPatternExclusion = Except.ok ex := by
    by_cases hx : (configuredClient key options).UrlPatternExclusion ≠ []
    · cases hc : lib.Compile (configuredClient key options).UrlPatternExclusion with
      | error err =>
        rw [NewClient_exclusion lib key options err hk ht hm hx hc] at h
        cases h
      | ok re => exact ⟨re, fun _ => rfl⟩
    · exact ⟨⟨fun _ => false⟩, fun hne => absurd hne hx⟩
  obtain ⟨ex, hex⟩ := hex
  have hinc : ∃ inc : Regexp, (configuredClient key options).UrlPatternInclusion ≠ [] →
      lib.Compile (configuredClient key options).UrlPatternInclusion = Except.ok inc := by
    by_cases hy : (configuredClient key options).UrlPatternInclusion ≠ []
    · cases hc : lib.Compile (configuredClient key options).UrlPatternInclusion with
      | error err =>
        have hx : (configuredClient key options).UrlPatternExclusion = [] ∨
            ∃ re, lib.Compile (configuredClient key options).UrlPatternExclusion =
              Except.ok re := by
          by_cases hx : (configuredClient key options).UrlPatternExclusion = []
          · exact Or.inl hx
          · exact Or.inr ⟨ex, hex hx⟩
        rw [NewClient_inclusion lib key options err hk ht hm hx hy hc] at h
        cases h
      | ok re => exact ⟨re, fun _ => rfl⟩
    · exact ⟨⟨fun _ => false⟩, fun hne => absurd hne hy⟩
  obtain ⟨inc, hinc⟩ := hinc
  rw [NewClient_ok_of lib key options ex inc hk ht hm hex hinc] at h
  injection h with h
  refine ⟨_, _, ?_, ?_, ?_, ?_, h.symm⟩
  · intro hx
    exact ⟨ex, hex hx, if_pos hx⟩
  · intro hx
    exact if_neg (not_not.mpr hx)
  · intro hy
    exact ⟨inc, hinc hy, if_pos hy⟩
  · intro hy
    exact if_neg (not_not.mpr hy)

/-- C12. NewClient returns an error exactly when, after the options are
applied, the server-side key is empty, or Timeout is at most 0, or
MaximumBodySize is at most 0, or a non-empty exclusion or inclusion pattern
fails to compile.  The message of the first failing check is returned:
ServerSideKey must be defined, Timeout must be a positive integer,
MaximumBodySize must be a positive integer, or the text UrlPatternExclusion
(UrlPatternInclusion) must be a valid RegExp followed by the error of the
compiler.  In every other case NewClient returns a client and no error. -/
theorem NewClient_error_iff (lib : Lib) (key : GoString) (options : List ClientOption) :
    ((∃ e, NewClient lib key options = Except.error e) ↔
      ((configuredClient key options).ServerSideKey = [] ∨
       (configuredClient key options).Timeout ≤ 0 ∨
       (configuredClient key options).MaximumBodySize ≤ 0 ∨
       ((configuredClient key options).UrlPatternExclusion ≠ [] ∧
         ∃ err, lib.Compile (configuredClient key options).UrlPatternExclusion =
           Except.error err) ∨
       ((configuredClient key options).UrlPatternInclusion ≠ [] ∧
         ∃ err, lib.Compile (configuredClient key options).UrlPatternInclusion =
           Except.error err))) ∧
    ((configuredClient key options).ServerSideKey = [] →
      NewClient lib key options = Except.error (str "ServerSideKey must be defined")) ∧
    ((configuredClient key options).ServerSideKey ≠ [] →
      (configuredClient key options).Timeout ≤ 0 →
      NewClient lib key options = Except.error (str "Timeout must be a positive integer")) ∧
    ((configuredClient key options).ServerSideKey ≠ [] →
      0 < (configuredClient key options).Timeout →
      (configuredClient key options).MaximumBodySize ≤ 0 →
      NewClient lib key options =
        Except.error (str "MaximumBodySize must be a positive integer")) ∧
    (∀ err, (configuredClient key options).ServerSideKey ≠ [] →
      0 < (configuredClient key options).Timeout →
      0 < (configuredClient key options).MaximumBodySize →
      (configuredClient key options).UrlPatternExclusion ≠ [] →
      lib.Compile (configuredClient key options).UrlPatternExclusion = Except.error err →
      NewClient lib key options =
        Except.error (str "UrlPatternExclusion must be a valid RegExp: " ++ err)) ∧
    (∀ err, (configuredClient key options).ServerSideKey ≠ [] →
      0 < (configuredClient key options).Timeout →
      0 < (configuredClient key options).MaximumBodySize →
      ((configuredClient key options).UrlPatternExclusion = [] ∨
        ∃ re, lib.Compile (configuredClient key options).UrlPatternExclusion = Except.ok re) →
      (configuredClient key options).UrlPatternInclusion ≠ [] →
      lib.Compile (configuredClient key options).UrlPatternInclusion = Except.error err →
      NewClient lib key options =
        Except.error (str "UrlPatternInclusion must be a valid RegExp: " ++ err)) ∧
    ((¬ ∃ e, NewClient lib key options = Except.error e) →
      ∃ c, NewClient lib key options = Except.ok c) := by
  refine ⟨⟨?_, ?_⟩, NewClient_key lib key options,
    fun hk ht => NewClient_timeout lib key options hk ht,
    fun hk ht hm => NewClient_body lib key options hk (not_le.mpr ht) hm,
    fun err hk ht hm he hc =>
      NewClient_exclusion lib key options err hk (not_le.mpr ht) (not_le.mpr hm) he hc,
    fun err hk ht hm he hi hc =>
      NewClient_inclusion lib key options err hk (not_le.mpr ht) (not_le.mpr hm) he hi hc,
    ?_⟩
  · rintro ⟨e, he⟩
    by_contra hc
    simp only [not_or, not_and, not_exists] at hc
    obtain ⟨hk, ht, hm, hx, hy⟩ := hc
    have hex : ∃ ex : Regexp, (configuredClient key options).UrlPatternExclusion ≠ [] →
        lib.Compile (configuredClient key options).UrlPatternExclusion = Except.ok ex := by
      by_cases hne : (configuredClient key options).UrlPatternExclusion ≠ []
      · cases hcomp : lib.Compile (configuredClient key options).UrlPatternExclusion with
        | error err => exact absurd hcomp (hx hne err)
        | ok re => exact ⟨re, fun _ => rfl⟩
      · exact ⟨⟨fun _ => false⟩, fun h => absurd h hne⟩
    have hinc : ∃ inc : Regexp, (configuredClient key options).UrlPatternInclusion ≠ [] →
        lib.Compile (configuredClient key options).UrlPatternInclusion = Except.ok inc := by
      by_cases hne : (configuredClient key options).UrlPatternInclusion ≠ []
      · cases hcomp : lib.Compile (configuredClient key options).UrlPatternInclusion with
        | error err => exact absurd hcomp (hy hne err)
        | ok re => exact ⟨re, fun _ => rfl⟩
      · exact ⟨⟨fun _ => false⟩, fun h => absurd h hne⟩
    obtain ⟨ex, hex⟩ := hex
    obtain ⟨inc, hinc⟩ := hinc
    rw [NewClient_ok_of lib key options ex inc hk ht hm hex hinc] at he
    cases he
  · intro hc
    by_cases hk : (configuredClient key options).ServerSideKey = []
    · exact ⟨_, NewClient_key lib key options hk⟩
    by_cases ht : (configuredClient key options).Timeout ≤ 0
    · exact ⟨_, NewClient_timeout lib key options hk ht⟩
    by_cases hm : (configuredClient key options).MaximumBodySize ≤ 0
    · exact ⟨_, NewClient_body lib key options hk ht hm⟩
    by_cases hx : (configuredClient key options).UrlPatternExclusion ≠ [] ∧
        ∃ err, lib.Compile (configuredClient key options).UrlPatternExclusion =
          Except.error err
    · obtain ⟨hne, err, herr⟩ := hx
      exact ⟨_, NewClient_exclusion lib key options err hk ht hm hne herr⟩
    rcases hc with h | h | h | h | ⟨hne, err, herr⟩
    · exact absurd h hk
    · exact absurd h ht
    · exact absurd h hm
    · exact absurd h hx
    · have hx2 : (configuredClient key options).UrlPatternExclusion = [] ∨
          ∃ re, lib.Compile (configuredClient key options).UrlPatternExclusion =
            Except.ok re := by
        by_cases hne2 : (configuredClient key options).UrlPatternExclusion = []
        · exact Or.inl hne2
        · cases hcomp : lib.Compile (configuredClient key options).UrlPatternExclusion with
          | error e2 => exact absurd ⟨hne2, e2, hcomp⟩ hx
          | ok re => exact Or.inr ⟨re, rfl⟩
      exact ⟨_, NewClient_inclusion lib key options err hk ht hm hx2 hne herr⟩
  · intro hne
    cases hres : NewClient lib key options with
    | error e => exact absurd ⟨e, hres⟩ hne
    | ok c => exact ⟨c, rfl⟩

set_option maxRecDepth 20000 in
theorem NewClient_error_iff_witness :
    NewClient (sampleLib (DoResult.ok allowResponse)) (str "") [] =
      Except.error (str "ServerSideKey must be defined") ∧
    NewClient (sampleLib (DoResult.ok allowResponse)) (str "your-api-key") [WithTimeout 0] =
      Except.error (str "Timeout must be a positive integer") ∧
    NewClient (sampleLib (DoResult.ok allowResponse)) (str "your-api-key")
        [WithMaximumBodySize 0] =
      Except.error (str "MaximumBodySize must be a positive integer") ∧
    NewClient (sampleLib (DoResult.ok allowResponse)) (str "your-api-key")
        [WithUrlPatternExclusion (str "(?i)\\/excluded-path\\/with-[error.*")] =
      Except.error (str "UrlPatternExclusion must be a valid RegExp: " ++
        str "unsupported pattern") ∧
    NewClient (sampleLib (DoResult.ok allowResponse)) (str "your-api-key")
        [WithUrlPatternInclusion (str "(?i)\\/included-path\\/with-[error.*")] =
      Except.error (str "UrlPatternInclusion must be a valid RegExp: " ++
        str "unsupported pattern") ∧
    ∃ c, NewClient (sampleLib (DoResult.ok allowResponse)) (str "your-api-key") [] =
      Except.ok c :=
  ⟨(NewClient_error_iff (sampleLib (DoResult.ok allowResponse)) (str "") []).2.1 rfl,
   (NewClient_error_iff (sampleLib (DoResult.ok allowResponse)) (str "your-api-key")
      [WithTimeout 0]).2.2.1 (by decide) (by decide),
   (NewClient_error_iff (sampleLib (DoResult.ok allowResponse)) (str "your-api-key")
      [WithMaximumBodySize 0]).2.2.2.1 (by decide) (by decide) (by decide),
   (NewClient_error_iff (sampleLib (DoResult.ok allowResponse)) (str "your-api-key")
      [WithUrlPatternExclusion (str "(?i)\\/excluded-path\\/with-[error.*")]).2.2.2.2.1
      (str "unsupported pattern") (by decide) (by decide) (by decide) (by decide) rfl,
   (NewClient_error_iff (sampleLib (DoResult.ok allowResponse)) (str "your-api-key")
      [WithUrlPatternInclusion (str "(?i)\\/included-path\\/with-[error.*")]).2.2.2.2.2.1
      (str "unsupported pattern") (by decide) (by decide) (by decide)
      (Or.inr ⟨RE.toRegexp defaultExclusionRE, rfl⟩) (by decide) rfl,
   (NewClient_error_iff (sampleLib (DoResult.ok allowResponse)) (str "your-api-key")
      []).2.2.2.2.2.2 (by
        rintro ⟨e, he⟩
        exact absurd he (by
          rw [show NewClient (sampleLib (DoResult.ok allowResponse)) (str "your-api-key") [] =
            Except.ok { sampleClient with ServerSideKey := str "your-api-key" } from rfl]
          exact fun h => Except.noConfusion h))⟩

/-! ## The endpoint stored by NewClient -/

theorem isPrefixOf_append_left (p s t : GoString) (h : p.isPrefixOf s = true) :
    p.isPrefixOf (s ++ t) = true := by
  rw [List.isPrefixOf_iff_prefix] at h ⊢
  exact h.trans (List.prefix_append s t)

/-- C13. For every client that NewClient constructs successfully, whatever
endpoint string was configured, the internally stored endpoint begins with
http or with a slash. -/
theorem NewClient_endpoint_prefix (lib : Lib) (key : GoString) (options : List ClientOption)
    (c : Client) (h : NewClient lib key options = Except.ok c) :
    (str "http").isPrefixOf c.endpoint = true ∨ (str "/").isPrefixOf c.endpoint = true := by
  obtain ⟨_, _, _, ex, inc, _, _, _, _, hc⟩ := NewClient_ok_inv lib key options c h
  rw [hc]
  dsimp only
  by_cases hp : ¬ (str "http").isPrefixOf (configuredClient key options).Endpoint = true ∧
      ¬ (str "/").isPrefixOf (configuredClient key options).Endpoint = true
  · rw [if_pos hp]
    left
    rw [List.append_assoc]
    exact isPrefixOf_append_left _ _ _ (by decide)
  · rw [if_neg hp]
    by_contra hn
    exact hp (not_or.mp hn)

set_option maxRecDepth 20000 in
theorem NewClient_endpoint_prefix_witness :
    NewClient (sampleLib (DoResult.ok allowResponse)) (str "azerty") [] =
      Except.ok sampleClient ∧
    ((str "http").isPrefixOf sampleClient.endpoint = true ∨
      (str "/").isPrefixOf sampleClient.endpoint = true) :=
  ⟨rfl, NewClient_endpoint_prefix (sampleLib (DoResult.ok allowResponse)) (str "azerty") []
    sampleClient rfl⟩

set_option maxRecDepth 20000 in
/-- C14, counterexample. The host httpbin.org begins with neither http://
nor https:// nor a slash, yet NewClient stores it unchanged and not as
https://httpbin.org/validate-request: the test of NewClient is on the four
letters http. -/
theorem http_named_host_stored_unchanged :
    ¬ (str "http://").isPrefixOf (str "httpbin.org") = true ∧
    ¬ (str "https://").isPrefixOf (str "httpbin.org") = true ∧
    ¬ (str "/").isPrefixOf (str "httpbin.org") = true ∧
    NewClient (sampleLib (DoResult.ok allowResponse)) (str "your-api-key")
        [WithEndpoint (str "httpbin.org")] =
      Except.ok { sampleClient with
        ServerSideKey := str "your-api-key"
        Endpoint := str "httpbin.org"
        endpoint := str "httpbin.org" } ∧
    str "httpbin.org" ≠ str "https://httpbin.org/validate-request" :=
  ⟨by decide, by decide, by decide, rfl, by decide⟩

/-- C14, amended. Host normalisation: for every client NewClient constructs,
the public Endpoint is the configured string; when that string begins with
neither the four letters http nor a slash, the internally stored endpoint is
https:// followed by the string and /validate-request (api.datadome.co
becomes https://api.datadome.co/validate-request); every string that begins
with http or with a slash is stored unchanged. -/
theorem NewClient_endpoint_normalisation (lib : Lib) (key : GoString)
    (options : List ClientOption) (c : Client) (h : NewClient lib key options = Except.ok c) :
    c.Endpoint = (configuredClient key options).Endpoint ∧
    (¬ (str "http").isPrefixOf c.Endpoint = true → ¬ (str "/").isPrefixOf c.Endpoint = true →
      c.endpoint = str "https://" ++ c.Endpoint ++ str "/validate-request") ∧
    ((str "http").isPrefixOf c.Endpoint = true ∨ (str "/").isPrefixOf c.Endpoint = true →
      c.endpoint = c.Endpoint) := by
  obtain ⟨_, _, _, ex, inc, _, _, _, _, hc⟩ := NewClient_ok_inv lib key options c h
  rw [hc]
  dsimp only
  refine ⟨rfl, ?_, ?_⟩
  · intro h1 h2
    rw [if_pos ⟨h1, h2⟩]
  · intro h12
    rw [if_neg (fun hn => h12.elim hn.1 hn.2)]

set_option maxRecDepth 20000 in
theorem NewClient_endpoint_normalisation_witness :
    NewClient (sampleLib (DoResult.ok allowResponse)) (str "azerty") [] =
      Except.ok sampleClient ∧
    sampleClient.Endpoint = str "api.datadome.co" ∧
    sampleClient.endpoint = str "https://" ++ sampleClient.Endpoint ++ str "/validate-request" ∧
    sampleClient.endpoint = str "https://api.datadome.co/validate-request" ∧
    ({ sampleClient with Endpoint := str "/validate", endpoint := str "/validate" } : Client).endpoint
      = str "/validate" :=
  ⟨rfl, rfl,
   (NewClient_endpoint_normalisation (sampleLib (DoResult.ok allowResponse)) (str "azerty") []
      sampleClient rfl).2.1 (by decide) (by decide),
   rfl,
   (NewClient_endpoint_normalisation (sampleLib (DoResult.ok allowResponse)) (str "azerty")
      [WithEndpoint (str "/validate")]
      { sampleClient with Endpoint := str "/validate", endpoint := str "/validate" } rfl).2.2
      (Or.inr (by decide))⟩

/-! ## Defaults and options -/

/-- C15. Defaults and option frame: for every non-empty key (the regexp
library compiling the default exclusion pattern), NewClient with no options
returns the client with Endpoint api.datadome.co, Timeout 150, MaximumBodySize
25*1024, GraphQL support, referrer restoration and X-Forwarded-Host false, the
default logger, module name and version, an empty inclusion pattern with none
compiled and the default exclusion pattern compiled; and NewClient with one
With option of a valid value returns that same client with only the field of
the option set to the value given (and, for a pattern, its compiled form; for
the endpoint, the stored endpoint, the public Endpoint keeping the string of
the caller). -/
theorem NewClient_defaults_and_options (lib : Lib) (key : GoString) (re : Regexp)
    (hkey : key ≠ [])
    (hcompile : lib.Compile DefaultUrlPatternExclusionValue = Except.ok re) :
    let d : Client :=
      { EnableGraphQLSupport := false
        EnableReferrerRestoration := false
        Endpoint := str "api.datadome.co"
        Logger := NewDefaultLogger
        MaximumBodySize := 25 * 1024
        ModuleName := str "Golang"
        ModuleVersion := str "2.2.0"
        ServerSideKey := key
        Timeout := 150
        UrlPatternInclusion := []
        UrlPatternExclusion := DefaultUrlPatternExclusionValue
        UseXForwardedHost := false
        endpoint := str "https://api.datadome.co/validate-request"
        urlPatternExclusion := some re
        urlPatternInclusion := none }
    NewClient lib key [] = Except.ok d ∧
    (∀ e, NewClient lib key [WithEndpoint e] = Except.ok
      { d with
        Endpoint := e
        endpoint :=
          if ¬ (str "http").isPrefixOf e = true ∧ ¬ (str "/").isPrefixOf e = true then
            str "https://" ++ e ++ str "/validate-request"
          else e }) ∧
    (∀ b, NewClient lib key [WithGraphQLSupport b] =
      Except.ok { d with EnableGraphQLSupport := b }) ∧
    (∀ l, NewClient lib key [WithLogger l] = Except.ok { d with Logger := l }) ∧
    (∀ n, 0 < n → NewClient lib key [WithMaximumBodySize n] =
      Except.ok { d with MaximumBodySize := n }) ∧
    (∀ b, NewClient lib key [WithReferrerRestoration b] =
      Except.ok { d with EnableReferrerRestoration := b }) ∧
    (∀ n, 0 < n → NewClient lib key [WithTimeout n] = Except.ok { d with Timeout := n }) ∧
    (∀ p rp, p ≠ [] → lib.Compile p = Except.ok rp →
      NewClient lib key [WithUrlPatternExclusion p] =
        Except.ok { d with UrlPatternExclusion := p, urlPatternExclusion := some rp }) ∧
    (∀ p rp, p ≠ [] → lib.Compile p = Except.ok rp →
      NewClient lib key [WithUrlPatternInclusion p] =
        Except.ok { d with UrlPatternInclusion := p, urlPatternInclusion := some rp }) ∧
    (∀ b, NewClient lib key [WithXForwardedHost b] =
      Except.ok { d with UseXForwardedHost := b }) := by
  intro d
  have hT : ¬ DefaultTimeoutValue ≤ 0 := by decide
  have hM : ¬ DefaultMaximumBodySizeValue ≤ 0 := by decide
  have hE : DefaultUrlPatternExclusionValue ≠ [] := by decide
  have hI : ¬ DefaultUrlPatternInclusionValue ≠ [] := by decide
  have hP : (¬ (str "http").isPrefixOf DefaultEndpointValue = true ∧
      ¬ (str "/").isPrefixOf DefaultEndpointValue = true) := by decide
  refine ⟨?_, ?_, ?_, ?_, ?_, ?_, ?_, ?_, ?_, ?_⟩
  · rw [NewClient_ok_of lib key [] re re hkey hT hM (fun _ => hcompile)
      (fun h => absurd h hI)]
    rw [if_pos (show (configuredClient key []).UrlPatternExclusion ≠ [] from hE),
      if_neg (show ¬ (configuredClient key []).UrlPatternInclusion ≠ [] from hI),
      if_pos (show (¬ (str "http").isPrefixOf (configuredClient key []).Endpoint = true ∧
        ¬ (str "/").isPrefixOf (configuredClient key []).Endpoint = true) from hP)]
    rfl
  · intro e
    rw [NewClient_ok_of lib key [WithEndpoint e] re re hkey hT hM (fun _ => hcompile)
      (fun h => absurd h hI)]
    rw [if_pos (show (configuredClient key [WithEndpoint e]).UrlPatternExclusion ≠ [] from hE),
      if_neg (show ¬ (configuredClient key [WithEndpoint e]).UrlPatternInclusion ≠ [] from hI)]
    rfl
  · intro b
    rw [NewClient_ok_of lib key [WithGraphQLSupport b] re re hkey hT hM (fun _ => hcompile)
      (fun h => absurd h hI)]
    rw [if_pos (show (configuredClient key [WithGraphQLSupport b]).UrlPatternExclusion ≠ []
        from hE),
      if_neg (show ¬ (configuredClient key [WithGraphQLSupport b]).UrlPatternInclusion ≠ []
        from hI),
      if_pos (show (¬ (str "http").isPrefixOf
          (configuredClient key [WithGraphQLSupport b]).Endpoint = true ∧
        ¬ (str "/").isPrefixOf (configuredClient key [WithGraphQLSupport b]).Endpoint = true)
        from hP)]
    rfl
  · intro l
    rw [NewClient_ok_of lib key [WithLogger l] re re hkey hT hM (fun _ => hcompile)
      (fun h => absurd h hI)]
    rw [if_pos (show (configuredClient key [WithLogger l]).UrlPatternExclusion ≠ [] from hE),
      if_neg (show ¬ (configuredClient key [WithLogger l]).UrlPatternInclusion ≠ [] from hI),
      if_pos (show (¬ (str "http").isPrefixOf
          (configuredClient key [WithLogger l]).Endpoint = true ∧
        ¬ (str "/").isPrefixOf (configuredClient key [WithLogger l]).Endpoint = true)
        from hP)]
    rfl
  · intro n hn
    rw [NewClient_ok_of lib key [WithMaximumBodySize n] re re hkey hT
      (show ¬ (configuredClient key [WithMaximumBodySize n]).MaximumBodySize ≤ 0
        from not_le.mpr hn)
      (fun _ => hcompile) (fun h => absurd h hI)]
    rw [if_pos (show (configuredClient key [WithMaximumBodySize n]).UrlPatternExclusion ≠ []
        from hE),
      if_neg (show ¬ (configuredClient key [WithMaximumBodySize n]).UrlPatternInclusion ≠ []
        from hI),
      if_pos (show (¬ (str "http").isPrefixOf
          (configuredClient key [WithMaximumBodySize n]).Endpoint = true ∧
        ¬ (str "/").isPrefixOf (configuredClient key [WithMaximumBodySize n]).Endpoint = true)
        from hP)]
    rfl
  · intro b
    rw [NewClient_ok_of lib key [WithReferrerRestoration b] re re hkey hT hM
      (fun _ => hcompile) (fun h => absurd h hI)]
    rw [if_pos (show (configuredClient key [WithReferrerRestoration b]).UrlPatternExclusion ≠ []
        from hE),
      if_neg (show ¬ (configuredClient key [WithReferrerRestoration b]).UrlPatternInclusion ≠ []
        from hI),
      if_pos (show (¬ (str "http").isPrefixOf
          (configuredClient key [WithReferrerRestoration b]).Endpoint = true ∧
        ¬ (str "/").isPrefixOf
          (configuredClient key [WithReferrerRestoration b]).Endpoint = true)
        from hP)]
    rfl
  · intro n hn
    rw [NewClient_ok_of lib key [WithTimeout n] re re hkey
      (show ¬ (configuredClient key [WithTimeout n]).Timeout ≤ 0 from not_le.mpr hn) hM
      (fun _ => hcompile) (fun h => absurd h hI)]
    rw [if_pos (show (configuredClient key [WithTimeout n]).UrlPatternExclusion ≠ [] from hE),
      if_neg (show ¬ (configuredClient key [WithTimeout n]).UrlPatternInclusion ≠ [] from hI),
      if_pos (show (¬ (str "http").isPrefixOf
          (configuredClient key [WithTimeout n]).Endpoint = true ∧
        ¬ (str "/").isPrefixOf (configuredClient key [WithTimeout n]).Endpoint = true)
        from hP)]
    rfl
  · intro p rp hp hc
    rw [NewClient_ok_of lib key [WithUrlPatternExclusion p] rp re hkey hT hM (fun _ => hc)
      (fun h => absurd h hI)]
    rw [if_pos (show (configuredClient key [WithUrlPatternExclusion p]).UrlPatternExclusion ≠ []
        from hp),
      if_neg (show ¬ (configuredClient key [WithUrlPatternExclusion p]).UrlPatternInclusion ≠ []
        from hI),
      if_pos (show (¬ (str "http").isPrefixOf
          (configuredClient key [WithUrlPatternExclusion p]).Endpoint = true ∧
        ¬ (str "/").isPrefixOf
          (configuredClient key [WithUrlPatternExclusion p]).Endpoint = true)
        from hP)]
    rfl
  · intro p rp hp hc
    rw [NewClient_ok_of lib key [WithUrlPatternInclusion p] re rp hkey hT hM
      (fun _ => hcompile) (fun _ => hc)]
    rw [if_pos (show (configuredClient key [WithUrlPatternInclusion p]).UrlPatternExclusion ≠ []
        from hE),
      if_pos (show (configuredClient key [WithUrlPatternInclusion p]).UrlPatternInclusion ≠ []
        from hp),
      if_pos (show (¬ (str "http").isPrefixOf
          (configuredClient key [WithUrlPatternInclusion p]).Endpoint = true ∧
        ¬ (str "/").isPrefixOf
          (configuredClient key [WithUrlPatternInclusion p]).Endpoint = true)
        from hP)]
    rfl
  · intro b
    rw [NewClient_ok_of lib key [WithXForwardedHost b] re re hkey hT hM (fun _ => hcompile)
      (fun h => absurd h hI)]
    rw [if_pos (show (configuredClient key [WithXForwardedHost b]).UrlPatternExclusion ≠ []
        from hE),
      if_neg (show ¬ (configuredClient key [WithXForwardedHost b]).UrlPatternInclusion ≠ []
        from hI),
      if_pos (show (¬ (str "http").isPrefixOf
          (configuredClient key [WithXForwardedHost b]).Endpoint = true ∧
        ¬ (str "/").isPrefixOf (configuredClient key [WithXForwardedHost b]).Endpoint = true)
        from hP)]
    rfl

set_option maxRecDepth 20000 in
theorem NewClient_defaults_and_options_witness :
    str "azerty" ≠ [] ∧
    NewClient (sampleLib (DoResult.ok allowResponse)) (str "azerty") [] =
      Except.ok sampleClient ∧
    NewClient (sampleLib (DoResult.ok allowResponse)) (str "azerty")
        [WithEndpoint (str "api.example.org")] =
      Except.ok { sampleClient with
        Endpoint := str "api.example.org"
        endpoint := str "https://api.example.org/validate-request" } ∧
    NewClient (sampleLib (DoResult.ok allowResponse)) (str "azerty") [WithTimeout 1500] =
      Except.ok { sampleClient with Timeout := 1500 } ∧
    NewClient (sampleLib (DoResult.ok allowResponse)) (str "azerty")
        [WithLogger (Logger.custom 1)] =
      Except.ok { sampleClient with Logger := Logger.custom 1 } :=
  ⟨by decide,
   (NewClient_defaults_and_options (sampleLib (DoResult.ok allowResponse)) (str "azerty")
      (RE.toRegexp defaultExclusionRE) (by decide) rfl).1,
   (NewClient_defaults_and_options (sampleLib (DoResult.ok allowResponse)) (str "azerty")
      (RE.toRegexp defaultExclusionRE) (by decide) rfl).2.1 (str "api.example.org"),
   (NewClient_defaults_and_options (sampleLib (DoResult.ok allowResponse)) (str "azerty")
      (RE.toRegexp defaultExclusionRE) (by decide) rfl).2.2.2.2.2.2.1 1500 (by decide),
   (NewClient_defaults_and_options (sampleLib (DoResult.ok allowResponse)) (str "azerty")
      (RE.toRegexp defaultExclusionRE) (by decide) rfl).2.2.2.1 (Logger.custom 1)⟩

/-! ## The exact values after header propagation -/

theorem Header.values_Add (h : Header) (m v k : GoString) :
    Header.values (Header.Add h m v) k =
      if CanonicalMIMEHeaderKey m = k then Header.values h k ++ [v] else Header.values h k := by
  unfold Header.Add
  by_cases hc : CanonicalMIMEHeaderKey m = k
  · rw [if_pos hc, ← hc, Header.values_put_same]
  · rw [if_neg hc, Header.values_put_other _ _ _ _ (fun h => hc h.symm)]

theorem Header.values_Set (h : Header) (m v k : GoString) :
    Header.values (Header.Set h m v) k =
      if CanonicalMIMEHeaderKey m = k then [v] else Header.values h k := by
  unfold Header.Set
  by_cases hc : CanonicalMIMEHeaderKey m = k
  · rw [if_pos hc, ← hc, Header.values_put_same]
  · rw [if_neg hc, Header.values_put_other _ _ _ _ (fun h => hc h.symm)]

theorem Fields_nil : Fields [] = [] := rfl

/-- The loop of addDataDomeRequestHeaders changes the header map only. -/
theorem requestLoop_Header (dd : Header) (names : List GoString) (r : http.Request) :
    (names.foldl
      (fun (origReq : http.Request) datadomeHeaderName =>
        let datadomeHeaderValue := Header.Get dd datadomeHeaderName
        if datadomeHeaderValue ≠ [] then
          { origReq with Header := Header.Add origReq.Header datadomeHeaderName datadomeHeaderValue }
        else origReq) r).Header =
    names.foldl
      (fun (hdr : Header) m =>
        if Header.Get dd m ≠ [] then Header.Add hdr m (Header.Get dd m) else hdr) r.Header := by
  induction names generalizing r with
  | nil => rfl
  | cons m t ih =>
    rw [List.foldl_cons, List.foldl_cons, ih]
    by_cases hv : Header.Get dd m ≠ []
    · rw [if_pos hv, if_pos hv]
    · rw [if_neg hv, if_neg hv]

/-- The values of a key after the loop of addDataDomeRequestHeaders: one copy
of the value of the key is appended for each listed name of that key. -/
theorem requestLoop_values (dd : Header) (names : List GoString) (hdr : Header)
    (k v : GoString) (hv : ∀ m ∈ names, CanonicalMIMEHeaderKey m = k → Header.Get dd m = v) :
    Header.values (names.foldl
      (fun (hdr : Header) m =>
        if Header.Get dd m ≠ [] then Header.Add hdr m (Header.Get dd m) else hdr) hdr) k =
    Header.values hdr k ++ List.replicate
      (if v = [] then 0 else names.countP (fun m => decide (CanonicalMIMEHeaderKey m = k))) v := by
  induction names generalizing hdr with
  | nil =>
    by_cases h0 : v = []
    · rw [if_pos h0]; simp
    · rw [if_neg h0]; simp
  | cons m t ih =>
    rw [List.foldl_cons, ih _ (fun x hx => hv x (List.mem_cons_of_mem _ hx))]
    by_cases hc : CanonicalMIMEHeaderKey m = k
    · have hm : Header.Get dd m = v := hv m (List.mem_cons_self _ _) hc
      rw [hm]
      by_cases h0 : v = []
      · rw [if_neg (not_not.mpr h0), if_pos h0, if_pos h0]
      · rw [if_pos h0, if_neg h0, if_neg h0, Header.values_Add, if_pos hc,
          List.countP_cons_of_pos _ _ (by simpa using hc), List.replicate_succ]
        simp
    · have hstep : Header.values
          (if Header.Get dd m ≠ [] then Header.Add hdr m (Header.Get dd m) else hdr) k =
          Header.values hdr k := by
        by_cases hg : Header.Get dd m ≠ []
        · rw [if_pos hg, Header.values_Add, if_neg hc]
        · rw [if_neg hg]
      rw [hstep, List.countP_cons_of_neg _ _ (by simpa using hc)]

theorem addDataDomeRequestHeaders_Header (ddResp : Response) (r : http.Request) :
    (addDataDomeRequestHeaders ddResp r).Header =
    (Fields (Header.Get ddResp.Header (str "x-datadome-request-headers"))).foldl
      (fun (hdr : Header) m =>
        if Header.Get ddResp.Header m ≠ [] then Header.Add hdr m (Header.Get ddResp.Header m)
        else hdr) r.Header := by
  unfold addDataDomeRequestHeaders
  dsimp only
  by_cases hd : Header.Get ddResp.Header (str "x-datadome-request-headers") ≠ []
  · rw [if_pos hd]
    exact requestLoop_Header ddResp.Header _ r
  · rw [if_neg hd, not_not.mp hd, Fields_nil]
    rfl

/-- C17, counterexample. A directive that lists X-Datadome-isbot twice makes
addDataDomeRequestHeaders append the value 1 twice: the values of the request
for that name are then 1, 1 and not the previous values (none) followed by 1. -/
theorem request_header_listed_twice_copied_twice :
    Fields (Header.Get repeatedRequestHeadersResponse.Header (str "x-datadome-request-headers")) =
      [str "X-Datadome-isbot", str "X-Datadome-isbot"] ∧
    Header.Get repeatedRequestHeadersResponse.Header (str "X-Datadome-isbot") = str "1" ∧
    Header.values sampleRequest.Header (CanonicalMIMEHeaderKey (str "X-Datadome-isbot")) = [] ∧
    Header.values (addDataDomeRequestHeaders repeatedRequestHeadersResponse sampleRequest).Header
      (CanonicalMIMEHeaderKey (str "X-Datadome-isbot")) = [str "1", str "1"] := by
  decide

/-- C17, amended. addDataDomeRequestHeaders: for every header name n, the
values of the request for n afterwards are its previous values followed by one
copy of the value v the Decision Service response carries for n for each time
the X-DataDome-Request-Headers directive lists n (names compared as header
keys, that is after canonicalisation), and nothing is added when v is empty.
So a name listed once with a non-empty v gets its previous values followed by
v; a name that is not listed, or whose v is empty, keeps its values; and the
request is otherwise unchanged. -/
theorem addDataDomeRequestHeaders_values (ddResp : Response) (r : http.Request) (n : GoString) :
    Header.values (addDataDomeRequestHeaders ddResp r).Header (CanonicalMIMEHeaderKey n) =
      Header.values r.Header (CanonicalMIMEHeaderKey n) ++
        List.replicate
          (if Header.Get ddResp.Header n = [] then 0
           else (Fields (Header.Get ddResp.Header (str "x-datadome-request-headers"))).countP
             (fun m => decide (CanonicalMIMEHeaderKey m = CanonicalMIMEHeaderKey n)))
          (Header.Get ddResp.Header n) ∧
    ((Fields (Header.Get ddResp.Header (str "x-datadome-request-headers"))).countP
        (fun m => decide (CanonicalMIMEHeaderKey m = CanonicalMIMEHeaderKey n)) = 1 →
      Header.Get ddResp.Header n ≠ [] →
      Header.values (addDataDomeRequestHeaders ddResp r).Header (CanonicalMIMEHeaderKey n) =
        Header.values r.Header (CanonicalMIMEHeaderKey n) ++ [Header.Get ddResp.Header n]) ∧
    ((Fields (Header.Get ddResp.Header (str "x-datadome-request-headers"))).countP
        (fun m => decide (CanonicalMIMEHeaderKey m = CanonicalMIMEHeaderKey n)) = 0 ∨
      Header.Get ddResp.Header n = [] →
      Header.values (addDataDomeRequestHeaders ddResp r).Header (CanonicalMIMEHeaderKey n) =
        Header.values r.Header (CanonicalMIMEHeaderKey n)) ∧
    { addDataDomeRequestHeaders ddResp r with Header := r.Header } = r := by
  have key := requestLoop_values ddResp.Header
    (Fields (Header.Get ddResp.Header (str "x-datadome-request-headers"))) r.Header
    (CanonicalMIMEHeaderKey n) (Header.Get ddResp.Header n)
    (fun m _ hm => Header.Get_congr ddResp.Header m n hm)
  rw [← addDataDomeRequestHeaders_Header] at key
  refine ⟨key, ?_, ?_, addDataDomeRequestHeaders_frame ddResp r⟩
  · intro h1 hv
    rw [key, if_neg hv, h1]
    rfl
  · intro h0
    rw [key]
    rcases h0 with h0 | h0
    · by_cases hv : Header.Get ddResp.Header n = []
      · rw [if_pos hv]; simp
      · rw [if_neg hv, h0]; simp
    · rw [if_pos h0]; simp

theorem addDataDomeRequestHeaders_values_witness :
    Header.values (addDataDomeRequestHeaders requestHeadersResponse sampleRequest).Header
        (CanonicalMIMEHeaderKey (str "X-Datadome-isbot")) =
      Header.values sampleRequest.Header (CanonicalMIMEHeaderKey (str "X-Datadome-isbot")) ++
        [str "1"] ∧
    Header.Get requestHeadersResponse.Header (str "X-DataDome-Obiwan") = str "Kenoby" ∧
    Header.values (addDataDomeRequestHeaders requestHeadersResponse sampleRequest).Header
        (CanonicalMIMEHeaderKey (str "X-DataDome-Obiwan")) =
      Header.values sampleRequest.Header (CanonicalMIMEHeaderKey (str "X-DataDome-Obiwan")) :=
  ⟨(addDataDomeRequestHeaders_values requestHeadersResponse sampleRequest
      (str "X-Datadome-isbot")).2.1 (by decide) (by decide),
   by decide,
   (addDataDomeRequestHeaders_values requestHeadersResponse sampleRequest
      (str "X-DataDome-Obiwan")).2.2.1 (Or.inl (by decide))⟩

/-! ## Header names under case folding and canonicalisation -/

theorem toNat_ofNat_add32 (c : UInt8) (h : c.toNat ≤ 0x5A) :
    (UInt8.ofNat (c.toNat + 32)).toNat = c.toNat + 32 := by
  show (c.toNat + 32) % 256 = c.toNat + 32
  omega

theorem toNat_ofNat_sub32 (c : UInt8) (h : c.toNat ≤ 0x7A) :
    (UInt8.ofNat (c.toNat - 32)).toNat = c.toNat - 32 := by
  show (c.toNat - 32) % 256 = c.toNat - 32
  omega

theorem validHeaderFieldByte_upper (c : UInt8) (h1 : 0x41 ≤ c.toNat) (h2 : c.toNat ≤ 0x5A) :
    validHeaderFieldByte c = true := by
  unfold validHeaderFieldByte
  simp [h1, h2]

theorem validHeaderFieldByte_lower (c : UInt8) (h1 : 0x61 ≤ c.toNat) (h2 : c.toNat ≤ 0x7A) :
    validHeaderFieldByte c = true := by
  unfold validHeaderFieldByte
  simp [h1, h2]

theorem validHeaderFieldByte_ascii (c : UInt8) (h : validHeaderFieldByte c = true) :
    c.toNat < 0x80 := by
  unfold validHeaderFieldByte at h
  simp at h
  omega

theorem validHeaderFieldByte_toLowerASCII (c : UInt8) :
    validHeaderFieldByte (toLowerASCII c) = validHeaderFieldByte c := by
  unfold toLowerASCII
  by_cases hu : 0x41 ≤ c.toNat ∧ c.toNat ≤ 0x5A
  · rw [if_pos hu, validHeaderFieldByte_upper c hu.1 hu.2]
    exact validHeaderFieldByte_lower _ (by rw [toNat_ofNat_add32 c hu.2]; omega)
      (by rw [toNat_ofNat_add32 c hu.2]; omega)
  · rw [if_neg hu]

theorem toLowerASCII_toNat (c : UInt8) :
    (toLowerASCII c).toNat = if 0x41 ≤ c.toNat ∧ c.toNat ≤ 0x5A then c.toNat + 32 else c.toNat := by
  unfold toLowerASCII
  by_cases hu : 0x41 ≤ c.toNat ∧ c.toNat ≤ 0x5A
  · rw [if_pos hu, if_pos hu, toNat_ofNat_add32 c hu.2]
  · rw [if_neg hu, if_neg hu]

theorem UInt8_eq_of_toNat (a b : UInt8) (h : a.toNat = b.toNat) : a = b :=
  UInt8.ext_iff.mpr h

/-- The byte the canonicalising loop writes for c. -/
theorem canonicalLoop_cons (upper : Bool) (c : UInt8) (t : GoString) :
    canonicalLoop upper (c :: t) =
      (if upper = true ∧ 0x61 ≤ c.toNat ∧ c.toNat ≤ 0x7A then UInt8.ofNat (c.toNat - 32)
        else if upper = false ∧ 0x41 ≤ c.toNat ∧ c.toNat ≤ 0x5A then UInt8.ofNat (c.toNat + 32)
        else c) ::
      canonicalLoop
        ((if upper = true ∧ 0x61 ≤ c.toNat ∧ c.toNat ≤ 0x7A then UInt8.ofNat (c.toNat - 32)
          else if upper = false ∧ 0x41 ≤ c.toNat ∧ c.toNat ≤ 0x5A then UInt8.ofNat (c.toNat + 32)
          else c) == 0x2D) t := rfl

/-- The byte written by the canonicalising loop has the lower-case form of
the byte read, is a token character when the byte read is one, and is a
hyphen exactly when the byte read is one. -/
theorem canonicalByte (upper : Bool) (c : UInt8) :
    toLowerASCII (if upper = true ∧ 0x61 ≤ c.toNat ∧ c.toNat ≤ 0x7A then UInt8.ofNat (c.toNat - 32)
        else if upper = false ∧ 0x41 ≤ c.toNat ∧ c.toNat ≤ 0x5A then UInt8.ofNat (c.toNat + 32)
        else c) = toLowerASCII c ∧
    validHeaderFieldByte (if upper = true ∧ 0x61 ≤ c.toNat ∧ c.toNat ≤ 0x7A then
          UInt8.ofNat (c.toNat - 32)
        else if upper = false ∧ 0x41 ≤ c.toNat ∧ c.toNat ≤ 0x5A then UInt8.ofNat (c.toNat + 32)
        else c) = validHeaderFieldByte c := by
  by_cases h1 : upper = true ∧ 0x61 ≤ c.toNat ∧ c.toNat ≤ 0x7A
  · rw [if_pos h1]
    have hv := toNat_ofNat_sub32 c h1.2.2
    refine ⟨UInt8_eq_of_toNat _ _ ?_, ?_⟩
    · rw [toLowerASCII_toNat, toLowerASCII_toNat, hv]
      rw [if_pos (by omega), if_neg (by omega)]
      omega
    · rw [validHeaderFieldByte_lower c h1.2.1 h1.2.2]
      exact validHeaderFieldByte_upper _ (by omega) (by omega)
  · rw [if_neg h1]
    by_cases h2 : upper = false ∧ 0x41 ≤ c.toNat ∧ c.toNat ≤ 0x5A
    · rw [if_pos h2]
      have hv := toNat_ofNat_add32 c h2.2.2
      refine ⟨UInt8_eq_of_toNat _ _ ?_, ?_⟩
      · rw [toLowerASCII_toNat, toLowerASCII_toNat, hv]
        rw [if_neg (by omega), if_pos (by omega)]
      · rw [validHeaderFieldByte_upper c h2.2.1 h2.2.2]
        exact validHeaderFieldByte_lower _ (by omega) (by omega)
    · rw [if_neg h2]
      exact ⟨rfl, rfl⟩

theorem canonicalLoop_toLower (upper : Bool) (s : GoString) :
    (canonicalLoop upper s).map toLowerASCII = s.map toLowerASCII := by
  induction s generalizing upper with
  | nil => rfl
  | cons c t ih =>
    rw [canonicalLoop_cons, List.map_cons, List.map_cons, ih, (canonicalByte upper c).1]

theorem canonicalLoop_valid (upper : Bool) (s : GoString) :
    (canonicalLoop upper s).all validHeaderFieldByte = s.all validHeaderFieldByte := by
  induction s generalizing upper with
  | nil => rfl
  | cons c t ih =>
    rw [canonicalLoop_cons, List.all_cons, List.all_cons, ih, (canonicalByte upper c).2]

/-- Names with the same canonical key are equal, or are both made of token
characters and have the same lower-case form. -/
theorem CanonicalMIMEHeaderKey_toLower (m n : GoString)
    (h : CanonicalMIMEHeaderKey m = CanonicalMIMEHeaderKey n) :
    m = n ∨ (m.all validHeaderFieldByte = true ∧ n.all validHeaderFieldByte = true ∧
      m.map toLowerASCII = n.map toLowerASCII) := by
  unfold CanonicalMIMEHeaderKey at h
  by_cases hm : m.all validHeaderFieldByte = true
  · by_cases hn : n.all validHeaderFieldByte = true
    · rw [if_pos hm, if_pos hn] at h
      refine Or.inr ⟨hm, hn, ?_⟩
      rw [← canonicalLoop_toLower true m, ← canonicalLoop_toLower true n, h]
    · rw [if_pos hm, if_neg hn] at h
      exact absurd (by rw [← h, canonicalLoop_valid, hm]) hn
  · by_cases hn : n.all validHeaderFieldByte = true
    · rw [if_neg hm, if_pos hn] at h
      exact absurd (by rw [h, canonicalLoop_valid, hn]) hm
    · rw [if_neg hm, if_neg hn] at h
      exact Or.inl h

theorem foldsToASCII_toLowerASCII (c : Nat) (r : UInt8) (hr : r.toNat < 0x80) :
    foldsToASCII c (toLowerASCII r).toNat = foldsToASCII c r.toNat := by
  rw [toLowerASCII_toNat]
  by_cases hu : 0x41 ≤ r.toNat ∧ r.toNat ≤ 0x5A
  · rw [if_pos hu]
    unfold foldsToASCII isUpperASCII isLowerASCII
    rw [Bool.eq_iff_iff]
    simp only [Bool.or_eq_true, Bool.and_eq_true, beq_iff_eq, decide_eq_true_eq]
    omega
  · rw [if_neg hu]

theorem equalFoldRunes_toLowerASCII (s : GoString) (t : List Nat)
    (hs : ∀ x ∈ s, x.toNat < 0x80) :
    equalFoldRunes ((s.map toLowerASCII).map UInt8.toNat) t =
      equalFoldRunes (s.map UInt8.toNat) t := by
  induction s generalizing t with
  | nil => rfl
  | cons b u ih =>
    cases t with
    | nil => rfl
    | cons c v =>
      simp only [List.map_cons, equalFoldRunes]
      rw [foldsToASCII_toLowerASCII c b (hs b (List.mem_cons_self _ _)),
        ih v (fun x hx => hs x (List.mem_cons_of_mem _ hx))]

theorem all_valid_ascii (s : GoString) (h : s.all validHeaderFieldByte = true) :
    ∀ x ∈ s, x.toNat < 0x80 := by
  intro x hx
  exact validHeaderFieldByte_ascii x (List.all_eq_true.mp h x hx)

/-- The comparison strings.EqualFold of a name of token characters looks at
the lower-case form of the name only. -/
theorem EqualFold_valid (s t : GoString) (h : s.all validHeaderFieldByte = true) :
    EqualFold s t = equalFoldRunes ((s.map toLowerASCII).map UInt8.toNat) (t.map UInt8.toNat) := by
  unfold EqualFold runes runeChunks
  rw [runeChunksAux_ascii s (all_valid_ascii s h),
    equalFoldRunes_toLowerASCII s _ (all_valid_ascii s h)]

/-- Names with the same canonical key compare alike with any string under
strings.EqualFold. -/
theorem EqualFold_congr (m n t : GoString)
    (h : CanonicalMIMEHeaderKey m = CanonicalMIMEHeaderKey n) :
    EqualFold m t = EqualFold n t := by
  rcases CanonicalMIMEHeaderKey_toLower m n h with h | ⟨hm, hn, hl⟩
  · rw [h]
  · rw [EqualFold_valid m t hm, EqualFold_valid n t hn, hl]

theorem all_map_toLowerASCII (s : GoString) :
    (s.map toLowerASCII).all validHeaderFieldByte = s.all validHeaderFieldByte := by
  induction s with
  | nil => rfl
  | cons c t ih =>
    rw [List.map_cons, List.all_cons, List.all_cons, ih, validHeaderFieldByte_toLowerASCII]

theorem canonicalByte_toLowerASCII (upper : Bool) (c : UInt8) :
    (if upper = true ∧ 0x61 ≤ (toLowerASCII c).toNat ∧ (toLowerASCII c).toNat ≤ 0x7A then
        UInt8.ofNat ((toLowerASCII c).toNat - 32)
      else if upper = false ∧ 0x41 ≤ (toLowerASCII c).toNat ∧ (toLowerASCII c).toNat ≤ 0x5A then
        UInt8.ofNat ((toLowerASCII c).toNat + 32)
      else toLowerASCII c) =
    (if upper = true ∧ 0x61 ≤ c.toNat ∧ c.toNat ≤ 0x7A then UInt8.ofNat (c.toNat - 32)
      else if upper = false ∧ 0x41 ≤ c.toNat ∧ c.toNat ≤ 0x5A then UInt8.ofNat (c.toNat + 32)
      else c) := by
  by_cases hu : 0x41 ≤ c.toNat ∧ c.toNat ≤ 0x5A
  · have hl : (toLowerASCII c).toNat = c.toNat + 32 := by
      rw [toLowerASCII_toNat, if_pos hu]
    rw [hl]
    cases upper with
    | true =>
      rw [if_pos ⟨rfl, by omega, by omega⟩, if_neg (by omega),
        if_neg (fun h => Bool.noConfusion h.1)]
      exact UInt8_eq_of_toNat _ _ (by
        show (c.toNat + 32 - 32) % 256 = c.toNat
        omega)
    | false =>
      rw [if_neg (fun h => Bool.noConfusion h.1), if_neg (by omega),
        if_neg (fun h => Bool.noConfusion h.1), if_pos ⟨rfl, hu.1, hu.2⟩]
      exact UInt8_eq_of_toNat _ _ (by
        rw [hl, toNat_ofNat_add32 c hu.2])
  · have hl : toLowerASCII c = c := by
      unfold toLowerASCII
      rw [if_neg hu]
    rw [hl]

theorem canonicalLoop_map_toLowerASCII (upper : Bool) (s : GoString) :
    canonicalLoop upper (s.map toLowerASCII) = canonicalLoop upper s := by
  induction s generalizing upper with
  | nil => rfl
  | cons c t ih =>
    rw [List.map_cons, canonicalLoop_cons, canonicalLoop_cons, canonicalByte_toLowerASCII, ih]

/-- A name that equals set-cookie up to the case of its ASCII letters compares
equal to it under strings.EqualFold and has the canonical key Set-Cookie. -/
theorem set_cookie_name (h : GoString) (hl : h.map toLowerASCII = str "set-cookie") :
    EqualFold h (str "set-cookie") = true ∧ CanonicalMIMEHeaderKey h = str "Set-Cookie" := by
  have hv : h.all validHeaderFieldByte = true := by
    rw [← all_map_toLowerASCII, hl]
    decide
  refine ⟨?_, ?_⟩
  · rw [EqualFold_valid h _ hv, hl]
    decide
  · unfold CanonicalMIMEHeaderKey
    rw [if_pos hv, ← canonicalLoop_map_toLowerASCII, hl]
    decide

/-! ## The exact values after propagation to the downstream response -/

/-- The loop of addDataDomeHeaders changes the header map only. -/
theorem responseLoop_header (dd : Header) (names : List GoString) (w : ResponseWriter) :
    (names.foldl
      (fun (origResp : ResponseWriter) datadomeHeaderName =>
        let datadomeHeaderValue := Header.Get dd datadomeHeaderName
        if datadomeHeaderValue ≠ [] then
          if EqualFold datadomeHeaderName (str "set-cookie") = true then
            { origResp with header := Header.Add origResp.header datadomeHeaderName datadomeHeaderValue }
          else
            { origResp with header := Header.Set origResp.header datadomeHeaderName datadomeHeaderValue }
        else origResp) w).header =
    names.foldl
      (fun (hdr : Header) m =>
        if Header.Get dd m ≠ [] then
          if EqualFold m (str "set-cookie") = true then Header.Add hdr m (Header.Get dd m)
          else Header.Set hdr m (Header.Get dd m)
        else hdr) w.header := by
  induction names generalizing w with
  | nil => rfl
  | cons m t ih =>
    rw [List.foldl_cons, List.foldl_cons, ih]
    by_cases hv : Header.Get dd m ≠ []
    · by_cases hc : EqualFold m (str "set-cookie") = true
      · rw [if_pos hv, if_pos hv, if_pos hc, if_pos hc]
      · rw [if_pos hv, if_pos hv, if_neg hc, if_neg hc]
    · rw [if_neg hv, if_neg hv]

theorem addDataDomeHeaders_header (ddResp : Response) (w : ResponseWriter) :
    (addDataDomeHeaders ddResp w).header =
    (Fields (Header.Get ddResp.Header (str "x-datadome-headers"))).foldl
      (fun (hdr : Header) m =>
        if Header.Get ddResp.Header m ≠ [] then
          if EqualFold m (str "set-cookie") = true then
            Header.Add hdr m (Header.Get ddResp.Header m)
          else Header.Set hdr m (Header.Get ddResp.Header m)
        else hdr) w.header := by
  unfold addDataDomeHeaders
  dsimp only
  by_cases hd : Header.Get ddResp.Header (str "x-datadome-headers") ≠ []
  · rw [if_pos hd]
    exact responseLoop_header ddResp.Header _ w
  · rw [if_neg hd, not_not.mp hd, Fields_nil]
    rfl

/-- A key none of whose listed names carries a value keeps its values. -/
theorem responseLoop_frame (dd : Header) (names : List GoString) (hdr : Header) (k : GoString)
    (hk : ∀ m ∈ names, CanonicalMIMEHeaderKey m = k → Header.Get dd m = []) :
    Header.values (names.foldl
      (fun (hdr : Header) m =>
        if Header.Get dd m ≠ [] then
          if EqualFold m (str "set-cookie") = true then Header.Add hdr m (Header.Get dd m)
          else Header.Set hdr m (Header.Get dd m)
        else hdr) hdr) k = Header.values hdr k := by
  induction names generalizing hdr with
  | nil => rfl
  | cons m t ih =>
    rw [List.foldl_cons, ih _ (fun x hx => hk x (List.mem_cons_of_mem _ hx))]
    by_cases hv : Header.Get dd m ≠ []
    · have hc : CanonicalMIMEHeaderKey m ≠ k :=
        fun hc => hv (hk m (List.mem_cons_self _ _) hc)
      by_cases he : EqualFold m (str "set-cookie") = true
      · rw [if_pos hv, if_pos he, Header.values_Add, if_neg hc]
      · rw [if_pos hv, if_neg he, Header.values_Set, if_neg hc]
    · rw [if_neg hv]

/-- The values of a cookie key: one copy of the value is appended for each
listed name of that key. -/
theorem responseLoop_cookie (dd : Header) (names : List GoString) (hdr : Header)
    (k v : GoString) (hv : v ≠ [])
    (hk : ∀ m ∈ names, CanonicalMIMEHeaderKey m = k →
      Header.Get dd m = v ∧ EqualFold m (str "set-cookie") = true) :
    Header.values (names.foldl
      (fun (hdr : Header) m =>
        if Header.Get dd m ≠ [] then
          if EqualFold m (str "set-cookie") = true then Header.Add hdr m (Header.Get dd m)
          else Header.Set hdr m (Header.Get dd m)
        else hdr) hdr) k =
    Header.values hdr k ++ List.replicate
      (names.countP (fun m => decide (CanonicalMIMEHeaderKey m = k))) v := by
  induction names generalizing hdr with
  | nil => simp
  | cons m t ih =>
    rw [List.foldl_cons, ih _ (fun x hx => hk x (List.mem_cons_of_mem _ hx))]
    by_cases hc : CanonicalMIMEHeaderKey m = k
    · obtain ⟨hm, he⟩ := hk m (List.mem_cons_self _ _) hc
      rw [hm, if_pos hv, if_pos he, Header.values_Add, if_pos hc,
        List.countP_cons_of_pos _ _ (by simpa using hc), List.replicate_succ]
      simp
    · rw [List.countP_cons_of_neg _ _ (by simpa using hc)]
      by_cases hg : Header.Get dd m ≠ []
      · by_cases he : EqualFold m (str "set-cookie") = true
        · rw [if_pos hg, if_pos he, Header.values_Add, if_neg hc]
        · rw [if_pos hg, if_neg he, Header.values_Set, if_neg hc]
      · rw [if_neg hg]

/-- The values of a key that is not a cookie key and is listed: the value alone. -/
theorem responseLoop_replace (dd : Header) (names : List GoString) (hdr : Header)
    (k v : GoString) (hv : v ≠ [])
    (hk : ∀ m ∈ names, CanonicalMIMEHeaderKey m = k →
      Header.Get dd m = v ∧ ¬ EqualFold m (str "set-cookie") = true) :
    Header.values (names.foldl
      (fun (hdr : Header) m =>
        if Header.Get dd m ≠ [] then
          if EqualFold m (str "set-cookie") = true then Header.Add hdr m (Header.Get dd m)
          else Header.Set hdr m (Header.Get dd m)
        else hdr) hdr) k =
    if (∃ m ∈ names, CanonicalMIMEHeaderKey m = k) then [v] else Header.values hdr k := by
  induction names generalizing hdr with
  | nil => simp
  | cons m t ih =>
    rw [List.foldl_cons, ih _ (fun x hx => hk x (List.mem_cons_of_mem _ hx))]
    by_cases ht : ∃ x ∈ t, CanonicalMIMEHeaderKey x = k
    · obtain ⟨x, hx, hxk⟩ := ht
      rw [if_pos ⟨x, hx, hxk⟩, if_pos ⟨x, List.mem_cons_of_mem _ hx, hxk⟩]
    · rw [if_neg ht]
      by_cases hc : CanonicalMIMEHeaderKey m = k
      · obtain ⟨hm, he⟩ := hk m (List.mem_cons_self _ _) hc
        rw [hm, if_pos hv, if_neg he, Header.values_Set, if_pos hc,
          if_pos ⟨m, List.mem_cons_self _ _, hc⟩]
      · have hno : ¬ ∃ x ∈ m :: t, CanonicalMIMEHeaderKey x = k := by
          rintro ⟨x, hx, hxk⟩
          rcases List.mem_cons.mp hx with hx | hx
          · exact hc (hx ▸ hxk)
          · exact ht ⟨x, hx, hxk⟩
        rw [if_neg hno]
        by_cases hg : Header.Get dd m ≠ []
        · by_cases he : EqualFold m (str "set-cookie") = true
          · rw [if_pos hg, if_pos he, Header.values_Add, if_neg hc]
          · rw [if_pos hg, if_neg he, Header.values_Set, if_neg hc]
        · rw [if_neg hg]

/-- C16, counterexample. A directive that lists Set-Cookie twice (here in two
letter cases) makes addDataDomeHeaders append the cookie of the Decision
Service twice: the Set-Cookie values of the downstream response are then its
previous cookie followed by two copies, not by the one value. -/
theorem cookie_listed_twice_added_twice :
    Fields (Header.Get repeatedCookieResponse.Header (str "x-datadome-headers")) =
      [str "Set-Cookie", str "set-cookie"] ∧
    Header.Get repeatedCookieResponse.Header (str "Set-Cookie") = str "datadome=other_value" ∧
    Header.values cookieWriter.header (str "Set-Cookie") = [str "some_cookie=some_value"] ∧
    Header.values (addDataDomeHeaders repeatedCookieResponse cookieWriter).header
        (str "Set-Cookie") =
      [str "some_cookie=some_value", str "datadome=other_value", str "datadome=other_value"] := by
  decide

/-- C16, amended. addDataDomeHeaders: for every header name h of the
whitespace-separated X-DataDome-Headers directive for which the Decision
Service response carries a non-empty value v: if h case-insensitively equals
Set-Cookie, the values of the downstream response for h afterwards are its
previous values followed by one copy of v for each time the directive lists
the name (so by v alone when it is listed once, every previous cookie being
kept), and the key of a name spelled with ASCII letters is Set-Cookie;
otherwise the values for h are exactly v.  Every key for which no listed name
carries a value keeps its values (a header that is not listed, the directive
header itself included, is not copied), and the writer is otherwise unchanged. -/
theorem addDataDomeHeaders_values (ddResp : Response) (w : ResponseWriter) :
    (∀ h ∈ Fields (Header.Get ddResp.Header (str "x-datadome-headers")),
      Header.Get ddResp.Header h ≠ [] → EqualFold h (str "set-cookie") = true →
      Header.values (addDataDomeHeaders ddResp w).header (CanonicalMIMEHeaderKey h) =
        Header.values w.header (CanonicalMIMEHeaderKey h) ++
          List.replicate
            ((Fields (Header.Get ddResp.Header (str "x-datadome-headers"))).countP
              (fun m => decide (CanonicalMIMEHeaderKey m = CanonicalMIMEHeaderKey h)))
            (Header.Get ddResp.Header h)) ∧
    (∀ h, h.map toLowerASCII = str "set-cookie" →
      EqualFold h (str "set-cookie") = true ∧ CanonicalMIMEHeaderKey h = str "Set-Cookie") ∧
    (∀ h ∈ Fields (Header.Get ddResp.Header (str "x-datadome-headers")),
      Header.Get ddResp.Header h ≠ [] → ¬ EqualFold h (str "set-cookie") = true →
      Header.values (addDataDomeHeaders ddResp w).header (CanonicalMIMEHeaderKey h) =
        [Header.Get ddResp.Header h]) ∧
    (∀ k, (∀ h ∈ Fields (Header.Get ddResp.Header (str "x-datadome-headers")),
        CanonicalMIMEHeaderKey h = k → Header.Get ddResp.Header h = []) →
      Header.values (addDataDomeHeaders ddResp w).header k = Header.values w.header k) ∧
    (addDataDomeHeaders ddResp w).calls = w.calls ∧
    (addDataDomeHeaders ddResp w).writeErr = w.writeErr := by
  refine ⟨?_, set_cookie_name, ?_, ?_, addDataDomeHeaders_calls ddResp w⟩
  · intro h _ hv he
    rw [addDataDomeHeaders_header]
    exact responseLoop_cookie ddResp.Header _ w.header _ _ hv
      (fun m _ hm => ⟨Header.Get_congr ddResp.Header m h hm,
        (EqualFold_congr m h _ hm).trans he⟩)
  · intro h hmem hv he
    rw [addDataDomeHeaders_header,
      responseLoop_replace ddResp.Header _ w.header _ _ hv
        (fun m _ hm => ⟨Header.Get_congr ddResp.Header m h hm,
          fun hm2 => he ((EqualFold_congr m h _ hm).symm.trans hm2)⟩),
      if_pos ⟨h, hmem, rfl⟩]
  · intro k hk
    rw [addDataDomeHeaders_header]
    exact responseLoop_frame ddResp.Header _ w.header k hk

theorem addDataDomeHeaders_values_witness :
    Header.values (addDataDomeHeaders cookieResponse cookieWriter).header
        (CanonicalMIMEHeaderKey (str "Set-Cookie")) =
      Header.values cookieWriter.header (CanonicalMIMEHeaderKey (str "Set-Cookie")) ++
        List.replicate 1 (str "datadome=other_value") ∧
    Header.values (addDataDomeHeaders cookieResponse cookieWriter).header
        (CanonicalMIMEHeaderKey (str "X-Datadome")) = [str "protected"] ∧
    Header.values (addDataDomeHeaders cookieResponse cookieWriter).header
        (str "X-Datadome-Headers") = [] ∧
    Header.values (addDataDomeHeaders cookieResponse cookieWriter).header (str "X-Result") =
      [str "true"] :=
  ⟨(addDataDomeHeaders_values cookieResponse cookieWriter).1 (str "Set-Cookie") (by decide)
      (by decide) (by decide),
   (addDataDomeHeaders_values cookieResponse cookieWriter).2.2.1 (str "X-Datadome") (by decide)
      (by decide) (by decide),
   (addDataDomeHeaders_values cookieResponse cookieWriter).2.2.2.1 (str "X-Datadome-Headers")
      (by decide),
   (addDataDomeHeaders_values cookieResponse cookieWriter).2.2.2.1 (str "X-Result")
      (by decide)⟩

/-! ## Reading a body without consuming it -/

theorem Body.bytes_cons_data (bs : GoString) (t : List ReadStep) (f : Bool) :
    Body.bytes { pending := ReadStep.data bs :: t, eofWithData := f } =
      bs ++ Body.bytes { pending := t, eofWithData := f } := by
  simp [Body.bytes]

theorem Body.size_cons_data (bs : GoString) (t : List ReadStep) (f : Bool) :
    Body.size { pending := ReadStep.data bs :: t, eofWithData := f } =
      bs.length + 1 + Body.size { pending := t, eofWithData := f } := by
  simp [Body.size]

theorem Body.succeeds_cons_data (bs : GoString) (t : List ReadStep) (f : Bool) :
    Body.succeeds { pending := ReadStep.data bs :: t, eofWithData := f } =
      Body.succeeds { pending := t, eofWithData := f } := by
  simp [Body.succeeds]

/-- A Read of at least one byte on a reader without errors in store: the
bytes read followed by what is left are what was in store; a Read that
reports nothing brings the reader closer to its end, and io.EOF is reported
only when nothing is left. -/
theorem Body.Read_spec (b : Body) (n : Nat) (hn : 0 < n) (hg : b.succeeds = true) :
    (b.Read n).1 ++ (b.Read n).2.2.bytes = b.bytes ∧
    (b.Read n).2.2.succeeds = true ∧
    (b.Read n).1.length ≤ n ∧
    ((b.Read n).2.1 = ReadErr.nil → (b.Read n).2.2.size < b.size) ∧
    ((b.Read n).2.1 = ReadErr.EOF → (b.Read n).2.2.bytes = []) ∧
    (∀ e, (b.Read n).2.1 ≠ ReadErr.other e) := by
  obtain ⟨pending, f⟩ := b
  cases pending with
  | nil =>
    simp [Body.Read, Body.bytes, Body.succeeds]
  | cons s t =>
    cases s with
    | fail e => simp [Body.succeeds] at hg
    | data bs =>
      rw [Body.succeeds_cons_data] at hg
      by_cases hd : bs.drop n ≠ []
      · have hR : Body.Read { pending := ReadStep.data bs :: t, eofWithData := f } n =
            (bs.take n, ReadErr.nil,
              { pending := ReadStep.data (bs.drop n) :: t, eofWithData := f }) := by
          simp only [Body.Read]
          rw [if_pos hd]
        rw [hR]
        dsimp only
        have hlen : n < bs.length := by
          by_contra hc
          exact hd (List.drop_eq_nil_of_le (not_lt.mp hc))
        refine ⟨?_, ?_, ?_, ?_, ?_, ?_⟩
        · rw [Body.bytes_cons_data, Body.bytes_cons_data, ← List.append_assoc,
            List.take_append_drop]
        · rw [Body.succeeds_cons_data]; exact hg
        · simp
        · intro _
          rw [Body.size_cons_data, Body.size_cons_data, List.length_drop]
          omega
        · intro h; cases h
        · intro e h; cases h
      · have hd2 : bs.drop n = [] := not_not.mp hd
        have hlen : bs.length ≤ n := List.drop_eq_nil_iff.mp hd2
        by_cases he : t = [] ∧ f = true
        · have hR : Body.Read { pending := ReadStep.data bs :: t, eofWithData := f } n =
              (bs, ReadErr.EOF, { pending := [], eofWithData := f }) := by
            simp only [Body.Read]
            rw [if_neg hd, if_pos he]
          rw [hR]
          dsimp only
          refine ⟨?_, ?_, hlen, ?_, ?_, ?_⟩
          · rw [Body.bytes_cons_data, he.1]
          · rfl
          · intro h; cases h
          · intro _; rfl
          · intro e h; cases h
        · have hR : Body.Read { pending := ReadStep.data bs :: t, eofWithData := f } n =
              (bs, ReadErr.nil, { pending := t, eofWithData := f }) := by
            simp only [Body.Read]
            rw [if_neg hd, if_neg he]
          rw [hR]
          dsimp only
          refine ⟨?_, hg, hlen, ?_, ?_, ?_⟩
          · rw [Body.bytes_cons_data]
          · intro _
            rw [Body.size_cons_data]
            omega
          · intro h; cases h
          · intro e h; cases h

/-- The loop of io.ReadAll on a reader without errors in store, with fuel
beyond the size of the reader: it returns every byte in store. -/
theorem readAllLoop_spec (fuel : Nat) (b : Body) (acc : GoString)
    (hg : b.succeeds = true) (hf : b.size < fuel) :
    ∃ b1, readAllLoop fuel b acc = some (Except.ok (acc ++ b.bytes), b1) ∧ b1.bytes = [] := by
  induction fuel generalizing b acc with
  | zero => omega
  | succ fuel ih =>
    obtain ⟨h1, h2, _, h4, h5, h6⟩ := Body.Read_spec b 512 (by decide) hg
    unfold readAllLoop
    dsimp only
    cases herr : (b.Read 512).2.1 with
    | EOF =>
      dsimp only
      refine ⟨(b.Read 512).2.2, ?_, h5 herr⟩
      rw [← h1, h5 herr, List.append_nil]
    | other e => exact absurd herr (h6 e)
    | nil =>
      dsimp only
      obtain ⟨b1, hb1, hb2⟩ := ih (b.Read 512).2.2 (acc ++ (b.Read 512).1) h2
        (by have := h4 herr; omega)
      refine ⟨b1, ?_, hb2⟩
      rw [hb1, List.append_assoc, h1]

theorem ReadAll_spec (b : Body) (hg : b.succeeds = true) :
    ∃ b1, ReadAll b = some (Except.ok b.bytes, b1) ∧ b1.bytes = [] := by
  obtain ⟨b1, h1, h2⟩ := readAllLoop_spec (b.size + 1) b [] hg (Nat.lt_succ_self _)
  exact ⟨b1, h1, h2⟩

theorem MultiReader_bytes (a b : GoString) : (MultiReader a b).bytes = a ++ b := by
  unfold MultiReader Body.bytes
  by_cases ha : a = [] <;> by_cases hb : b = [] <;> simp [ha, hb]

theorem MultiReader_succeeds (a b : GoString) : (MultiReader a b).succeeds = true := by
  unfold MultiReader Body.succeeds
  by_cases ha : a = [] <;> by_cases hb : b = [] <;> simp [ha, hb]

/-- The step of the probe: what it does to the reader and to beginBody does
not depend on the search for the query. -/
theorem probeStep_spec (st : ProbeState) :
    (probeStep st).1 = (st.limitedReader.Read readSize).2.1 ∧
    (probeStep st).2.limitedReader = (st.limitedReader.Read readSize).2.2 ∧
    (probeStep st).2.beginBody = st.beginBody ++ (st.limitedReader.Read readSize).1 := by
  unfold probeStep
  dsimp only
  by_cases h0 : (st.limitedReader.Read readSize).1.length > 0
  · rw [if_pos h0]
    by_cases hf : st.found = false
    · rw [if_pos hf]
      split_ifs <;> exact ⟨rfl, rfl, rfl⟩
    · rw [if_neg hf]
      exact ⟨rfl, rfl, rfl⟩
  · rw [if_neg h0]
    refine ⟨rfl, rfl, ?_⟩
    have : (st.limitedReader.Read readSize).1 = [] := by
      apply List.eq_nil_of_length_eq_zero
      omega
    rw [this, List.append_nil]

/-- A Read of the LimitedReader on a reader without errors in store. -/
theorem LimitedReader.limitedRead_spec (l : LimitedReader) (hg : l.R.succeeds = true) :
    (l.Read readSize).1 ++ (l.Read readSize).2.2.R.bytes = l.R.bytes ∧
    (l.Read readSize).2.2.R.succeeds = true ∧
    (l.Read readSize).2.2.N = l.N - ((l.Read readSize).1.length : Int) ∧
    (0 ≤ l.N → 0 ≤ (l.Read readSize).2.2.N) ∧
    ((l.Read readSize).2.1 = ReadErr.nil → (l.Read readSize).2.2.R.size < l.R.size) ∧
    ((l.Read readSize).2.1 = ReadErr.EOF →
      l.N ≤ 0 ∧ (l.Read readSize).1 = [] ∨ (l.Read readSize).2.2.R.bytes = []) ∧
    (∀ e, (l.Read readSize).2.1 ≠ ReadErr.other e) := by
  by_cases hN : l.N ≤ 0
  · have hR : l.Read readSize = ([], ReadErr.EOF, l) := by
      unfold LimitedReader.Read
      rw [if_pos hN]
    rw [hR]
    dsimp only
    refine ⟨rfl, hg, by simp, fun h => h, fun h => ?_, fun _ => Or.inl ⟨hN, rfl⟩, fun e h => ?_⟩
    · cases h
    · cases h
  · have hR : l.Read readSize =
        ((l.R.Read (if (readSize : Int) > l.N then l.N.toNat else readSize)).1,
          (l.R.Read (if (readSize : Int) > l.N then l.N.toNat else readSize)).2.1,
          { R := (l.R.Read (if (readSize : Int) > l.N then l.N.toNat else readSize)).2.2,
            N := l.N -
              ((l.R.Read (if (readSize : Int) > l.N then l.N.toNat else readSize)).1.length
                : Int) }) := by
      unfold LimitedReader.Read
      rw [if_neg hN]
    rw [hR]
    dsimp only
    have hp : 0 < (if (readSize : Int) > l.N then l.N.toNat else readSize) := by
      by_cases hc : (readSize : Int) > l.N
      · rw [if_pos hc]; omega
      · rw [if_neg hc]; decide
    have hple : ((if (readSize : Int) > l.N then l.N.toNat else readSize : Nat) : Int) ≤ l.N := by
      by_cases hc : (readSize : Int) > l.N
      · rw [if_pos hc]; omega
      · rw [if_neg hc]; omega
    obtain ⟨h1, h2, h3, h4, h5, h6⟩ := Body.Read_spec l.R _ hp hg
    refine ⟨h1, h2, rfl, fun _ => by omega, h4, fun h => Or.inr (h5 h), h6⟩

/-- The loop of the probe on a reader without errors in store, with fuel
beyond the size of the reader: it ends on io.EOF, having moved to beginBody
the bytes within the budget N and left the others in the reader. -/
theorem probeLoop_spec (fuel : Nat) (st : ProbeState)
    (hg : st.limitedReader.R.succeeds = true) (hN : 0 ≤ st.limitedReader.N)
    (hf : st.limitedReader.R.size < fuel) :
    ∃ st1, probeLoop fuel st = some (none, st1) ∧
      st1.beginBody =
        st.beginBody ++ st.limitedReader.R.bytes.take st.limitedReader.N.toNat ∧
      st1.limitedReader.R.bytes = st.limitedReader.R.bytes.drop st.limitedReader.N.toNat ∧
      st1.limitedReader.R.succeeds = true := by
  induction fuel generalizing st with
  | zero => omega
  | succ fuel ih =>
    obtain ⟨e1, e2, e3⟩ := probeStep_spec st
    obtain ⟨h1, h2, h3, h4, h5, h6, h7⟩ := LimitedReader.limitedRead_spec st.limitedReader hg
    unfold probeLoop
    dsimp only
    cases herr : (probeStep st).1 with
    | other e =>
      rw [e1] at herr
      exact absurd herr (h7 e)
    | EOF =>
      dsimp only
      rw [e1] at herr
      refine ⟨(probeStep st).2, rfl, ?_, ?_, ?_⟩
      · rw [e3]
        rcases h6 herr with ⟨hle, hnil⟩ | hnil
        · have h0 : st.limitedReader.N.toNat = 0 := by omega
          rw [hnil, h0, List.take_zero]
        · rw [hnil, List.append_nil] at h1
          have hlen : (st.limitedReader.Read readSize).1.length ≤ st.limitedReader.N.toNat := by
            have := h4 hN
            omega
          rw [← h1, List.take_of_length_le hlen]
      · rw [e2]
        rcases h6 herr with ⟨hle, hnil⟩ | hnil
        · have h0 : st.limitedReader.N.toNat = 0 := by omega
          rw [hnil, List.nil_append] at h1
          rw [h0, List.drop_zero, h1]
        · have h1b := h1
          rw [hnil, List.append_nil] at h1b
          have hlen : (st.limitedReader.Read readSize).1.length ≤ st.limitedReader.N.toNat := by
            have := h4 hN
            omega
          rw [hnil, ← h1b, List.drop_of_length_le hlen]
      · rw [e2]; exact h2
    | nil =>
      dsimp only
      rw [e1] at herr
      have hN1 : 0 ≤ (probeStep st).2.limitedReader.N := by rw [e2]; exact h4 hN
      obtain ⟨st1, hs1, hs2, hs3, hs4⟩ := ih (probeStep st).2 (by rw [e2]; exact h2) hN1
        (by rw [e2]; have := h5 herr; omega)
      have hsplit : st.limitedReader.N.toNat =
          (st.limitedReader.Read readSize).1.length + (probeStep st).2.limitedReader.N.toNat := by
        rw [e2] at hN1 ⊢
        rw [h3] at hN1 ⊢
        omega
      refine ⟨st1, hs1, ?_, ?_, hs4⟩
      · rw [hs2, e3, e2, List.append_assoc, ← h1, hsplit, e2, List.take_append]
      · rw [hs3, e2, ← h1, hsplit, e2, List.drop_append]

/-- C18. Non-destructive probe: for every request whose body reads all
succeed and every positive maximumBodySize, readBodyWithoutConsuming returns
without error, with the bytes it matched or with none, and leaves a request
that differs from the original in its body only; the replacement body is the
reader over the bytes consumed within the budget followed by the unread
remainder, and reading it to the end yields exactly the bytes of the original
body, in order. -/
theorem readBodyWithoutConsuming_restores (r : http.Request) (maximumBodySize : Int)
    (hmax : 0 < maximumBodySize) (hreads : r.Body.succeeds = true) :
    ∃ matched body rest,
      readBodyWithoutConsuming r maximumBodySize =
        some (Except.ok matched, { r with Body := body }) ∧
      body = MultiReader (r.Body.bytes.take maximumBodySize.toNat)
        (r.Body.bytes.drop maximumBodySize.toNat) ∧
      body.bytes = r.Body.bytes ∧
      ReadAll body = some (Except.ok r.Body.bytes, rest) := by
  obtain ⟨st1, hs1, hs2, hs3, hs4⟩ := probeLoop_spec (r.Body.size + 1)
    { limitedReader := { R := r.Body, N := maximumBodySize } } hreads (le_of_lt hmax)
    (Nat.lt_succ_self _)
  obtain ⟨b1, hb1, _⟩ := ReadAll_spec st1.limitedReader.R hs4
  have hbytes : (MultiReader (r.Body.bytes.take maximumBodySize.toNat)
      (r.Body.bytes.drop maximumBodySize.toNat)).bytes = r.Body.bytes := by
    rw [MultiReader_bytes, List.take_append_drop]
  obtain ⟨b2, hb2, _⟩ := ReadAll_spec _ (MultiReader_succeeds
    (r.Body.bytes.take maximumBodySize.toNat) (r.Body.bytes.drop maximumBodySize.toNat))
  rw [hbytes] at hb2
  refine ⟨st1.matchedBytes, _, b2, ?_, rfl, hbytes, hb2⟩
  unfold readBodyWithoutConsuming
  dsimp only
  rw [hs1]
  dsimp only
  rw [hb1]
  dsimp only
  rw [hs2, hs3]
  rfl

set_option maxRecDepth 100000 in
theorem readBodyWithoutConsuming_restores_witness :
    graphQLRequest.Body.bytes = str "\x7b\"query\":\"query \x7b todos \x7b title \x7d\x7d\"\x7d" ∧
    ∃ matched body rest,
      readBodyWithoutConsuming graphQLRequest 10 =
        some (Except.ok matched, { graphQLRequest with Body := body }) ∧
      body = MultiReader (graphQLRequest.Body.bytes.take 10) (graphQLRequest.Body.bytes.drop 10) ∧
      body.bytes = graphQLRequest.Body.bytes ∧
      ReadAll body = some (Except.ok graphQLRequest.Body.bytes, rest) :=
  ⟨by decide, readBodyWithoutConsuming_restores graphQLRequest 10 (by decide) (by decide)⟩

/-! ## The operation pattern of parseGraphQLQuery -/

/-- An ASCII rune is decoded from the one byte that holds it. -/
theorem DecodeRuneInString_lt (b : UInt8) (t : GoString)
    (h : (DecodeRuneInString (b :: t)).1 < 0x80) :
    (DecodeRuneInString (b :: t)).2 = 1 ∧ (DecodeRuneInString (b :: t)).1 = b.toNat := by
  unfold DecodeRuneInString at h ⊢
  dsimp only at h ⊢
  by_cases h1 : b.toNat < 0x80
  · rw [if_pos h1] at h ⊢
    exact ⟨rfl, rfl⟩
  · rw [if_neg h1] at h ⊢
    exfalso
    by_cases h2 : 0xC2 ≤ b.toNat ∧ b.toNat ≤ 0xDF
    · rw [if_pos h2] at h
      cases t with
      | nil => dsimp only at h; exact absurd h (by decide)
      | cons b1 t1 =>
        dsimp only at h
        by_cases hc : isCont b1 = true
        · rw [if_pos hc] at h
          dsimp only at h
          omega
        · rw [if_neg hc] at h
          exact absurd h (by decide)
    · rw [if_neg h2] at h
      by_cases h3 : 0xE0 ≤ b.toNat ∧ b.toNat ≤ 0xEF
      · rw [if_pos h3] at h
        cases t with
        | nil => dsimp only at h; exact absurd h (by decide)
        | cons b1 t1 =>
          cases t1 with
          | nil => dsimp only at h; exact absurd h (by decide)
          | cons b2 t2 =>
            dsimp only at h
            by_cases hc : secondLo b.toNat ≤ b1.toNat ∧ b1.toNat ≤ secondHi b.toNat ∧
                isCont b2 = true
            · rw [if_pos hc] at h
              dsimp only at h
              have hlo := hc.1
              have hhi := hc.2.1
              unfold secondLo at hlo
              unfold secondHi at hhi
              split_ifs at hlo hhi <;> omega
            · rw [if_neg hc] at h
              exact absurd h (by decide)
      · rw [if_neg h3] at h
        by_cases h4 : 0xF0 ≤ b.toNat ∧ b.toNat ≤ 0xF4
        · rw [if_pos h4] at h
          cases t with
          | nil => dsimp only at h; exact absurd h (by decide)
          | cons b1 t1 =>
            cases t1 with
            | nil => dsimp only at h; exact absurd h (by decide)
            | cons b2 t2 =>
              cases t2 with
              | nil => dsimp only at h; exact absurd h (by decide)
              | cons b3 t3 =>
                dsimp only at h
                by_cases hc : secondLo b.toNat ≤ b1.toNat ∧ b1.toNat ≤ secondHi b.toNat ∧
                    isCont b2 = true ∧ isCont b3 = true
                · rw [if_pos hc] at h
                  dsimp only at h
                  have hlo := hc.1
                  have hhi := hc.2.1
                  unfold secondLo at hlo
                  unfold secondHi at hhi
                  split_ifs at hlo hhi <;> omega
                · rw [if_neg hc] at h
                  exact absurd h (by decide)
        · rw [if_neg h4] at h
          exact absurd h (by decide)

/-- In the runes of a string, an ASCII rune comes with the one byte that holds it. -/
theorem runeChunksAux_ascii_chunk (s : GoString) (k : Nat) :
    ∀ c ∈ runeChunksAux k s, c.1 < 0x80 → c.2 = [UInt8.ofNat c.1] := by
  induction s generalizing k with
  | nil => intro c hc; simp [runeChunksAux] at hc
  | cons b t ih =>
    cases k with
    | succ k =>
      intro c hc
      rw [runeChunksAux] at hc
      exact ih k c hc
    | zero =>
      intro c hc hlt
      rw [runeChunksAux] at hc
      rcases List.mem_cons.mp hc with hc | hc
      · subst hc
        obtain ⟨hw, hv⟩ := DecodeRuneInString_lt b t hlt
        rw [hw, hv]
        simp only [List.take_succ_cons, List.take_zero, List.cons.injEq, and_true]
        exact UInt8_eq_of_toNat _ _ (by
          show b.toNat = b.toNat % 256
          have := UInt8.toNat_lt b
          omega)
      · exact ih _ c hc hlt

theorem clsStarRun_suffix (ranges : List (Nat × Nat)) (s rest : List Chunk)
    (h : rest ∈ clsStarRun ranges s) : ∃ pre, s = pre ++ rest := by
  induction s with
  | nil =>
    simp only [clsStarRun, List.mem_singleton] at h
    exact ⟨[], by rw [h]; rfl⟩
  | cons c t ih =>
    unfold clsStarRun at h
    by_cases hc : inRanges ranges c.1 = true
    · rw [if_pos hc] at h
      rcases List.mem_append.mp h with h | h
      · obtain ⟨pre, hp⟩ := ih h
        exact ⟨c :: pre, by rw [hp]; rfl⟩
      · rw [List.mem_singleton] at h
        exact ⟨[], by rw [h]; rfl⟩
    · rw [if_neg hc] at h
      rw [List.mem_singleton] at h
      exact ⟨[], by rw [h]; rfl⟩

/-- A match leaves a suffix of the input. -/
theorem Rx.run_suffix (re : Rx) (s : List Chunk) (caps : Caps) (p : List Chunk × Caps)
    (h : p ∈ Rx.run re s caps) : ∃ pre, s = pre ++ p.1 := by
  induction re generalizing s caps p with
  | empty =>
    simp only [Rx.run, List.mem_singleton] at h
    exact ⟨[], by rw [h]; rfl⟩
  | lit c =>
    cases s with
    | nil => simp [Rx.run] at h
    | cons x t =>
      simp only [Rx.run] at h
      by_cases hx : x.1 = c
      · rw [if_pos hx, List.mem_singleton] at h
        exact ⟨[x], by rw [h]; rfl⟩
      · rw [if_neg hx] at h
        exact absurd h (List.not_mem_nil _)
  | cls ranges =>
    cases s with
    | nil => simp [Rx.run] at h
    | cons x t =>
      simp only [Rx.run] at h
      by_cases hx : inRanges ranges x.1 = true
      · rw [if_pos hx, List.mem_singleton] at h
        exact ⟨[x], by rw [h]; rfl⟩
      · rw [if_neg hx] at h
        exact absurd h (List.not_mem_nil _)
  | clsStar ranges =>
    simp only [Rx.run, List.mem_map] at h
    obtain ⟨rest, hr, hp⟩ := h
    rw [← hp]
    exact clsStarRun_suffix ranges s rest hr
  | cat a b iha ihb =>
    simp only [Rx.run, List.mem_flatMap] at h
    obtain ⟨q, hq, hp⟩ := h
    obtain ⟨pre1, h1⟩ := iha s caps q hq
    obtain ⟨pre2, h2⟩ := ihb q.1 q.2 p hp
    exact ⟨pre1 ++ pre2, by rw [h1, h2, List.append_assoc]⟩
  | alt a b iha ihb =>
    simp only [Rx.run, List.mem_append] at h
    rcases h with h | h
    · exact iha s caps p h
    · exact ihb s caps p h
  | opt a iha =>
    simp only [Rx.run, List.mem_append, List.mem_singleton] at h
    rcases h with h | h
    · exact iha s caps p h
    · exact ⟨[], by rw [h]; rfl⟩
  | group i a iha =>
    simp only [Rx.run, List.mem_map] at h
    obtain ⟨q, hq, hp⟩ := h
    rw [← hp]
    exact iha s caps q hq

/-- A word matches its runes and records nothing. -/
theorem Rx.run_word_inv (w : GoString) (s : List Chunk) (caps : Caps) (p : List Chunk × Caps)
    (h : p ∈ Rx.run (Rx.word w) s caps) :
    p.2 = caps ∧ ∃ pre, s = pre ++ p.1 ∧ pre.map Prod.fst = w.map UInt8.toNat := by
  induction w generalizing s with
  | nil =>
    simp only [Rx.word, List.foldr_nil, Rx.run, List.mem_singleton] at h
    rw [h]
    exact ⟨rfl, [], rfl, rfl⟩
  | cons c t ih =>
    have hw : Rx.word (c :: t) = Rx.cat (Rx.lit c.toNat) (Rx.word t) := rfl
    rw [hw] at h
    simp only [Rx.run, List.mem_flatMap] at h
    obtain ⟨q, hq, hp⟩ := h
    cases s with
    | nil => simp at hq
    | cons x u =>
      dsimp only at hq
      by_cases hx : x.1 = c.toNat
      · rw [if_pos hx, List.mem_singleton] at hq
        rw [hq] at hp
        obtain ⟨h1, pre, h2, h3⟩ := ih u hp
        refine ⟨h1, x :: pre, by rw [h2]; rfl, ?_⟩
        rw [List.map_cons, List.map_cons, h3, hx]
      · rw [if_neg hx] at hq
        exact absurd hq (List.not_mem_nil _)

/-- A run of ASCII runes, each with the byte that holds it, has the bytes of
its runes. -/
theorem chunkBytes_ascii (pre : List Chunk) (w : GoString)
    (hwf : ∀ c ∈ pre, c.1 < 0x80 → c.2 = [UInt8.ofNat c.1])
    (hw : ∀ b ∈ w, b.toNat < 0x80)
    (h : pre.map Prod.fst = w.map UInt8.toNat) : chunkBytes pre = w := by
  induction pre generalizing w with
  | nil =>
    cases w with
    | nil => rfl
    | cons b t => simp at h
  | cons c t ih =>
    cases w with
    | nil => simp at h
    | cons b u =>
      simp only [List.map_cons, List.cons.injEq] at h
      have hb := hw b (List.mem_cons_self _ _)
      have hc := hwf c (List.mem_cons_self _ _) (by rw [h.1]; exact hb)
      have ht := ih u (fun x hx => hwf x (List.mem_cons_of_mem _ hx))
        (fun x hx => hw x (List.mem_cons_of_mem _ hx)) h.2
      have hcb : chunkBytes (c :: t) = c.2 ++ chunkBytes t := by
        simp [chunkBytes]
      rw [hcb, ht, hc, h.1]
      have : UInt8.ofNat b.toNat = b := by
        apply UInt8_eq_of_toNat
        show b.toNat % 256 = b.toNat
        omega
      rw [this]
      rfl

theorem Rx.mem_run_cat (a b : Rx) (s : List Chunk) (caps : Caps) (p : List Chunk × Caps) :
    p ∈ Rx.run (Rx.cat a b) s caps ↔ ∃ q ∈ Rx.run a s caps, p ∈ Rx.run b q.1 q.2 := by
  simp only [Rx.run, List.mem_flatMap]

theorem Rx.mem_run_group (i : Nat) (a : Rx) (s : List Chunk) (caps : Caps)
    (p : List Chunk × Caps) :
    p ∈ Rx.run (Rx.group i a) s caps ↔
      ∃ q ∈ Rx.run a s caps,
        (q.1, (i, chunkBytes (s.take (s.length - q.1.length))) :: q.2) = p := by
  simp only [Rx.run, List.mem_map]

theorem Rx.mem_run_alt (a b : Rx) (s : List Chunk) (caps : Caps) (p : List Chunk × Caps) :
    p ∈ Rx.run (Rx.alt a b) s caps ↔ p ∈ Rx.run a s caps ∨ p ∈ Rx.run b s caps := by
  simp only [Rx.run, List.mem_append]

theorem Rx.mem_run_opt (a : Rx) (s : List Chunk) (caps : Caps) (p : List Chunk × Caps) :
    p ∈ Rx.run (Rx.opt a) s caps ↔ p ∈ Rx.run a s caps ∨ p = (s, caps) := by
  simp only [Rx.run, List.mem_append, List.mem_singleton]

theorem Rx.mem_run_clsStar (ranges : List (Nat × Nat)) (s : List Chunk) (caps : Caps)
    (p : List Chunk × Caps) (h : p ∈ Rx.run (Rx.clsStar ranges) s caps) : p.2 = caps := by
  simp only [Rx.run, List.mem_map] at h
  obtain ⟨rest, _, hp⟩ := h
  rw [← hp]

theorem Rx.mem_run_cls (ranges : List (Nat × Nat)) (s : List Chunk) (caps : Caps)
    (p : List Chunk × Caps) (h : p ∈ Rx.run (Rx.cls ranges) s caps) :
    p.2 = caps ∧ ∃ x, s = x :: p.1 := by
  cases s with
  | nil => simp [Rx.run] at h
  | cons x t =>
    simp only [Rx.run] at h
    by_cases hx : inRanges ranges x.1 = true
    · rw [if_pos hx, List.mem_singleton] at h
      rw [h]
      exact ⟨rfl, x, rfl⟩
    · rw [if_neg hx] at h
      exact absurd h (List.not_mem_nil _)

/-- The keyword alternation matches the runes of one of the three keywords
and records nothing. -/
theorem keywordRx_run (s : List Chunk) (caps : Caps) (p : List Chunk × Caps)
    (h : p ∈ Rx.run keywordRx s caps) :
    p.2 = caps ∧ ∃ pre w, s = pre ++ p.1 ∧ w ∈ [Query, Mutation, Subscription] ∧
      pre.map Prod.fst = w.map UInt8.toNat := by
  unfold keywordRx at h
  rw [Rx.mem_run_alt, Rx.mem_run_alt] at h
  rcases h with h | h | h
  · obtain ⟨h1, pre, h2, h3⟩ := Rx.run_word_inv _ s caps p h
    exact ⟨h1, pre, Query, h2, by simp, h3⟩
  · obtain ⟨h1, pre, h2, h3⟩ := Rx.run_word_inv _ s caps p h
    exact ⟨h1, pre, Mutation, h2, by simp, h3⟩
  · obtain ⟨h1, pre, h2, h3⟩ := Rx.run_word_inv _ s caps p h
    exact ⟨h1, pre, Subscription, h2, by simp, h3⟩

theorem operationRegexp_expr :
    operationRegexp.expr =
      Rx.cat (Rx.group 1 keywordRx)
        (Rx.cat (Rx.clsStar spaceClass)
          (Rx.cat (Rx.opt (Rx.group 2 (Rx.cat (Rx.cls identStartClass) (Rx.clsStar identClass))))
            (Rx.cat (Rx.clsStar spaceClass)
              (Rx.cls [(0x28, 0x28), (0x40, 0x40), (0x7B, 0x7B)])))) := rfl

/-- A match of the operation pattern: it starts with the runes of a keyword,
which are its first submatch, and covers at least one more rune. -/
theorem operationRegexp_run (s : List Chunk) (p : List Chunk × Caps)
    (h : p ∈ Rx.run operationRegexp.expr s []) :
    ∃ kw w mid, s = kw ++ mid ++ p.1 ∧ mid ≠ [] ∧ w ∈ [Query, Mutation, Subscription] ∧
      kw.map Prod.fst = w.map UInt8.toNat ∧ p.2.lookup 1 = some (chunkBytes kw) := by
  rw [operationRegexp_expr, Rx.mem_run_cat] at h
  obtain ⟨q1, hq1, h⟩ := h
  rw [Rx.mem_run_group] at hq1
  obtain ⟨q0, hq0, hq1⟩ := hq1
  obtain ⟨hc0, kw, w, hs0, hw, hkw⟩ := keywordRx_run s [] q0 hq0
  have htake : s.take (s.length - q0.1.length) = kw := by
    rw [hs0, List.length_append, Nat.add_sub_cancel, List.take_left]
  rw [htake, hc0] at hq1
  rw [Rx.mem_run_cat] at h
  obtain ⟨q2, hq2, h⟩ := h
  have hc2 := Rx.mem_run_clsStar _ _ _ _ hq2
  obtain ⟨pre2, hs2⟩ := Rx.run_suffix _ _ _ _ hq2
  rw [Rx.mem_run_cat] at h
  obtain ⟨q3, hq3, h⟩ := h
  obtain ⟨pre3, hs3⟩ := Rx.run_suffix _ _ _ _ hq3
  have hc3 : q3.2.lookup 1 = some (chunkBytes kw) := by
    rw [Rx.mem_run_opt] at hq3
    rcases hq3 with hq3 | hq3
    · rw [Rx.mem_run_group] at hq3
      obtain ⟨q, hq, hq3⟩ := hq3
      rw [Rx.mem_run_cat] at hq
      obtain ⟨qa, hqa, hq⟩ := hq
      have ha := (Rx.mem_run_cls _ _ _ _ hqa).1
      have hb := Rx.mem_run_clsStar _ _ _ _ hq
      rw [← hq3]
      dsimp only
      rw [hb, ha, hc2, ← hq1]
      rfl
    · rw [hq3]
      dsimp only
      rw [hc2, ← hq1]
      rfl
  rw [Rx.mem_run_cat] at h
  obtain ⟨q4, hq4, h⟩ := h
  have hc4 := Rx.mem_run_clsStar _ _ _ _ hq4
  obtain ⟨pre4, hs4⟩ := Rx.run_suffix _ _ _ _ hq4
  obtain ⟨hc5, x, hs5⟩ := Rx.mem_run_cls _ _ _ _ h
  refine ⟨kw, w, pre2 ++ pre3 ++ pre4 ++ [x], ?_, by simp, hw, hkw, ?_⟩
  · have e1 : q1.1 = q0.1 := by rw [← hq1]
    rw [hs0, ← e1, hs2, hs3, hs4, hs5]
    simp
  · rw [hc5, hc4, hc3]

theorem nonOverlappingMatches_skip (re : SubmatchRegexp) (a b : List Chunk) :
    nonOverlappingMatches re a.length (a ++ b) = nonOverlappingMatches re 0 b := by
  induction a with
  | nil => rfl
  | cons x t ih =>
    rw [List.length_cons, List.cons_append, nonOverlappingMatches]
    exact ih

/-- What a search returns: a position of the input and a match that starts there. -/
theorem Rx.search_spec (e : Rx) (pos start rest : List Chunk) (caps : Caps)
    (h : Rx.search e pos = some (start, rest, caps)) :
    (∃ pre, pos = pre ++ start) ∧ (rest, caps) ∈ Rx.run e start [] := by
  induction pos with
  | nil =>
    unfold Rx.search at h
    cases hr : Rx.run e [] [] with
    | nil => rw [hr] at h; cases h
    | cons p t =>
      rw [hr] at h
      simp only [Option.some.injEq, Prod.mk.injEq] at h
      obtain ⟨h1, h2, h3⟩ := h
      subst h1
      refine ⟨⟨[], rfl⟩, ?_⟩
      rw [hr, ← h2, ← h3]
      exact List.mem_cons_self _ _
  | cons c t ih =>
    unfold Rx.search at h
    cases hr : Rx.run e (c :: t) [] with
    | nil =>
      rw [hr] at h
      obtain ⟨⟨pre, hp⟩, hm⟩ := ih h
      exact ⟨⟨c :: pre, by rw [hp]; rfl⟩, hm⟩
    | cons p u =>
      rw [hr] at h
      simp only [Option.some.injEq, Prod.mk.injEq] at h
      obtain ⟨h1, h2, h3⟩ := h
      subst h1
      refine ⟨⟨[], rfl⟩, ?_⟩
      rw [hr, ← h2, ← h3]
      exact List.mem_cons_self _ _

/-- For an expression whose matches cover at least one rune, the scan for
non-overlapping matches is a search followed by the scan of what the match
leaves. -/
theorem nonOverlappingMatches_search (re : SubmatchRegexp)
    (hne : ∀ s p, p ∈ Rx.run re.expr s [] → p.1.length < s.length) (pos : List Chunk) :
    nonOverlappingMatches re 0 pos =
      match Rx.search re.expr pos with
      | none => []
      | some (start, rest, caps) =>
        submatches re.NumSubexp start rest caps :: nonOverlappingMatches re 0 rest := by
  induction pos with
  | nil =>
    have hr : Rx.run re.expr [] [] = [] := by
      cases hr : Rx.run re.expr [] [] with
      | nil => rfl
      | cons p t =>
        have := hne [] p (by rw [hr]; exact List.mem_cons_self _ _)
        simp at this
    unfold Rx.search
    rw [hr]
    rfl
  | cons c t ih =>
    unfold Rx.search
    rw [nonOverlappingMatches]
    cases hr : Rx.run re.expr (c :: t) [] with
    | nil =>
      dsimp only
      exact ih
    | cons p u =>
      dsimp only
      have hmem : p ∈ Rx.run re.expr (c :: t) [] := by rw [hr]; exact List.mem_cons_self _ _
      have hlt := hne _ p hmem
      obtain ⟨pre, hpre⟩ := Rx.run_suffix _ _ _ _ hmem
      cases pre with
      | nil =>
        rw [List.nil_append] at hpre
        rw [← hpre] at hlt
        omega
      | cons x pre1 =>
        rw [List.cons_append, List.cons.injEq] at hpre
        have hlen : (c :: t).length - p.1.length - 1 = pre1.length := by
          rw [List.length_cons, hpre.2, List.length_append]
          omega
        rw [hlen]
        conv_lhs => rw [hpre.2]
        rw [nonOverlappingMatches_skip, ← hpre.2]

/-- The loop of FindAllStringSubmatch, for an expression whose matches cover
at least one rune and fuel beyond the length of the input, delivers the
non-overlapping matches. -/
theorem allMatches_eq (re : SubmatchRegexp)
    (hne : ∀ s p, p ∈ Rx.run re.expr s [] → p.1.length < s.length)
    (fuel : Nat) (pos : List Chunk) (prev : Option Nat) (hf : pos.length < fuel) :
    allMatches re fuel pos prev = nonOverlappingMatches re 0 pos := by
  induction fuel generalizing pos prev with
  | zero => omega
  | succ fuel ih =>
    rw [nonOverlappingMatches_search re hne pos]
    unfold allMatches
    cases hs : Rx.search re.expr pos with
    | none => rfl
    | some r =>
      obtain ⟨start, rest, caps⟩ := r
      dsimp only
      obtain ⟨⟨pre, hpre⟩, hmem⟩ := Rx.search_spec _ _ _ _ _ hs
      have hlt := hne _ _ hmem
      dsimp only at hlt
      have hpos : start.length ≤ pos.length := by
        rw [hpre, List.length_append]
        omega
      have h1 : ¬ rest.length = pos.length := by omega
      rw [if_neg h1, ih rest _ (by omega)]
      simp [h1]

theorem operationRegexp_nonempty (s : List Chunk) (p : List Chunk × Caps)
    (h : p ∈ Rx.run operationRegexp.expr s []) : p.1.length < s.length := by
  obtain ⟨kw, w, mid, hs, hmid, _, _, _⟩ := operationRegexp_run s p h
  rw [hs, List.length_append, List.length_append]
  have : 0 < mid.length := List.length_pos.mpr hmid
  omega

theorem FindAllStringSubmatch_operation (body : GoString) :
    operationRegexp.FindAllStringSubmatch body =
      nonOverlappingMatches operationRegexp 0 (runeChunks body) :=
  allMatches_eq operationRegexp operationRegexp_nonempty _ _ _ (by omega)

/-- The result of parseGraphQLQuery when the operation pattern matches. -/
theorem parseGraphQLQuery_of_matches (body : GoString) (m : List GoString)
    (tail : List (List GoString)) (hm3 : m.length = 3)
    (h : operationRegexp.FindAllStringSubmatch body = m :: tail) :
    parseGraphQLQuery body =
      { Count := ((m :: tail).length : Int), Type_ := m.getD 1 [], Name := m.getD 2 [] } := by
  have hi1 : operationRegexp.SubexpIndex (str "operationType") = 1 := by decide
  have hi2 : operationRegexp.SubexpIndex (str "operationName") = 2 := by decide
  unfold parseGraphQLQuery
  dsimp only
  rw [h, hi1, hi2]
  have hpos : ((m :: tail).length : Int) > 0 := by
    rw [List.length_cons]
    omega
  rw [if_pos hpos]
  have hhead : (m :: tail).headD [] = m := rfl
  rw [hhead, hm3]
  rw [if_pos (by decide), if_pos (by decide)]
  rfl

/-- The first submatch of a match of the operation pattern in the runes of a
string is one of the three keywords. -/
theorem operationRegexp_keyword (body : GoString) (start rest : List Chunk) (caps : Caps)
    (hs : Rx.search operationRegexp.expr (runeChunks body) = some (start, rest, caps)) :
    (submatches operationRegexp.NumSubexp start rest caps).length = 3 ∧
    (submatches operationRegexp.NumSubexp start rest caps).getD 1 [] ∈
      [Query, Mutation, Subscription] := by
  obtain ⟨⟨pre, hpre⟩, hmem⟩ := Rx.search_spec _ _ _ _ _ hs
  obtain ⟨kw, w, mid, hst, _, hw, hkw, hl⟩ := operationRegexp_run start (rest, caps) hmem
  dsimp only at hst hl
  have hwf : ∀ c ∈ kw, c.1 < 0x80 → c.2 = [UInt8.ofNat c.1] := by
    intro c hc
    apply runeChunksAux_ascii_chunk body 0 c
    show c ∈ runeChunks body
    rw [hpre, hst]
    simp [hc]
  have hascii : ∀ b ∈ w, b.toNat < 0x80 := by
    simp only [List.mem_cons, List.mem_singleton, List.not_mem_nil, or_false] at hw
    rcases hw with hw | hw | hw <;> (subst hw; decide)
  have hcb := chunkBytes_ascii kw w hwf hascii hkw
  have hsub : submatches operationRegexp.NumSubexp start rest caps =
      [chunkBytes (start.take (start.length - rest.length)),
        (caps.lookup 1).getD [], (caps.lookup 2).getD []] := rfl
  rw [hsub, hl, hcb]
  exact ⟨rfl, hw⟩

/-- C19. parseGraphQLQuery: for every input in which the operation pattern
matches at least once, the matches FindAllStringSubmatch delivers are the
non-overlapping matches of the pattern, Count is their number, Type is the
first submatch of the first match, which is one of the keywords query,
mutation and subscription, and Name is its second submatch, the identifier
(empty when the first match has none). -/
theorem parseGraphQLQuery_operation (body : GoString)
    (hm : nonOverlappingMatches operationRegexp 0 (runeChunks body) ≠ []) :
    operationRegexp.FindAllStringSubmatch body =
      nonOverlappingMatches operationRegexp 0 (runeChunks body) ∧
    parseGraphQLQuery body =
      { Count := ((nonOverlappingMatches operationRegexp 0 (runeChunks body)).length : Int)
        Type_ := ((nonOverlappingMatches operationRegexp 0 (runeChunks body)).headD []).getD 1 []
        Name := ((nonOverlappingMatches operationRegexp 0 (runeChunks body)).headD []).getD 2 [] } ∧
    (parseGraphQLQuery body).Type_ ∈ [Query, Mutation, Subscription] ∧
    (parseGraphQLQuery body).Count ≥ 1 := by
  have hall := FindAllStringSubmatch_operation body
  have hsearch := nonOverlappingMatches_search operationRegexp operationRegexp_nonempty
    (runeChunks body)
  cases hs : Rx.search operationRegexp.expr (runeChunks body) with
  | none =>
    rw [hs] at hsearch
    exact absurd hsearch hm
  | some r =>
    obtain ⟨start, rest, caps⟩ := r
    rw [hs] at hsearch
    dsimp only at hsearch
    obtain ⟨h3, hk⟩ := operationRegexp_keyword body start rest caps hs
    have hp := parseGraphQLQuery_of_matches body _ _ h3 (hall.trans hsearch)
    refine ⟨hall, ?_, ?_, ?_⟩
    · rw [hp, hsearch]
      rfl
    · rw [hp]
      exact hk
    · rw [hp]
      dsimp only
      rw [List.length_cons]
      omega

set_option maxRecDepth 1000000 in
set_option maxHeartbeats 4000000 in
theorem parseGraphQLQuery_operation_witness :
    nonOverlappingMatches operationRegexp 0 (runeChunks loginBody) ≠ [] ∧
    parseGraphQLQuery loginBody = { Count := 1, Type_ := Mutation, Name := str "LoginV2" } ∧
    parseGraphQLQuery fourOperationsBody = { Count := 4, Type_ := Mutation, Name := str "One" } :=
  ⟨by decide,
   (parseGraphQLQuery_operation loginBody (by decide)).2.1.trans (by decide),
   (parseGraphQLQuery_operation fourOperationsBody (by decide)).2.1.trans (by decide)⟩

/-! ## Referer restoration without dd_referrer -/

/-- Without dd_referrer in the query, restoreReferrer leaves the request as it is. -/
theorem restoreReferrer_absent (r : http.Request)
    (hq : r.URL.Query.Has (str "dd_referrer") = false) : restoreReferrer r = (none, r) := by
  unfold restoreReferrer
  dsimp only
  rw [if_neg (by rw [hq]; exact Bool.false_ne_true)]

/-- The probe of the body changes the body of the request only. -/
theorem readBodyWithoutConsuming_frame (r r1 : http.Request) (maximumBodySize : Int)
    (res : Except GoString (Option GoString))
    (h : readBodyWithoutConsuming r maximumBodySize = some (res, r1)) :
    { r1 with Body := r.Body } = r := by
  unfold readBodyWithoutConsuming at h
  dsimp only at h
  split at h
  · cases h
  · simp only [Option.some.injEq, Prod.mk.injEq] at h
    rw [← h.2]
  · split at h
    · cases h
    · simp only [Option.some.injEq, Prod.mk.injEq] at h
      rw [← h.2]
    · simp only [Option.some.injEq, Prod.mk.injEq] at h
      rw [← h.2]

theorem getGraphQLData_frame (r r1 : http.Request) (maximumBodySize : Int)
    (res : Except GoString GraphQLData)
    (h : getGraphQLData r maximumBodySize = some (res, r1)) :
    { r1 with Body := r.Body } = r := by
  unfold getGraphQLData at h
  split at h
  · cases h
  · rename_i err r2 hr
    simp only [Option.some.injEq, Prod.mk.injEq] at h
    rw [← h.2]
    exact readBodyWithoutConsuming_frame r r2 maximumBodySize _ hr
  · rename_i r2 hr
    simp only [Option.some.injEq, Prod.mk.injEq] at h
    rw [← h.2]
    exact readBodyWithoutConsuming_frame r r2 maximumBodySize _ hr
  · rename_i body r2 hr
    simp only [Option.some.injEq, Prod.mk.injEq] at h
    rw [← h.2]
    exact readBodyWithoutConsuming_frame r r2 maximumBodySize _ hr

/-- The GraphQL stage of buildRequest, with the probe of the package, changes
the body of the request only. -/
theorem graphQLStage_frame (ulib : UrlLib) (c : Client) (p : ProtectionAPIRequestPayload)
    (r : http.Request) :
    { (graphQLStage (sourceProbes ulib) c p r).2 with Body := r.Body } = r := by
  unfold graphQLStage
  by_cases hg : c.EnableGraphQLSupport = true ∧ isGraphQLRequest r = true
  · rw [if_pos hg]
    have hprobe : { ((sourceProbes ulib).getGraphQLData r c.MaximumBodySize).2 with
        Body := r.Body } = r := by
      show { (match getGraphQLData r c.MaximumBodySize with
        | some (Except.ok gqlData, r) => (some gqlData, r)
        | some (Except.error _, r) => (none, r)
        | none => (none, r)).2 with Body := r.Body } = r
      split
      · rename_i gqlData r2 hr
        exact getGraphQLData_frame r r2 _ _ hr
      · rename_i err r2 hr
        exact getGraphQLData_frame r r2 _ _ hr
      · rfl
    cases hres : (sourceProbes ulib).getGraphQLData r c.MaximumBodySize with
    | mk d r2 =>
      rw [hres] at hprobe
      dsimp only at hprobe
      cases d with
      | none => exact hprobe
      | some gqlData =>
        dsimp only
        split_ifs
        · exact hprobe
        · exact hprobe
  · rw [if_neg hg]

/-- C20. For every client, in particular with referrer restoration enabled,
and every request whose URL query has no dd_referrer parameter: restoreReferrer
returns no error and the request as it was, the Referer restoration stage of
buildRequest (isMatchingReferrer, then restoreReferrer when it reports a
match) leaves the request as it was, and the request that buildRequest leaves
has the same headers, hence the same Referer header, and the same URL (path
and raw query); it differs from the original in its body at most. -/
theorem buildRequest_without_dd_referrer (lib : Lib) (ulib : UrlLib) (c : Client)
    (r : http.Request) (hq : r.URL.Query.Has (str "dd_referrer") = false) :
    restoreReferrer r = (none, r) ∧
    restoreReferrerStage (sourceProbes ulib) c r = r ∧
    { (buildRequest lib (sourceProbes ulib) c r).2 with Body := r.Body } = r ∧
    (buildRequest lib (sourceProbes ulib) c r).2.Header = r.Header ∧
    Header.Get (buildRequest lib (sourceProbes ulib) c r).2.Header (str "Referer") =
      Header.Get r.Header (str "Referer") ∧
    (buildRequest lib (sourceProbes ulib) c r).2.URL = r.URL := by
  have h1 := restoreReferrer_absent r hq
  have h2 : restoreReferrerStage (sourceProbes ulib) c r = r := by
    unfold restoreReferrerStage
    by_cases hen : c.EnableReferrerRestoration = true
    · rw [if_pos hen]
      cases (sourceProbes ulib).isMatchingReferrer r with
      | none => rfl
      | some isMatching =>
        dsimp only
        by_cases hm : isMatching = true
        · rw [if_pos hm]
          show (restoreReferrer r).2 = r
          rw [h1]
        · rw [if_neg hm]
    · rw [if_neg hen]
  have h3 : { (buildRequest lib (sourceProbes ulib) c r).2 with Body := r.Body } = r := by
    unfold buildRequest buildPayload
    cases getIP lib r with
    | error err => rfl
    | ok ip =>
      dsimp only
      rw [h2]
      exact graphQLStage_frame ulib c _ r
  have h4 : (buildRequest lib (sourceProbes ulib) c r).2.Header = r.Header := by
    have h := congrArg (fun x : http.Request => x.Header) h3
    exact h
  have h5 : (buildRequest lib (sourceProbes ulib) c r).2.URL = r.URL := by
    have h := congrArg (fun x : http.Request => x.URL) h3
    exact h
  refine ⟨h1, h2, h3, h4, ?_, h5⟩
  rw [h4]

set_option maxRecDepth 100000 in
theorem buildRequest_without_dd_referrer_witness :
    ParseQuery requestWithoutDDReferrer.URL.RawQuery =
      [(str "query", [str "params"]), (str "toto", [str "tata"])] ∧
    restoreReferrer requestWithoutDDReferrer = (none, requestWithoutDDReferrer) ∧
    Header.Get (buildRequest (sampleLib (DoResult.ok allowResponse)) (sourceProbes sampleUrlLib)
      { sampleClient with EnableReferrerRestoration := true } requestWithoutDDReferrer).2.Header
      (str "Referer") = str "Bar" ∧
    (buildRequest (sampleLib (DoResult.ok allowResponse)) (sourceProbes sampleUrlLib)
      { sampleClient with EnableReferrerRestoration := true } requestWithoutDDReferrer).2.URL =
      { Path := str "/foo", RawQuery := str "query=params&toto=tata" } :=
  ⟨by decide,
   (buildRequest_without_dd_referrer (sampleLib (DoResult.ok allowResponse)) sampleUrlLib
      { sampleClient with EnableReferrerRestoration := true } requestWithoutDDReferrer
      (by decide)).1,
   (buildRequest_without_dd_referrer (sampleLib (DoResult.ok allowResponse)) sampleUrlLib
      { sampleClient with EnableReferrerRestoration := true } requestWithoutDDReferrer
      (by decide)).2.2.2.2.1,
   (buildRequest_without_dd_referrer (sampleLib (DoResult.ok allowResponse)) sampleUrlLib
      { sampleClient with EnableReferrerRestoration := true } requestWithoutDDReferrer
      (by decide)).2.2.2.2.2⟩

/-! ## The legacy truncation -/

/-- The two catalogs give the same limit to a key they list, and 0 and -1 to
any other key. -/
theorem getApiKeyLength_getTruncationSize (k : ApiFields) :
    (getTruncationSize k, utils.getApiKeyLength k) ∈
      [((8 : Int), (8 : Int)), (16, 16), (32, 32), (64, 64), (128, 128), (256, 256), (512, 512),
        (-512, -512), (768, 768), (1024, 1024), (2048, 2048), (0, -1)] := by
  unfold getTruncationSize utils.getApiKeyLength
  by_cases h1 : k ∈ [SecCHDeviceMemory, SecCHUAMobile, SecFetchUser]
  · rw [if_pos h1, if_pos h1]; simp
  rw [if_neg h1, if_neg h1]
  by_cases h2 : k ∈ [SecCHUAArch]
  · rw [if_pos h2, if_pos h2]; simp
  rw [if_neg h2, if_neg h2]
  by_cases h3 : k ∈ [SecCHUAPlatform, SecFetchDest, SecFetchMode]
  · rw [if_pos h3, if_pos h3]; simp
  rw [if_neg h3, if_neg h3]
  by_cases h4 : k ∈ [ContentType, SecFetchSite]
  · rw [if_pos h4, if_pos h4]; simp
  rw [if_neg h4, if_neg h4]
  by_cases h5 : k ∈ [CacheControl, ClientID, XRequestedWith, AcceptCharset, AcceptEncoding,
      Pragma, Connection, From, SecCHUA, SecCHUAModel, TrueClientIP, XRealIP,
      GraphQLOperationName]
  · rw [if_pos h5, if_pos h5]; simp
  rw [if_neg h5, if_neg h5]
  by_cases h6 : k ∈ [AcceptLanguage, SecCHUAFullVersionList, Via]
  · rw [if_pos h6, if_pos h6]; simp
  rw [if_neg h6, if_neg h6]
  by_cases h7 : k ∈ [HeadersList, Origin, ServerHostname, ServerName, Accept, Host]
  · rw [if_pos h7, if_pos h7]; simp
  rw [if_neg h7, if_neg h7]
  by_cases h8 : k ∈ [XForwardedForIP]
  · rw [if_pos h8, if_pos h8]; simp
  rw [if_neg h8, if_neg h8]
  by_cases h9 : k ∈ [UserAgent]
  · rw [if_pos h9, if_pos h9]; simp
  rw [if_neg h9, if_neg h9]
  by_cases h10 : k ∈ [Referer]
  · rw [if_pos h10, if_pos h10]; simp
  rw [if_neg h10, if_neg h10]
  by_cases h11 : k ∈ [Request]
  · rw [if_pos h11, if_pos h11]; simp
  rw [if_neg h11, if_neg h11]
  simp

/-- C28. The current truncation and the legacy one are the same function: for
every field key k and every string v, truncateValue k v equals
utils.GetApiKeyValue k v, although for an identifier absent from the catalog
getTruncationSize reports 0 and getApiKeyLength reports -1 (for every other
identifier the two report the same limit). -/
theorem truncateValue_eq_GetApiKeyValue (k : ApiFields) (v : GoString) :
    truncateValue k v = utils.GetApiKeyValue k v ∧
    (getTruncationSize k = 0 ↔ utils.getApiKeyLength k = -1) ∧
    (getTruncationSize k ≠ 0 → utils.getApiKeyLength k = getTruncationSize k) := by
  have h := getApiKeyLength_getTruncationSize k
  simp only [List.mem_cons, Prod.mk.injEq, List.mem_singleton, List.not_mem_nil, or_false] at h
  refine ⟨?_, ?_, ?_⟩
  · unfold truncateValue utils.GetApiKeyValue
    by_cases hv : v = []
    · rw [if_pos hv, if_pos hv]
    · rw [if_neg hv, if_neg hv]
      dsimp only
      rcases h with h | h | h | h | h | h | h | h | h | h | h | h <;>
        · rw [h.1, h.2]
          simp
  · rcases h with h | h | h | h | h | h | h | h | h | h | h | h <;>
      · rw [h.1, h.2]
        simp
  · rcases h with h | h | h | h | h | h | h | h | h | h | h | h <;>
      · rw [h.1, h.2]
        simp

/-! ## The request inspectors -/

theorem Index_singleton (s : GoString) (c : UInt8) :
    (cut s [c]).1 = s.takeWhile (fun b => !(b == c)) := by
  have key : ∀ s : GoString,
      (match Index s [c] with
        | some i => s.take i
        | none => s) = s.takeWhile (fun b => !(b == c)) := by
    intro s
    induction s with
    | nil => simp [Index]
    | cons b t ih =>
      unfold Index
      by_cases hb : c = b
      · subst hb
        simp [List.isPrefixOf]
      · have hb2 : ¬ b = c := fun h => hb h.symm
        have hp : ¬ ([c].isPrefixOf (b :: t) = true) := by
          simp [List.isPrefixOf, hb]
        rw [if_neg hp]
        rw [List.takeWhile_cons_of_pos (by simp [hb2])]
        rw [← ih]
        cases Index t [c] with
        | none => rfl
        | some i => rfl
  unfold cut
  rw [← key s]
  cases Index s [c] with
  | none => rfl
  | some i => rfl

theorem takeWhile_takeWhile_ne (s : GoString) (c d : UInt8) :
    (s.takeWhile (fun b => !(b == c))).takeWhile (fun b => !(b == d)) =
      s.takeWhile (fun b => !(b == c) && !(b == d)) := by
  induction s with
  | nil => rfl
  | cons b t ih =>
    by_cases hc : b = c
    · subst hc
      simp
    · by_cases hd : b = d
      · subst hd
        simp [hc]
      · simp [hc, hd, ih]

/-- The result of getURI: the host of the URL, then the path up to its first
question mark or number sign. -/
theorem getURI_eq (r : http.Request) :
    getURI r = r.URL.Host ++ r.URL.Path.takeWhile (fun b => !(b == 0x3F) && !(b == 0x23)) := by
  unfold getURI
  dsimp only
  have h1 := Index_singleton r.URL.Path 0x3F
  have hq : str "?" = [0x3F] := by decide
  have hn : str "#" = [0x23] := by decide
  rw [hq, hn, h1, Index_singleton, takeWhile_takeWhile_ne]

/-- C23. getURI drops the query and fragment: for every request, getURI
returns the host of the URL followed by the longest prefix of the path that
contains neither a question mark nor a number sign: that prefix holds neither
character, and every prefix of the path that holds neither is a prefix of it. -/
theorem getURI_longest_prefix (r : http.Request) :
    ∃ p : GoString, getURI r = r.URL.Host ++ p ∧ p <+: r.URL.Path ∧
      (0x3F : UInt8) ∉ p ∧ (0x23 : UInt8) ∉ p ∧
      ∀ q : GoString, q <+: r.URL.Path → (0x3F : UInt8) ∉ q → (0x23 : UInt8) ∉ q → q <+: p := by
  refine ⟨r.URL.Path.takeWhile (fun b => !(b == 0x3F) && !(b == 0x23)), getURI_eq r,
    List.takeWhile_prefix _, ?_, ?_, ?_⟩
  · intro h
    have := List.mem_takeWhile_imp h
    simp at this
  · intro h
    have := List.mem_takeWhile_imp h
    simp at this
  · intro q hq h1 h2
    obtain ⟨t, ht⟩ := hq
    rw [← ht]
    have hall : ∀ x ∈ q, (!(x == (0x3F : UInt8)) && !(x == (0x23 : UInt8))) = true := by
      intro x hx
      have e1 : x ≠ 0x3F := fun e => h1 (e ▸ hx)
      have e2 : x ≠ 0x23 := fun e => h2 (e ▸ hx)
      simp [e1, e2]
    clear ht h1 h2
    induction q with
    | nil => exact List.nil_prefix
    | cons a u ih =>
      have ha := hall a (List.mem_cons_self _ _)
      rw [List.cons_append, List.takeWhile_cons]
      simp only [ha, if_true]
      exact (List.prefix_cons_inj a).mpr (ih (fun x hx => hall x (List.mem_cons_of_mem _ hx)))

theorem getURI_longest_prefix_witness :
    getURI { URL := { Host := str "example.com", Path := str "/ping", RawQuery := str "foo=bar" } } =
      str "example.com/ping" ∧
    getURI { URL := { Host := str "example.com", Path := str "/ping", Fragment := str "fragment" } } =
      str "example.com/ping" ∧
    getURI { URL := { Host := str "example.com", Path := str "/ping?encoded=queryParams" } } =
      str "example.com/ping" ∧
    getURI { URL := { Host := str "example.com", Path := str "/ping#encodedFragment" } } =
      str "example.com/ping" ∧
    getURI { URL := { Host := str "example.com", Path := str "" } } = str "example.com" ∧
    ∃ p : GoString,
      getURI { URL := { Host := str "example.com", Path := str "/ping?a#b" } } =
        str "example.com" ++ p ∧ p <+: str "/ping?a#b" ∧
      (0x3F : UInt8) ∉ p ∧ (0x23 : UInt8) ∉ p ∧
      ∀ q : GoString, q <+: str "/ping?a#b" → (0x3F : UInt8) ∉ q → (0x23 : UInt8) ∉ q → q <+: p :=
  ⟨by decide, by decide, by decide, by decide, by decide,
    getURI_longest_prefix { URL := { Host := str "example.com", Path := str "/ping?a#b" } }⟩

/-! ## The protocol of the request -/

/-- A value that equals http or https up to the case of its ASCII letters
compares equal to it under strings.EqualFold. -/
theorem EqualFold_http (v : GoString)
    (h : v.map toLowerASCII = str "http" ∨ v.map toLowerASCII = str "https") :
    EqualFold v (str "http") = true ∨ EqualFold v (str "https") = true := by
  rcases h with h | h
  · left
    have hv : v.all validHeaderFieldByte = true := by
      rw [← all_map_toLowerASCII, h]
      decide
    rw [EqualFold_valid v _ hv, h]
    decide
  · right
    have hv : v.all validHeaderFieldByte = true := by
      rw [← all_map_toLowerASCII, h]
      decide
    rw [EqualFold_valid v _ hv, h]
    decide

/-- C24. getProtocol: for every request, if the X-Forwarded-Proto header
compares equal to http or to https under strings.EqualFold (as every spelling
of them in upper and lower case letters does), the result is that header
value, whatever the TLS state; otherwise the result is https when the request
has a TLS connection state and http when it has none. -/
theorem getProtocol_spec (r : http.Request) :
    ((EqualFold (Header.Get r.Header (str "X-Forwarded-Proto")) (str "http") = true ∨
        EqualFold (Header.Get r.Header (str "X-Forwarded-Proto")) (str "https") = true) →
      getProtocol r = Header.Get r.Header (str "X-Forwarded-Proto")) ∧
    (¬ (EqualFold (Header.Get r.Header (str "X-Forwarded-Proto")) (str "http") = true ∨
        EqualFold (Header.Get r.Header (str "X-Forwarded-Proto")) (str "https") = true) →
      r.TLS = true → getProtocol r = str "https") ∧
    (¬ (EqualFold (Header.Get r.Header (str "X-Forwarded-Proto")) (str "http") = true ∨
        EqualFold (Header.Get r.Header (str "X-Forwarded-Proto")) (str "https") = true) →
      r.TLS = false → getProtocol r = str "http") ∧
    (∀ v : GoString, v.map toLowerASCII = str "http" ∨ v.map toLowerASCII = str "https" →
      EqualFold v (str "http") = true ∨ EqualFold v (str "https") = true) := by
  refine ⟨?_, ?_, ?_, EqualFold_http⟩
  · intro h
    unfold getProtocol
    dsimp only
    rw [if_pos h]
  · intro h ht
    unfold getProtocol
    dsimp only
    rw [if_neg h, if_pos ht]
  · intro h ht
    unfold getProtocol
    dsimp only
    rw [if_neg h, if_neg (by rw [ht]; exact Bool.false_ne_true)]

theorem getProtocol_spec_witness :
    getProtocol { sampleRequest with
      Header := [(str "X-Forwarded-Proto", [str "https"])], TLS := false } = str "https" ∧
    getProtocol { sampleRequest with
      Header := [(str "X-Forwarded-Proto", [str "http"])], TLS := true } = str "http" ∧
    getProtocol { sampleRequest with TLS := true } = str "https" ∧
    getProtocol sampleRequest = str "http" :=
  ⟨(getProtocol_spec { sampleRequest with
      Header := [(str "X-Forwarded-Proto", [str "https"])], TLS := false }).1
      (Or.inr (by decide)),
   (getProtocol_spec { sampleRequest with
      Header := [(str "X-Forwarded-Proto", [str "http"])], TLS := true }).1
      (Or.inl (by decide)),
   (getProtocol_spec { sampleRequest with TLS := true }).2.1 (by decide) rfl,
   (getProtocol_spec sampleRequest).2.2.1 (by decide) rfl⟩

/-- C22, the code: getURI takes the host from the URL of the request and reads
neither the Host field nor the headers, and handler does not read the option
UseXForwardedHost: for the request to www.example.com that carries
X-Forwarded-Host: forwarded.example.com, the URI is /ping with the option
enabled or not. -/
theorem getURI_ignores_forwarded_host :
    (∀ (r : http.Request) (h : Header) (host : GoString),
      getURI { r with Header := h, Host := host } = getURI r) ∧
    (∀ (lib : Lib) (probes : Probes) (c : Client) (w : ResponseWriter) (r : http.Request)
        (next : Option Handler) (b : Bool),
      handler lib probes { c with UseXForwardedHost := b } w r next =
        handler lib probes c w r next) ∧
    forwardedRequest.Host = str "www.example.com" ∧
    getHost forwardedRequest = str "forwarded.example.com" ∧
    getURI forwardedRequest = str "/ping" :=
  ⟨fun _ _ _ => rfl, fun _ _ _ _ _ _ _ => rfl, by decide, by decide, by decide⟩

/-- The fields of the payload that are not tagged omitempty. -/
theorem taggedFields_always (p : ProtectionAPIRequestPayload) :
    ∀ f ∈ taggedFields p, f.omitempty = false →
      f.name ∈ [str "Key", str "RequestModuleName", str "IP", str "Request"] := by
  intro f hf
  simp only [taggedFields, List.mem_cons, List.mem_singleton, List.not_mem_nil, or_false] at hf
  rcases hf with rfl | rfl | rfl | rfl | rfl | rfl | rfl | rfl | rfl | rfl | rfl | rfl | rfl | rfl | rfl | rfl | rfl | rfl | rfl | rfl | rfl | rfl | rfl | rfl | rfl | rfl | rfl | rfl | rfl | rfl | rfl | rfl | rfl | rfl | rfl | rfl | rfl | rfl | rfl | rfl | rfl | rfl | rfl | rfl | rfl | rfl | rfl | rfl | rfl | rfl
  all_goals first
    | (intro h; exact Bool.noConfusion h)
    | (intro _; dsimp only; decide)

/-- The one field of the payload that is a pointer. -/
theorem taggedFields_pointer (p : ProtectionAPIRequestPayload) :
    ∀ f ∈ taggedFields p, ∀ x, f.value = FieldValue.pointer x →
      f.name = str "GraphQLOperationName" := by
  intro f hf
  simp only [taggedFields, List.mem_cons, List.mem_singleton, List.not_mem_nil, or_false] at hf
  rcases hf with rfl | rfl | rfl | rfl | rfl | rfl | rfl | rfl | rfl | rfl | rfl | rfl | rfl | rfl | rfl | rfl | rfl | rfl | rfl | rfl | rfl | rfl | rfl | rfl | rfl | rfl | rfl | rfl | rfl | rfl | rfl | rfl | rfl | rfl | rfl | rfl | rfl | rfl | rfl | rfl | rfl | rfl | rfl | rfl | rfl | rfl | rfl | rfl | rfl | rfl
  all_goals first
    | (intro x h; exact FieldValue.noConfusion h)
    | (intro _ _; rfl)

/-- A field that query.Values adds with an empty value is one of the four
fields without omitempty, or the pointer GraphQLOperationName. -/
theorem Values_empty (p : ProtectionAPIRequestPayload) (k v : GoString)
    (h : (k, v) ∈ Values p) (hv : v = []) :
    k ∈ [str "Key", str "RequestModuleName", str "IP", str "Request",
      str "GraphQLOperationName"] := by
  unfold Values at h
  rw [List.mem_filterMap] at h
  obtain ⟨f, hf, hg⟩ := h
  by_cases hc : f.omitempty = true ∧ isEmptyValue f.value = true
  · rw [if_pos hc] at hg
    cases hg
  · rw [if_neg hc] at hg
    simp only [Option.some.injEq, Prod.mk.injEq] at hg
    obtain ⟨hk, hval⟩ := hg
    rw [← hk]
    cases ho : f.omitempty with
    | false =>
      have := taggedFields_always p f hf ho
      simp only [List.mem_cons, List.mem_singleton, List.not_mem_nil, or_false] at this ⊢
      tauto
    | true =>
      have he : ¬ isEmptyValue f.value = true := fun he => hc ⟨ho, he⟩
      cases hfv : f.value with
      | string s =>
        rw [hfv] at he hval
        simp only [valueString] at hval
        rw [hval, hv] at he
        exact absurd rfl he
      | pointer x =>
        rw [taggedFields_pointer p f hf x hfv]
        simp

theorem Values_always (p : ProtectionAPIRequestPayload) :
    (str "Key", p.Key) ∈ Values p ∧ (str "RequestModuleName", p.RequestModuleName) ∈ Values p ∧
    (str "IP", p.IP) ∈ Values p ∧ (str "Request", p.Request) ∈ Values p ∧
    (∀ n, p.GraphQLOperationName = some n → (str "GraphQLOperationName", n) ∈ Values p) := by
  unfold Values
  refine ⟨?_, ?_, ?_, ?_, ?_⟩
  · rw [List.mem_filterMap]
    exact ⟨⟨str "Key", FieldValue.string p.Key, false⟩,
      List.getElem?_mem (show (taggedFields p)[0]? = some _ from rfl), rfl⟩
  · rw [List.mem_filterMap]
    exact ⟨⟨str "RequestModuleName", FieldValue.string p.RequestModuleName, false⟩,
      List.getElem?_mem (show (taggedFields p)[1]? = some _ from rfl), rfl⟩
  · rw [List.mem_filterMap]
    exact ⟨⟨str "IP", FieldValue.string p.IP, false⟩,
      List.getElem?_mem (show (taggedFields p)[5]? = some _ from rfl), rfl⟩
  · rw [List.mem_filterMap]
    exact ⟨⟨str "Request", FieldValue.string p.Request, false⟩,
      List.getElem?_mem (show (taggedFields p)[11]? = some _ from rfl), rfl⟩
  · intro n hn
    rw [List.mem_filterMap]
    refine ⟨⟨str "GraphQLOperationName", FieldValue.pointer p.GraphQLOperationName, true⟩,
      List.getElem?_mem (show (taggedFields p)[48]? = some _ from rfl), ?_⟩
    dsimp only
    rw [hn]
    rfl

set_option maxRecDepth 100000 in
/-- C21, counterexample. For the request with an empty path the serialised
body holds the field Request with an empty value, and for the GraphQL request
whose operation has no name it holds the field GraphQLOperationName with an
empty value. -/
theorem empty_request_field_is_sent :
    getURL emptyPathRequest = [] ∧
    (match (buildRequest (sampleLib (DoResult.ok allowResponse)) sampleProbes sampleClient
        emptyPathRequest).1 with
      | Except.ok queryStr => some queryStr
      | Except.error _ => none) = some (
        str "APIConnectionState=new&Accept=application%2Fjson&AuthorizationLen=0&Co" ++
        str "okiesLen=0&HeadersList=User-Agent%2CAccept&Host=www.example.com&IP=127" ++
        str ".0.0.1&Key=azerty&Method=GET&ModuleVersion=2.2.0&Port=80&PostParamLen=" ++
        str "0&Protocol=http&Request=&RequestModuleName=Golang&ServerHostname=www.e" ++
        str "xample.com&ServerName=www.example.com&TimeRequest=1695386441016659&Use" ++
        str "rAgent=mozilla") ∧
    (match (buildRequest (sampleLib (DoResult.ok allowResponse)) (sourceProbes sampleUrlLib)
        { sampleClient with EnableGraphQLSupport := true } graphQLRequest).1 with
      | Except.ok queryStr => some queryStr
      | Except.error _ => none) = some (
        str "APIConnectionState=new&AuthorizationLen=0&ContentType=application%2Fjs" ++
        str "on&CookiesLen=0&GraphQLOperationCount=1&GraphQLOperationName=&GraphQLO" ++
        str "perationType=query&HeadersList=Content-Type&Host=www.example.com&IP=12" ++
        str "7.0.0.1&Key=azerty&Method=POST&ModuleVersion=2.2.0&Port=80&PostParamLe" ++
        str "n=0&Protocol=http&Request=%2Fgraphql&RequestModuleName=Golang&ServerHo" ++
        str "stname=www.example.com&ServerName=www.example.com&TimeRequest=16953864" ++
        str "41016659") :=
  ⟨by decide, by decide!, by decide!⟩

/-- C21, amended. For every request for which buildRequest succeeds, the
serialised body is the encoding of the fields query.Values keeps, and a field
it keeps with an empty value is one of Key, RequestModuleName, IP, Request and
GraphQLOperationName: every other field with an empty value is omitted.  The
four fields Key, RequestModuleName, IP and Request are always in the body,
empty or not (Request is empty for an empty path), and GraphQLOperationName is
in the body whenever the GraphQL probe set it, also for an operation without
a name. -/
theorem empty_values_omitted (lib : Lib) (probes : Probes) (c : Client) (r : http.Request)
    (queryStr : GoString) (h : (buildRequest lib probes c r).1 = Except.ok queryStr) :
    ∃ p r1, buildPayload lib probes c r = Except.ok (p, r1) ∧
      queryStr = Encode (Values p) ∧
      (∀ k v, (k, v) ∈ Values p → v = [] →
        k ∈ [str "Key", str "RequestModuleName", str "IP", str "Request",
          str "GraphQLOperationName"]) ∧
      (str "Key", p.Key) ∈ Values p ∧
      (str "RequestModuleName", p.RequestModuleName) ∈ Values p ∧
      (str "IP", p.IP) ∈ Values p ∧ (str "Request", p.Request) ∈ Values p ∧
      (∀ n, p.GraphQLOperationName = some n → (str "GraphQLOperationName", n) ∈ Values p) := by
  unfold buildRequest at h
  cases hb : buildPayload lib probes c r with
  | error e => rw [hb] at h; cases h
  | ok pr =>
    obtain ⟨p, r1⟩ := pr
    rw [hb] at h
    injection h with h
    exact ⟨p, r1, rfl, h.symm, Values_empty p, Values_always p⟩

set_option maxRecDepth 100000 in
theorem empty_values_omitted_witness :
    ∃ p r1, buildPayload (sampleLib (DoResult.ok allowResponse)) sampleProbes sampleClient
        sampleRequest = Except.ok (p, r1) ∧
      (Encode (Values (payloadOf (sampleLib (DoResult.ok allowResponse)) sampleClient
        sampleRequest sampleRequest (str "127.0.0.1")))) = Encode (Values p) ∧
      (∀ k v, (k, v) ∈ Values p → v = [] →
        k ∈ [str "Key", str "RequestModuleName", str "IP", str "Request",
          str "GraphQLOperationName"]) ∧
      (str "Key", p.Key) ∈ Values p ∧
      (str "RequestModuleName", p.RequestModuleName) ∈ Values p ∧
      (str "IP", p.IP) ∈ Values p ∧ (str "Request", p.Request) ∈ Values p ∧
      (∀ n, p.GraphQLOperationName = some n → (str "GraphQLOperationName", n) ∈ Values p) :=
  empty_values_omitted (sampleLib (DoResult.ok allowResponse)) sampleProbes sampleClient
    sampleRequest _ rfl

/-! ## The shorthand form and the invariants of parseGraphQLQuery -/

theorem Rx.mem_run_lit (c : Nat) (s : List Chunk) (caps : Caps) (p : List Chunk × Caps)
    (h : p ∈ Rx.run (Rx.lit c) s caps) : p.2 = caps ∧ ∃ x, s = x :: p.1 := by
  cases s with
  | nil => simp [Rx.run] at h
  | cons x t =>
    simp only [Rx.run] at h
    by_cases hx : x.1 = c
    · rw [if_pos hx, List.mem_singleton] at h
      rw [h]
      exact ⟨rfl, x, rfl⟩
    · rw [if_neg hx] at h
      exact absurd h (List.not_mem_nil _)

theorem shorthandSyntaxRegexp_expr :
    shorthandSyntaxRegexp.expr =
      Rx.cat (Rx.lit 0x22)
        (Rx.cat (Rx.opt keywordRx)
          (Rx.cat (Rx.clsStar spaceClass)
            (Rx.cat (Rx.opt (Rx.cat (Rx.cls identStartClass) (Rx.clsStar identClass)))
              (Rx.cat (Rx.clsStar spaceClass) (Rx.cls [(0x7B, 0x7B)]))))) := rfl

/-- A match of the shorthand pattern covers at least one rune. -/
theorem shorthandSyntaxRegexp_nonempty (s : List Chunk) (p : List Chunk × Caps)
    (h : p ∈ Rx.run shorthandSyntaxRegexp.expr s []) : p.1.length < s.length := by
  rw [shorthandSyntaxRegexp_expr, Rx.mem_run_cat] at h
  obtain ⟨q, hq, hp⟩ := h
  obtain ⟨_, x, hx⟩ := Rx.mem_run_lit _ _ _ _ hq
  obtain ⟨pre, hpre⟩ := Rx.run_suffix _ _ _ _ hp
  rw [hx, hpre, List.length_cons, List.length_append]
  omega

/-- The result of parseGraphQLQuery when the operation pattern does not match. -/
theorem parseGraphQLQuery_of_no_match (body : GoString)
    (h : operationRegexp.FindAllStringSubmatch body = []) :
    parseGraphQLQuery body =
      { Count := ((shorthandSyntaxRegexp.FindSubmatch body).length : Int)
        Type_ := Query, Name := str "" } := by
  unfold parseGraphQLQuery
  dsimp only
  rw [h]
  rw [if_neg (by decide)]

/-- What FindSubmatch of the shorthand pattern returns: one string when the
pattern matches, none when it does not. -/
theorem shorthand_FindSubmatch_length (body : GoString) :
    (shorthandSyntaxRegexp.FindSubmatch body).length =
      if nonOverlappingMatches shorthandSyntaxRegexp 0 (runeChunks body) = [] then 0 else 1 := by
  rw [nonOverlappingMatches_search shorthandSyntaxRegexp shorthandSyntaxRegexp_nonempty]
  unfold SubmatchRegexp.FindSubmatch
  cases Rx.search shorthandSyntaxRegexp.expr (runeChunks body) with
  | none => rfl
  | some r =>
    obtain ⟨start, rest, caps⟩ := r
    dsimp only
    rw [if_neg (List.cons_ne_nil _ _)]
    rfl

/-- The result of parseGraphQLQuery when the operation pattern matches: a
keyword as its type and at least one operation. -/
theorem parseGraphQLQuery_matched (body : GoString)
    (hm : nonOverlappingMatches operationRegexp 0 (runeChunks body) ≠ []) :
    (parseGraphQLQuery body).Type_ ∈ [Query, Mutation, Subscription] ∧
    (parseGraphQLQuery body).Count ≥ 1 := by
  have hall := FindAllStringSubmatch_operation body
  have hsearch := nonOverlappingMatches_search operationRegexp operationRegexp_nonempty
    (runeChunks body)
  cases hs : Rx.search operationRegexp.expr (runeChunks body) with
  | none =>
    rw [hs] at hsearch
    exact absurd hsearch hm
  | some r =>
    obtain ⟨start, rest, caps⟩ := r
    rw [hs] at hsearch
    dsimp only at hsearch
    obtain ⟨h3, hk⟩ := operationRegexp_keyword body start rest caps hs
    have hp := parseGraphQLQuery_of_matches body _ _ h3 (hall.trans hsearch)
    rw [hp]
    refine ⟨hk, ?_⟩
    dsimp only
    rw [List.length_cons]
    omega

set_option maxRecDepth 100000 in
/-- C26, counterexample. In a body where the operation pattern does not match
and the shorthand pattern matches twice, parseGraphQLQuery returns the count
1, not the number of matches 2. -/
theorem shorthand_count_is_one :
    nonOverlappingMatches operationRegexp 0 (runeChunks twoShorthandBody) = [] ∧
    (nonOverlappingMatches shorthandSyntaxRegexp 0 (runeChunks twoShorthandBody)).length = 2 ∧
    (shorthandSyntaxRegexp.FindAllStringSubmatch twoShorthandBody).length = 2 ∧
    (parseGraphQLQuery twoShorthandBody).Count = 1 := by
  decide

/-- C26, amended. Shorthand form: for every input in which the operation
pattern does not match, parseGraphQLQuery returns the type query, an empty
name, and the count 1 when the shorthand pattern matches at least once and 0
when it does not match (the count is the length of what FindStringSubmatch
returns for the first match, and the pattern has no group). -/
theorem parseGraphQLQuery_shorthand (body : GoString)
    (hm : nonOverlappingMatches operationRegexp 0 (runeChunks body) = []) :
    parseGraphQLQuery body =
      { Count := if nonOverlappingMatches shorthandSyntaxRegexp 0 (runeChunks body) = [] then 0
          else 1
        Type_ := Query, Name := str "" } ∧
    (parseGraphQLQuery body).Count = ((shorthandSyntaxRegexp.FindSubmatch body).length : Int) := by
  have h0 : operationRegexp.FindAllStringSubmatch body = [] :=
    (FindAllStringSubmatch_operation body).trans hm
  have hp := parseGraphQLQuery_of_no_match body h0
  refine ⟨?_, by rw [hp]⟩
  rw [hp, shorthand_FindSubmatch_length]
  by_cases he : nonOverlappingMatches shorthandSyntaxRegexp 0 (runeChunks body) = []
  · rw [if_pos he, if_pos he]
    rfl
  · rw [if_neg he, if_neg he]
    rfl

set_option maxRecDepth 1000000 in
set_option maxHeartbeats 4000000 in
theorem parseGraphQLQuery_shorthand_witness :
    parseGraphQLQuery shorthandBody = { Count := 1, Type_ := Query, Name := str "" } ∧
    parseGraphQLQuery malformedBody = { Count := 0, Type_ := Query, Name := str "" } ∧
    parseGraphQLQuery twoShorthandBody = { Count := 1, Type_ := Query, Name := str "" } :=
  ⟨(parseGraphQLQuery_shorthand shorthandBody (by decide)).1.trans (by decide),
   (parseGraphQLQuery_shorthand malformedBody (by decide)).1.trans (by decide),
   (parseGraphQLQuery_shorthand twoShorthandBody (by decide)).1.trans (by decide)⟩

/-- C30. For every input string, the result of parseGraphQLQuery satisfies:
Type is one of query, mutation, subscription; Count is at least 0; if Count is
0 then Type is query and Name is empty; and if Name is not empty or Type is
not query then Count is at least 1. -/
theorem parseGraphQLQuery_invariants (body : GoString) :
    (parseGraphQLQuery body).Type_ ∈ [Query, Mutation, Subscription] ∧
    (parseGraphQLQuery body).Count ≥ 0 ∧
    ((parseGraphQLQuery body).Count = 0 →
      (parseGraphQLQuery body).Type_ = Query ∧ (parseGraphQLQuery body).Name = []) ∧
    ((parseGraphQLQuery body).Name ≠ [] ∨ (parseGraphQLQuery body).Type_ ≠ Query →
      (parseGraphQLQuery body).Count ≥ 1) := by
  by_cases hm : nonOverlappingMatches operationRegexp 0 (runeChunks body) = []
  · have h0 : operationRegexp.FindAllStringSubmatch body = [] :=
      (FindAllStringSubmatch_operation body).trans hm
    rw [parseGraphQLQuery_of_no_match body h0]
    dsimp only
    refine ⟨by simp, by omega, fun _ => ⟨rfl, rfl⟩, ?_⟩
    rintro (h | h)
    · exact absurd rfl h
    · exact absurd rfl h
  · obtain ⟨hk, hc⟩ := parseGraphQLQuery_matched body hm
    refine ⟨hk, by omega, fun h0 => ?_, fun _ => hc⟩
    omega

set_option maxRecDepth 1000000 in
set_option maxHeartbeats 4000000 in
theorem parseGraphQLQuery_invariants_witness :
    (parseGraphQLQuery malformedBody).Count = 0 ∧
    (parseGraphQLQuery malformedBody).Type_ = Query ∧
    (parseGraphQLQuery malformedBody).Name = [] ∧
    (parseGraphQLQuery loginBody).Name ≠ [] ∧
    (parseGraphQLQuery loginBody).Count ≥ 1 :=
  ⟨by decide,
   ((parseGraphQLQuery_invariants malformedBody).2.2.1 (by decide)).1,
   ((parseGraphQLQuery_invariants malformedBody).2.2.1 (by decide)).2,
   by decide,
   (parseGraphQLQuery_invariants loginBody).2.2.2 (Or.inl (by decide))⟩

/-! ## The Referer restoration with dd_referrer -/

set_option maxRecDepth 100000 in
/-- The bytes that QueryEscape writes for one byte. -/
theorem escapedByte_facts : ∀ n : Fin 256,
    (shouldEscape (UInt8.mk (BitVec.ofFin n)) = true →
      ishex (upperhex ((UInt8.mk (BitVec.ofFin n)).toNat / 16)) = true ∧
      ishex (upperhex ((UInt8.mk (BitVec.ofFin n)).toNat % 16)) = true ∧
      UInt8.ofNat (unhex (upperhex ((UInt8.mk (BitVec.ofFin n)).toNat / 16)) * 16 +
        unhex (upperhex ((UInt8.mk (BitVec.ofFin n)).toNat % 16))) = UInt8.mk (BitVec.ofFin n) ∧
      upperhex ((UInt8.mk (BitVec.ofFin n)).toNat / 16) ∉ ([0x26, 0x3B, 0x3D] : List UInt8) ∧
      upperhex ((UInt8.mk (BitVec.ofFin n)).toNat % 16) ∉ ([0x26, 0x3B, 0x3D] : List UInt8)) ∧
    (shouldEscape (UInt8.mk (BitVec.ofFin n)) = false →
      UInt8.mk (BitVec.ofFin n) ∉ ([0x25, 0x2B, 0x26, 0x3B, 0x3D] : List UInt8)) := by
  decide!

theorem escapedByte_facts_byte (c : UInt8) :
    (shouldEscape c = true →
      ishex (upperhex (c.toNat / 16)) = true ∧
      ishex (upperhex (c.toNat % 16)) = true ∧
      UInt8.ofNat (unhex (upperhex (c.toNat / 16)) * 16 +
        unhex (upperhex (c.toNat % 16))) = c ∧
      upperhex (c.toNat / 16) ∉ ([0x26, 0x3B, 0x3D] : List UInt8) ∧
      upperhex (c.toNat % 16) ∉ ([0x26, 0x3B, 0x3D] : List UInt8)) ∧
    (shouldEscape c = false →
      c ∉ ([0x25, 0x2B, 0x26, 0x3B, 0x3D] : List UInt8)) := by
  cases c with
  | mk bv =>
    cases bv with
    | ofFin n => exact escapedByte_facts n
theorem QueryUnescape_cons_plain (c : UInt8) (t : GoString) (h : c ≠ 0x25) :
    QueryUnescape (c :: t) =
      match QueryUnescape t with
      | Except.ok rest => Except.ok ((if c = 0x2B then 0x20 else c) :: rest)
      | Except.error err => Except.error err := by
  rw [QueryUnescape.eq_def]
  dsimp only
  rw [if_neg h]

theorem QueryUnescape_cons_escape (a b : UInt8) (u : GoString)
    (h : ishex a = true ∧ ishex b = true) :
    QueryUnescape (0x25 :: a :: b :: u) =
      match QueryUnescape u with
      | Except.ok rest => Except.ok (UInt8.ofNat (unhex a * 16 + unhex b) :: rest)
      | Except.error err => Except.error err := by
  rw [QueryUnescape.eq_def]
  dsimp only
  rw [if_pos rfl, if_pos h]

/-- QueryUnescape undoes QueryEscape. -/
theorem QueryUnescape_QueryEscape (s : GoString) :
    QueryUnescape (QueryEscape s) = Except.ok s := by
  induction s with
  | nil => rfl
  | cons c t ih =>
    unfold QueryEscape at ih ⊢
    rw [List.flatMap_cons]
    by_cases h20 : c = 0x20
    · rw [if_pos h20, List.singleton_append, QueryUnescape_cons_plain _ _ (by decide), ih]
      dsimp only
      rw [if_pos rfl, h20]
    · rw [if_neg h20]
      cases hs : shouldEscape c with
      | true =>
        obtain ⟨h1, h2, h3, _⟩ := (escapedByte_facts_byte c).1 hs
        rw [if_pos rfl]
        show QueryUnescape (0x25 :: upperhex (c.toNat / 16) :: upperhex (c.toNat % 16) ::
          (t.flatMap _)) = _
        rw [QueryUnescape_cons_escape _ _ _ ⟨h1, h2⟩, ih]
        dsimp only
        rw [h3]
      | false =>
        have hm := (escapedByte_facts_byte c).2 hs
        have h25 : c ≠ 0x25 := fun h => hm (by rw [h]; decide)
        have h2B : c ≠ 0x2B := fun h => hm (by rw [h]; decide)
        rw [if_neg (by decide), List.singleton_append, QueryUnescape_cons_plain _ _ h25, ih]
        dsimp only
        rw [if_neg h2B]

/-- An escaped string holds no ampersand, no semicolon and no equals sign. -/
theorem QueryEscape_bytes (s : GoString) (b : UInt8) (hb : b ∈ QueryEscape s) :
    b ∉ ([0x26, 0x3B, 0x3D] : List UInt8) := by
  unfold QueryEscape at hb
  rw [List.mem_flatMap] at hb
  obtain ⟨c, _, hc⟩ := hb
  by_cases h20 : c = 0x20
  · rw [if_pos h20, List.mem_singleton] at hc
    rw [hc]
    decide
  · rw [if_neg h20] at hc
    cases hs : shouldEscape c with
    | true =>
      obtain ⟨_, _, _, h4, h5⟩ := (escapedByte_facts_byte c).1 hs
      rw [hs, if_pos rfl] at hc
      simp only [List.mem_cons, List.mem_singleton, List.not_mem_nil, or_false] at hc
      rcases hc with hc | hc | hc
      · rw [hc]
        decide
      · rw [hc]
        exact h4
      · rw [hc]
        exact h5
    | false =>
      have hm := (escapedByte_facts_byte c).2 hs
      rw [hs, if_neg (by decide), List.mem_singleton] at hc
      rw [hc]
      intro hmem
      apply hm
      simp only [List.mem_cons, List.mem_singleton, List.not_mem_nil, or_false] at hmem ⊢
      tauto
theorem Index_singleton_none (s : GoString) (c : UInt8) (h : c ∉ s) : Index s [c] = none := by
  induction s with
  | nil => simp [Index]
  | cons b t ih =>
    have hb : ¬ c = b := fun e => h (by rw [e]; exact List.mem_cons_self _ _)
    have ht : c ∉ t := fun e => h (List.mem_cons_of_mem _ e)
    unfold Index
    rw [if_neg (by simp [List.isPrefixOf, hb]), ih ht]
    rfl

theorem Index_singleton_append (a b : GoString) (c : UInt8) (h : c ∉ a) :
    Index (a ++ c :: b) [c] = some a.length := by
  induction a with
  | nil =>
    show Index (c :: b) [c] = some 0
    unfold Index
    rw [if_pos (by simp [List.isPrefixOf])]
  | cons x t ih =>
    have hx : ¬ c = x := fun e => h (by rw [e]; exact List.mem_cons_self _ _)
    have ht : c ∉ t := fun e => h (List.mem_cons_of_mem _ e)
    rw [List.cons_append]
    unfold Index
    rw [if_neg (by simp [List.isPrefixOf, hx]), ih ht]
    rfl

theorem cut_singleton_append (a b : GoString) (c : UInt8) (h : c ∉ a) :
    cut (a ++ c :: b) [c] = (a, b, true) := by
  unfold cut
  rw [Index_singleton_append a b c h]
  dsimp only
  rw [List.take_left, List.length_singleton, List.drop_append_eq_append_drop]
  simp

theorem ampSegments_cons (c : UInt8) (t : GoString) :
    ampSegments (c :: t) =
      if c = 0x26 then [] :: ampSegments t
      else
        match ampSegments t with
        | [] => [[c]]
        | seg :: rest => (c :: seg) :: rest := by
  rw [ampSegments.eq_def]

theorem ampSegments_plain (x : GoString) (hx : x ≠ []) (h : (0x26 : UInt8) ∉ x) :
    ampSegments x = [x] := by
  induction x with
  | nil => exact absurd rfl hx
  | cons c t ih =>
    have hc : ¬ c = 0x26 := fun e => h (by rw [e]; exact List.mem_cons_self _ _)
    have ht : (0x26 : UInt8) ∉ t := fun e => h (List.mem_cons_of_mem _ e)
    unfold ampSegments
    rw [if_neg hc]
    cases t with
    | nil => rfl
    | cons d u => rw [ih (List.cons_ne_nil _ _) ht]

theorem ampSegments_append (x rest : GoString) (h : (0x26 : UInt8) ∉ x) :
    ampSegments (x ++ 0x26 :: rest) = x :: ampSegments rest := by
  induction x with
  | nil =>
    show ampSegments (0x26 :: rest) = _
    rw [ampSegments_cons, if_pos rfl]
  | cons c t ih =>
    have hc : ¬ c = 0x26 := fun e => h (by rw [e]; exact List.mem_cons_self _ _)
    have ht : (0x26 : UInt8) ∉ t := fun e => h (List.mem_cons_of_mem _ e)
    rw [List.cons_append, ampSegments_cons, if_neg hc, ih ht]

theorem intercalate_cons_cons (sep x y : GoString) (r : List GoString) :
    sep.intercalate (x :: y :: r) = x ++ sep ++ sep.intercalate (y :: r) := by
  simp [List.intercalate, List.intersperse]

/-- The pieces of a joined list of texts without ampersand are those texts. -/
theorem ampSegments_intercalate (l : List GoString)
    (h : ∀ x ∈ l, x ≠ [] ∧ (0x26 : UInt8) ∉ x) :
    ampSegments ((str "&").intercalate l) = l := by
  induction l with
  | nil => rfl
  | cons x r ih =>
    obtain ⟨hx, hamp⟩ := h x (List.mem_cons_self _ _)
    cases r with
    | nil =>
      show ampSegments (x ++ []) = [x]
      rw [List.append_nil]
      exact ampSegments_plain x hx hamp
    | cons y r2 =>
      rw [intercalate_cons_cons]
      show ampSegments (x ++ [0x26] ++ _) = _
      rw [List.append_assoc, List.singleton_append, ampSegments_append _ _ hamp,
        ih (fun z hz => h z (List.mem_cons_of_mem _ hz))]
theorem escapedPair_facts (k v : GoString) :
    QueryEscape k ++ str "=" ++ QueryEscape v ≠ [] ∧
    (0x26 : UInt8) ∉ QueryEscape k ++ str "=" ++ QueryEscape v ∧
    Index (QueryEscape k ++ str "=" ++ QueryEscape v) (str ";") = none ∧
    cut (QueryEscape k ++ str "=" ++ QueryEscape v) (str "=") =
      (QueryEscape k, QueryEscape v, true) := by
  have heq : str "=" = [0x3D] := by decide
  have hsemi : str ";" = [0x3B] := by decide
  have hk := QueryEscape_bytes k
  have hv := QueryEscape_bytes v
  have hmem : ∀ b ∈ QueryEscape k ++ str "=" ++ QueryEscape v,
      b ≠ 0x26 ∧ b ≠ 0x3B := by
    intro b hb
    rw [heq, List.mem_append, List.mem_append, List.mem_singleton] at hb
    rcases hb with (hb | hb) | hb
    · have := hk b hb
      simp only [List.mem_cons, List.mem_singleton, List.not_mem_nil, or_false, not_or] at this
      exact ⟨this.1, this.2.1⟩
    · rw [hb]
      decide
    · have := hv b hb
      simp only [List.mem_cons, List.mem_singleton, List.not_mem_nil, or_false, not_or] at this
      exact ⟨this.1, this.2.1⟩
  refine ⟨?_, fun h => (hmem _ h).1 rfl, ?_, ?_⟩
  · rw [heq]
    simp
  · rw [hsemi]
    exact Index_singleton_none _ _ (fun h => (hmem _ h).2 rfl)
  · rw [heq, List.append_assoc, List.singleton_append]
    apply cut_singleton_append
    intro h
    have := hk _ h
    simp at this

/-- ParseQuery reads an encoded list of pairs back pair by pair. -/
theorem ParseQuery_escaped (pairs : List (GoString × GoString)) :
    ParseQuery ((str "&").intercalate
        (pairs.map (fun kv => QueryEscape kv.1 ++ str "=" ++ QueryEscape kv.2))) =
      pairs.foldl (fun (m : url.Values) kv => Header.put m kv.1 (Header.values m kv.1 ++ [kv.2]))
        [] := by
  unfold ParseQuery
  rw [ampSegments_intercalate]
  · generalize ([] : url.Values) = m0
    induction pairs generalizing m0 with
    | nil => rfl
    | cons kv rest ih =>
      obtain ⟨k, v⟩ := kv
      obtain ⟨h1, _, h3, h4⟩ := escapedPair_facts k v
      rw [List.map_cons, List.foldl_cons, List.foldl_cons]
      dsimp only
      rw [h3, h4]
      dsimp only
      rw [if_neg (by decide), if_neg h1, QueryUnescape_QueryEscape, QueryUnescape_QueryEscape]
      exact ih _
  · intro x hx
    rw [List.mem_map] at hx
    obtain ⟨kv, _, hkv⟩ := hx
    rw [← hkv]
    exact ⟨(escapedPair_facts kv.1 kv.2).1, (escapedPair_facts kv.1 kv.2).2.1⟩
theorem Header.keys_put (h : Header) (k : GoString) (vs : List GoString) :
    (Header.put h k vs).map Prod.fst =
      if k ∈ h.map Prod.fst then h.map Prod.fst else h.map Prod.fst ++ [k] := by
  induction h with
  | nil => simp [Header.put]
  | cons e t ih =>
    obtain ⟨k1, ws⟩ := e
    unfold Header.put
    by_cases h1 : k1 = k
    · rw [if_pos h1]
      simp [h1]
    · rw [if_neg h1, List.map_cons, ih]
      have h2 : ¬ k = k1 := fun e => h1 e.symm
      by_cases h3 : k ∈ t.map Prod.fst
      · rw [if_pos h3, if_pos (by simp only [List.map_cons, List.mem_cons]; exact Or.inr h3)]
        rfl
      · rw [if_neg h3, if_neg (by
          simp only [List.map_cons, List.mem_cons, not_or]; exact ⟨h2, h3⟩)]
        rfl

theorem Header.nodup_put (h : Header) (k : GoString) (vs : List GoString)
    (hn : (h.map Prod.fst).Nodup) : ((Header.put h k vs).map Prod.fst).Nodup := by
  rw [Header.keys_put]
  by_cases h3 : k ∈ h.map Prod.fst
  · rw [if_pos h3]
    exact hn
  · rw [if_neg h3]
    rw [List.nodup_append]
    refine ⟨hn, List.nodup_singleton _, ?_⟩
    intro a ha hb
    rw [List.mem_singleton] at hb
    exact h3 (hb ▸ ha)

theorem Header.values_cons (k1 : GoString) (ws : List GoString) (t : Header) (k : GoString) :
    Header.values ((k1, ws) :: t) k = if k1 = k then ws else Header.values t k := by
  rw [Header.values]

theorem Header.values_of_not_mem (h : Header) (k : GoString) (hk : k ∉ h.map Prod.fst) :
    Header.values h k = [] := by
  induction h with
  | nil => rfl
  | cons e t ih =>
    obtain ⟨k1, ws⟩ := e
    simp only [List.map_cons, List.mem_cons, not_or] at hk
    unfold Header.values
    rw [if_neg (fun e => hk.1 e.symm)]
    exact ih hk.2

theorem url.Values.Has_iff (v : url.Values) (k : GoString) :
    v.Has k = true ↔ k ∈ v.map Prod.fst := by
  unfold url.Values.Has
  simp only [List.any_eq_true, decide_eq_true_eq, List.mem_map]

theorem url.Values.values_after_Del (v : url.Values) (d k : GoString) :
    Header.values (v.Del d) k = if k = d then [] else Header.values v k := by
  unfold url.Values.Del
  induction v with
  | nil =>
    split_ifs <;> rfl
  | cons e t ih =>
    obtain ⟨k1, ws⟩ := e
    have hc := Header.values_cons k1 ws t k
    by_cases h1 : k1 = d
    · rw [List.filter_cons_of_neg (by simp [h1]), ih, hc]
      by_cases h2 : k = d
      · rw [if_pos h2, if_pos h2]
      · rw [if_neg h2, if_neg h2, if_neg (fun e : k1 = k => h2 (e.symm.trans h1))]
    · rw [List.filter_cons_of_pos (by simp [h1]), Header.values_cons, ih, hc]
      by_cases h3 : k1 = k
      · rw [if_pos h3, if_pos h3, if_neg (fun e : k = d => h1 (h3.trans e))]
      · rw [if_neg h3, if_neg h3]

theorem url.Values.keys_after_Del (v : url.Values) (d : GoString) :
    d ∉ (v.Del d).map Prod.fst ∧ ((v.Del d).map Prod.fst).Sublist (v.map Prod.fst) := by
  unfold url.Values.Del
  constructor
  · intro h
    rw [List.mem_map] at h
    obtain ⟨e, he, hd⟩ := h
    rw [List.mem_filter] at he
    simp [hd] at he
  · exact (List.filter_sublist _).map _

theorem values_foldl_pairs (pairs : List (GoString × GoString)) (m : url.Values) (k : GoString) :
    Header.values (pairs.foldl
        (fun (m : url.Values) kv => Header.put m kv.1 (Header.values m kv.1 ++ [kv.2])) m) k =
      Header.values m k ++ (pairs.filter (fun kv => decide (kv.1 = k))).map Prod.snd := by
  induction pairs generalizing m with
  | nil => simp
  | cons kv rest ih =>
    rw [List.foldl_cons, ih]
    by_cases hk : kv.1 = k
    · rw [List.filter_cons_of_pos (by simp [hk]), hk, Header.values_put_same]
      simp
    · rw [List.filter_cons_of_neg (by simp [hk]),
        Header.values_put_other _ _ _ _ (fun e => hk e.symm)]

theorem keys_foldl_pairs (pairs : List (GoString × GoString)) (m : url.Values) (k : GoString)
    (h : k ∈ (pairs.foldl
        (fun (m : url.Values) kv => Header.put m kv.1 (Header.values m kv.1 ++ [kv.2])) m).map
          Prod.fst) :
    k ∈ m.map Prod.fst ∨ k ∈ pairs.map Prod.fst := by
  induction pairs generalizing m with
  | nil => exact Or.inl h
  | cons kv rest ih =>
    rw [List.foldl_cons] at h
    rcases ih _ h with h1 | h1
    · rw [Header.keys_put] at h1
      split_ifs at h1
      · exact Or.inl h1
      · rw [List.mem_append, List.mem_singleton] at h1
        rcases h1 with h1 | h1
        · exact Or.inl h1
        · exact Or.inr (by rw [h1]; exact List.mem_cons_self _ _)
    · exact Or.inr (List.mem_cons_of_mem _ h1)

/-- The keys of a parsed query are pairwise different. -/
theorem ParseQuery_nodup (query : GoString) : ((ParseQuery query).map Prod.fst).Nodup := by
  unfold ParseQuery
  have hnil : (([] : url.Values).map Prod.fst).Nodup := List.nodup_nil
  revert hnil
  generalize ([] : url.Values) = m0
  induction ampSegments query generalizing m0 with
  | nil => exact fun h => h
  | cons seg rest ih =>
    intro hn
    rw [List.foldl_cons]
    apply ih
    dsimp only
    split_ifs
    · exact hn
    · exact hn
    · split
      · exact hn
      · split
        · exact hn
        · exact Header.nodup_put _ _ _ hn

theorem filter_pairs_of_keys (ks : List GoString) (g : GoString → List GoString) (k : GoString)
    (hn : ks.Nodup) :
    ((ks.flatMap (fun k1 => (g k1).map (fun value => (k1, value)))).filter
        (fun kv => decide (kv.1 = k))).map Prod.snd =
      if k ∈ ks then g k else [] := by
  induction ks with
  | nil => rfl
  | cons a t ih =>
    rw [List.nodup_cons] at hn
    rw [List.flatMap_cons, List.filter_append, List.map_append, ih hn.2]
    by_cases ha : a = k
    · subst ha
      rw [if_neg hn.1, if_pos (List.mem_cons_self _ _), List.append_nil]
      rw [List.filter_eq_self.mpr (by
        intro kv hkv
        rw [List.mem_map] at hkv
        obtain ⟨value, _, hv⟩ := hkv
        rw [← hv]
        simp)]
      simp
    · rw [List.filter_eq_nil_iff.mpr (by
        intro kv hkv
        rw [List.mem_map] at hkv
        obtain ⟨value, _, hv⟩ := hkv
        rw [← hv]
        simp [ha])]
      by_cases hk : k ∈ t
      · rw [if_pos hk, if_pos (List.mem_cons_of_mem _ hk)]
        rfl
      · rw [if_neg hk, if_neg (by
          simp only [List.mem_cons, not_or]; exact ⟨fun e => ha e.symm, hk⟩)]
        rfl
theorem url.Values.Encode_eq (v : url.Values) :
    v.Encode = (str "&").intercalate
      (((List.insertionSort (fun a b => a ≤ b) (v.map Prod.fst)).flatMap
        (fun k => (Header.values v k).map (fun value => (k, value)))).map
        (fun kv => QueryEscape kv.1 ++ str "=" ++ QueryEscape kv.2)) := by
  unfold url.Values.Encode
  rw [List.map_flatMap]
  simp only [List.map_map]
  rfl

/-- Parsing an encoded map with pairwise different keys gives its values back
and no other key. -/
theorem ParseQuery_Encode (v : url.Values) (hn : (v.map Prod.fst).Nodup) (k : GoString) :
    Header.values (ParseQuery v.Encode) k = Header.values v k ∧
    (k ∈ (ParseQuery v.Encode).map Prod.fst → k ∈ v.map Prod.fst) := by
  have hperm := List.perm_insertionSort (fun (a b : GoString) => a ≤ b) (v.map Prod.fst)
  rw [url.Values.Encode_eq, ParseQuery_escaped]
  constructor
  · rw [values_foldl_pairs, filter_pairs_of_keys _ _ _ (hperm.nodup_iff.mpr hn)]
    show [] ++ _ = _
    rw [List.nil_append]
    by_cases hk : k ∈ List.insertionSort (fun (a b : GoString) => a ≤ b) (v.map Prod.fst)
    · rw [if_pos hk]
    · rw [if_neg hk]
      exact (Header.values_of_not_mem v k (fun h => hk (hperm.mem_iff.mpr h))).symm
  · intro h
    rcases keys_foldl_pairs _ _ _ h with h1 | h1
    · exact absurd h1 (List.not_mem_nil _)
    · rw [List.mem_map] at h1
      obtain ⟨kv, hkv, hk⟩ := h1
      rw [List.mem_flatMap] at hkv
      obtain ⟨k1, hk1, hmem⟩ := hkv
      rw [List.mem_map] at hmem
      obtain ⟨value, _, hv⟩ := hmem
      rw [← hk, ← hv]
      exact hperm.mem_iff.mp hk1

theorem Header.keys_Del (h : Header) (key : GoString) (e : GoString × List GoString)
    (he : e ∈ Header.Del h key) : e.1 ≠ CanonicalMIMEHeaderKey key := by
  unfold Header.Del at he
  rw [List.mem_filter] at he
  simpa using he.2

theorem Header.values_Del (h : Header) (key : GoString) :
    Header.values (Header.Del h key) (CanonicalMIMEHeaderKey key) = [] := by
  apply Header.values_of_not_mem
  intro hm
  rw [List.mem_map] at hm
  obtain ⟨e, he, hk⟩ := hm
  exact Header.keys_Del h key e he hk

/-- What restoreReferrer returns when the value of dd_referrer unescapes. -/
theorem restoreReferrer_decodable (r : http.Request) (decoded : GoString)
    (h : r.URL.Query.Has (str "dd_referrer") = true)
    (hd : QueryUnescape (r.URL.Query.Get (str "dd_referrer")) = Except.ok decoded) :
    restoreReferrer r =
      (none,
        { r with
          Header :=
            if r.URL.Query.Get (str "dd_referrer") = [] then Header.Del r.Header (str "Referer")
            else Header.Set r.Header (str "Referer") decoded
          URL := { r.URL with RawQuery := (r.URL.Query.Del (str "dd_referrer")).Encode } }) := by
  unfold restoreReferrer
  dsimp only
  rw [if_pos h]
  by_cases he : r.URL.Query.Get (str "dd_referrer") = []
  · rw [if_pos he, if_pos he]
  · rw [if_neg he, if_neg he, hd]

/-- What restoreReferrer returns when the value of dd_referrer does not unescape. -/
theorem restoreReferrer_undecodable (r : http.Request) (err : GoString)
    (h : r.URL.Query.Has (str "dd_referrer") = true)
    (hd : QueryUnescape (r.URL.Query.Get (str "dd_referrer")) = Except.error err) :
    restoreReferrer r = (some (str "fail to decoded dd_referrer query value: " ++ err), r) := by
  unfold restoreReferrer
  dsimp only
  rw [if_pos h]
  have he : r.URL.Query.Get (str "dd_referrer") ≠ [] := by
    intro he
    rw [he] at hd
    cases hd
  rw [if_neg he, hd]
set_option maxRecDepth 100000 in
/-- C27, counterexample. For the query query=params&dd_referrer=%25zz the
parsed value of dd_referrer is %zz, which does not unescape: restoreReferrer
returns the error and leaves the request as it was, so dd_referrer is still
present in the query of the URL and the Referer header still holds Bar. -/
theorem restoreReferrer_keeps_undecodable :
    requestWithUndecodableDDReferrer.URL.Query.Has (str "dd_referrer") = true ∧
    requestWithUndecodableDDReferrer.URL.Query.Get (str "dd_referrer") = str "%zz" ∧
    restoreReferrer requestWithUndecodableDDReferrer =
      (some (str "fail to decoded dd_referrer query value: %zz"),
        requestWithUndecodableDDReferrer) ∧
    (restoreReferrer requestWithUndecodableDDReferrer).2.URL.Query.Has (str "dd_referrer")
      = true ∧
    Header.Get (restoreReferrer requestWithUndecodableDDReferrer).2.Header (str "Referer")
      = str "Bar" := by
  decide

/-- C27, amended. For every request whose URL query contains dd_referrer:
when the parsed value of dd_referrer unescapes, restoreReferrer returns no
error, the Referer header is deleted if that value is empty and otherwise
holds the value unescaped once more, dd_referrer is no longer present in the
query of the URL, and every other query parameter keeps exactly its values;
when the parsed value does not unescape, restoreReferrer returns the error
and leaves the request unchanged, dd_referrer included. -/
theorem restoreReferrer_restores (r : http.Request)
    (h : r.URL.Query.Has (str "dd_referrer") = true) :
    (∀ decoded, QueryUnescape (r.URL.Query.Get (str "dd_referrer")) = Except.ok decoded →
      (restoreReferrer r).1 = none ∧
      (r.URL.Query.Get (str "dd_referrer") = [] →
        (∀ e ∈ (restoreReferrer r).2.Header, e.1 ≠ str "Referer") ∧
        Header.Get (restoreReferrer r).2.Header (str "Referer") = []) ∧
      (r.URL.Query.Get (str "dd_referrer") ≠ [] →
        Header.values (restoreReferrer r).2.Header (str "Referer") = [decoded] ∧
        Header.Get (restoreReferrer r).2.Header (str "Referer") = decoded) ∧
      (restoreReferrer r).2.URL.Query.Has (str "dd_referrer") = false ∧
      (∀ k, k ≠ str "dd_referrer" →
        Header.values (restoreReferrer r).2.URL.Query k = Header.values r.URL.Query k)) ∧
    (∀ err, QueryUnescape (r.URL.Query.Get (str "dd_referrer")) = Except.error err →
      restoreReferrer r = (some (str "fail to decoded dd_referrer query value: " ++ err), r)) := by
  have hcanon : CanonicalMIMEHeaderKey (str "Referer") = str "Referer" := by decide
  refine ⟨fun decoded hd => ?_, fun err hd => restoreReferrer_undecodable r err h hd⟩
  rw [restoreReferrer_decodable r decoded h hd]
  dsimp only
  have hn : (((r.URL.Query).Del (str "dd_referrer")).map Prod.fst).Nodup :=
    (url.Values.keys_after_Del _ _).2.nodup (ParseQuery_nodup _)
  refine ⟨rfl, fun he => ?_, fun he => ?_, ?_, fun k hk => ?_⟩
  · rw [if_pos he]
    refine ⟨fun e hmem => ?_, ?_⟩
    · have := Header.keys_Del _ _ e hmem
      rw [hcanon] at this
      exact this
    · unfold Header.Get
      rw [Header.values_Del]
  · rw [if_neg he]
    have hv : Header.values (Header.Set r.Header (str "Referer") decoded) (str "Referer")
        = [decoded] := by
      rw [Header.values_Set, if_pos hcanon]
    refine ⟨hv, ?_⟩
    unfold Header.Get
    rw [hcanon, hv]
  · cases hhas : URL.Query { r.URL with
        RawQuery := ((r.URL.Query).Del (str "dd_referrer")).Encode } |>.Has (str "dd_referrer") with
    | false => rfl
    | true =>
      rw [url.Values.Has_iff] at hhas
      exact absurd ((ParseQuery_Encode _ hn _).2 hhas) (url.Values.keys_after_Del _ _).1
  · show Header.values (ParseQuery ((r.URL.Query).Del (str "dd_referrer")).Encode) k = _
    rw [(ParseQuery_Encode _ hn k).1, url.Values.values_after_Del, if_neg hk]

set_option maxRecDepth 100000 in
theorem restoreReferrer_restores_witness :
    Header.Get (restoreReferrer requestWithFilledDDReferrer).2.Header (str "Referer")
      = str "Foo" ∧
    Header.Get (restoreReferrer requestWithEmptyDDReferrer).2.Header (str "Referer") = [] ∧
    Header.Get (restoreReferrer requestWithMultipleQueryParams).2.Header (str "Referer")
      = str "Foo" ∧
    (restoreReferrer requestWithMultipleQueryParams).2.URL.Query.Has (str "dd_referrer")
      = false ∧
    Header.values (restoreReferrer requestWithMultipleQueryParams).2.URL.Query (str "toto")
      = [str "tata"] ∧
    Header.Get (restoreReferrer requestWithEscapedDDReferrer).2.Header (str "Referer")
      = str "a/b" ∧
    Header.values (restoreReferrer requestWithEscapedDDReferrer).2.URL.Query (str "query")
      = [str "a b"] ∧
    restoreReferrer requestWithUndecodableDDReferrer =
      (some (str "fail to decoded dd_referrer query value: %zz"),
        requestWithUndecodableDDReferrer) :=
  ⟨(((restoreReferrer_restores requestWithFilledDDReferrer (by decide)).1 (str "Foo")
      rfl).2.2.1 (by decide)).2,
   (((restoreReferrer_restores requestWithEmptyDDReferrer (by decide)).1 [] rfl).2.1
      (by decide)).2,
   (((restoreReferrer_restores requestWithMultipleQueryParams (by decide)).1 (str "Foo")
      rfl).2.2.1 (by decide)).2,
   ((restoreReferrer_restores requestWithMultipleQueryParams (by decide)).1 (str "Foo")
      rfl).2.2.2.1,
   (((restoreReferrer_restores requestWithMultipleQueryParams (by decide)).1 (str "Foo")
      rfl).2.2.2.2 (str "toto") (by decide)).trans (by decide),
   (((restoreReferrer_restores requestWithEscapedDDReferrer (by decide)).1 (str "a/b")
      rfl).2.2.1 (by decide)).2,
   (((restoreReferrer_restores requestWithEscapedDDReferrer (by decide)).1 (str "a/b")
      rfl).2.2.2.2 (str "query") (by decide)).trans (by decide),
   (restoreReferrer_restores requestWithUndecodableDDReferrer (by decide)).2 (str "%zz") rfl⟩

end Datadome
